import Mathlib

/-!
# QJniArray marshalling and the multi-window demo

A shallow embedding of

* `src/corelib/kernel/qjniarray.h` (conversion between contiguous containers and
  Java arrays through JNI),
* `tests/manual/rhi/multiwindow/multiwindow.cpp` (window bookkeeping and
  graphics API selection of the demo, and the members of `Window` that handle
  expose events and render frames).

Java arrays live in an explicit heap that is threaded through every operation,
together with a log of the JNI calls issued; the JNI functions follow the JNI
specification.  Element values are the raw contents of an array slot (the bit
pattern of the element), so that the `reinterpret_cast`s of the source are the
identity on them.  A reference obtained with `object<T>()` carries the C++ type
`T`, and a JNI call is well-formed only for a reference of the array type it
takes.

The 32-bit integers of the source (`jsize`, `int`) are integers with an explicit
narrowing, `toJsize` and `toInt`.

A window is a record of its members; the RHI and the platform are its
environment: what `createOrResize` and `beginFrame` return is read from lists of
outcomes, exposure and surface size come with the expose event, and the calls
made are logged.  A member that would reach through a null `m_sc`, or that ends
the program with `qFatal`, has a fault for its result.
-/

namespace QJni

/-! ## JNI types -/

/-- The largest value of the 32-bit signed JNI type `jsize`. -/
def jsizeMax : Int := 2147483647

/-- Conversion `size_type(x)` of an integer to `jsize`: a value of the 32-bit range
is kept, any other value wraps (two's-complement narrowing). -/
def toJsize (n : Int) : Int :=
  if -2147483648 ≤ n ∧ n ≤ 2147483647 then n
  else (n + 2147483648) % 4294967296 - 2147483648

/-- Element types `T` of a `QJniArray<T>`: the eight JNI primitive types, the two
reference types produced by `makeObjectArray`, and `other` for a value type that
is none of them. -/
inductive JType
  | jboolean | jbyte | jchar | jshort | jint | jlong | jfloat | jdouble
  | jobject | jstring
  | other
  deriving DecidableEq, Repr

/-- The JNI primitive types. -/
def JType.isPrimitive : JType → Bool
  | .jboolean | .jbyte | .jchar | .jshort | .jint | .jlong | .jfloat | .jdouble => true
  | _ => false

/-- Where the element class of a new object array comes from. -/
inductive ClassRef
  | objectClass (obj : Nat)
  | findClass (name : String)
  | getObjectClass (obj : Nat)
  deriving DecidableEq, Repr

/-- The JNI calls (and the calls of the Qt JNI helpers) that the header issues;
`PushLocalFrame` is logged with the value it returns. -/
inductive JniCall
  | NewArray (T : JType) (length : Int)
  | SetArrayRegion (T : JType) (array : Nat) (start len : Int)
  | GetArrayRegion (T : JType) (array : Nat) (start len : Int)
  | GetArrayLength (array : Nat)
  | checkAndClearExceptions
  | classLookup (c : ClassRef)
  | NewObjectArray (length : Int) (elementClass : ClassRef)
  | GetObjectArrayElement (array : Nat) (index : Int)
  | SetObjectArrayElement (array : Nat) (index : Int) (obj : Nat)
  | PushLocalFrame (capacity : Int) (result : Int)
  | PopLocalFrame
  | convertToJni (element : Nat)
  | toString (obj : Nat)
  deriving DecidableEq, Repr

/-- A Java array on the heap. -/
structure JavaArray where
  elemType : JType
  elems : List Nat
  deriving DecidableEq, Repr

/-- The state behind a `JNIEnv *`.  A reference `r > 0` denotes `heap[r - 1]`, and
`0` is the null reference.  `allocOutcomes` and `pushOutcomes` decide the calls
that may fail for lack of memory: the head is consumed by the next call, `true`
makes it fail, and an exhausted list means success. -/
structure JNIEnv where
  heap : List JavaArray := []
  exceptionPending : Bool := false
  allocOutcomes : List Bool := []
  pushOutcomes : List Bool := []
  log : List JniCall := []
  deriving DecidableEq, Repr

/-- The array a reference denotes, if any. -/
def JNIEnv.lookup (env : JNIEnv) (ref : Nat) : Option JavaArray :=
  if ref = 0 then none else env.heap.get? (ref - 1)

/-- Appends a call to the log. -/
def JNIEnv.record (env : JNIEnv) (c : JniCall) : JNIEnv :=
  { env with log := env.log ++ [c] }

/-- Allocation shared by `New<Prim>Array` and `NewObjectArray`: a fresh array of
`length` zero (null) slots, or the null reference with a pending exception when
the length is negative or the allocation fails. -/
def JNIEnv.allocate (env : JNIEnv) (T : JType) (length : Int) : Nat × JNIEnv :=
  let env1 := { env with allocOutcomes := env.allocOutcomes.tail }
  if length < 0 ∨ env.allocOutcomes.head? = some true then
    (0, { env1 with exceptionPending := true })
  else
    (env.heap.length + 1,
      { env1 with heap := env.heap ++ [⟨T, List.replicate length.toNat 0⟩] })

/-- The JNI functions `New<Prim>Array(length)`. -/
def JNIEnv.NewArray (env : JNIEnv) (T : JType) (length : Int) : Nat × JNIEnv :=
  (env.record (.NewArray T length)).allocate T length

/-- The JNI function `NewObjectArray(length, elementClass, nullptr)`. -/
def JNIEnv.NewObjectArray (env : JNIEnv) (length : Int) (cls : ClassRef) : Nat × JNIEnv :=
  (env.record (.NewObjectArray length cls)).allocate .jobject length

/-- Overwrites the slots of `dst` from `start` on with `src`. -/
def writeRegion (dst : List Nat) (start : Nat) (src : List Nat) : List Nat :=
  dst.take start ++ src ++ dst.drop (start + src.length)

/-- Whether `[start, start + len)` is a region of an array with `n` slots. -/
def regionOk (n : Nat) (start len : Int) : Bool :=
  decide (0 ≤ start) && decide (0 ≤ len) && decide (start + len ≤ (n : Int))

/-- The JNI functions `Set<Prim>ArrayRegion(array, start, len, buf)`: copies `len`
elements of `buf` into the array; a region outside the array raises
`ArrayIndexOutOfBoundsException` and copies nothing.  An array of another
element type and a buffer with fewer than `len` elements are outside the JNI
contract; the model treats them like a region outside the array. -/
def JNIEnv.SetArrayRegion (env : JNIEnv) (T : JType) (array : Nat) (start len : Int)
    (buf : List Nat) : JNIEnv :=
  let env1 := env.record (.SetArrayRegion T array start len)
  match env1.lookup array with
  | none => env1
  | some a =>
    if a.elemType = T ∧ regionOk a.elems.length start len = true ∧ len.toNat ≤ buf.length then
      let a1 : JavaArray := { a with elems := writeRegion a.elems start.toNat (buf.take len.toNat) }
      { env1 with heap := env1.heap.set (array - 1) a1 }
    else
      { env1 with exceptionPending := true }

/-- The JNI functions `Get<Prim>ArrayRegion(array, start, len, buf)`: copies `len`
elements of the array into the front of `buf`, which is returned; a region
outside the array raises `ArrayIndexOutOfBoundsException` and leaves `buf` as
it was.  An array of another element type and a buffer with fewer than `len`
elements are outside the JNI contract; the model treats them like a region
outside the array. -/
def JNIEnv.GetArrayRegion (env : JNIEnv) (T : JType) (array : Nat) (start len : Int)
    (buf : List Nat) : List Nat × JNIEnv :=
  let env1 := env.record (.GetArrayRegion T array start len)
  match env1.lookup array with
  | none => (buf, env1)
  | some a =>
    if a.elemType = T ∧ regionOk a.elems.length start len = true ∧ len.toNat ≤ buf.length then
      (writeRegion buf 0 ((a.elems.drop start.toNat).take len.toNat), env1)
    else
      (buf, { env1 with exceptionPending := true })

/-- The JNI function `GetArrayLength(array)`. -/
def JNIEnv.GetArrayLength (env : JNIEnv) (array : Nat) : Int × JNIEnv :=
  let env1 := env.record (.GetArrayLength array)
  match env1.lookup array with
  | none => (0, env1)
  | some a => ((a.elems.length : Int), env1)

/-- The JNI function `GetObjectArrayElement(array, index)`. -/
def JNIEnv.GetObjectArrayElement (env : JNIEnv) (array : Nat) (index : Int) : Nat × JNIEnv :=
  let env1 := env.record (.GetObjectArrayElement array index)
  match env1.lookup array with
  | none => (0, env1)
  | some a =>
    if 0 ≤ index ∧ index < (a.elems.length : Int) then (a.elems.getD index.toNat 0, env1)
    else (0, { env1 with exceptionPending := true })

/-- The JNI function `SetObjectArrayElement(array, index, obj)`. -/
def JNIEnv.SetObjectArrayElement (env : JNIEnv) (array : Nat) (index : Int) (obj : Nat) :
    JNIEnv :=
  let env1 := env.record (.SetObjectArrayElement array index obj)
  match env1.lookup array with
  | none => env1
  | some a =>
    if 0 ≤ index ∧ index < (a.elems.length : Int) then
      let a1 : JavaArray := { a with elems := a.elems.set index.toNat obj }
      { env1 with heap := env1.heap.set (array - 1) a1 }
    else
      { env1 with exceptionPending := true }

/-- The JNI function `PushLocalFrame(capacity)`: `0` on success, a negative value
(with a pending `OutOfMemoryError`) on failure. -/
def JNIEnv.PushLocalFrame (env : JNIEnv) (capacity : Int) : Int × JNIEnv :=
  let result : Int := if env.pushOutcomes.head? = some true then -1 else 0
  let env1 :=
    { env.record (.PushLocalFrame capacity result) with pushOutcomes := env.pushOutcomes.tail }
  if result ≠ 0 then (result, { env1 with exceptionPending := true })
  else (result, env1)

/-- The JNI function `PopLocalFrame(nullptr)`. -/
def JNIEnv.PopLocalFrame (env : JNIEnv) : JNIEnv :=
  env.record .PopLocalFrame

/-- Modelled from the spec: `QJniEnvironment::checkAndClearExceptions` is declared
outside this header.  It reports whether a Java exception is pending and clears
it. -/
def checkAndClearExceptions (env : JNIEnv) : Bool × JNIEnv :=
  (env.exceptionPending, { env.record .checkAndClearExceptions with exceptionPending := false })

/-- Modelled from the spec: `QJniObject::LocalFrame::convertToJni` is declared
outside this header.  It yields the Java reference of a container element. -/
def convertToJni (env : JNIEnv) (element : Nat) : Nat × JNIEnv :=
  (element, env.record (.convertToJni element))

/-! ## QJniObject and QJniArray -/

/-- Modelled from the spec: `QJniObject` is declared outside this header.  It owns
a reference to a Java object and is valid when that reference is not null. -/
structure QJniObject where
  m_jobject : Nat := 0
  deriving DecidableEq, Repr

/-- The member `QJniObject::isValid`. -/
def QJniObject.isValid (o : QJniObject) : Bool := o.m_jobject != 0

/-- The member `QJniObject::object<T>`: the reference held, cast to `T`. -/
def QJniObject.object (o : QJniObject) : Nat := o.m_jobject

/-- The C++ types of the JNI array references.  The JNI header declares them as
distinct classes derived from the class of `jarray`: a reference converts to
`jarray` and to no other array type. -/
inductive ArrayRefType
  | jarray
  | jobjectArray
  | arrayOf (T : JType)
  deriving DecidableEq, Repr

/-- A JNI reference together with the C++ type of the expression that yields it. -/
structure JRef where
  type : ArrayRefType
  ref : Nat
  deriving DecidableEq, Repr

/-- The call `env->Get<Prim>ArrayRegion(array, start, len, buf)` as C++ sees it.  The
parameter `array` has the array type of `T`; with an argument of another array
type the call is ill-formed, and the member that contains it has no result. -/
def JNIEnv.callGetArrayRegion (env : JNIEnv) (T : JType) (array : JRef) (start len : Int)
    (buf : List Nat) : Option (List Nat × JNIEnv) :=
  if array.type = .arrayOf T then some (env.GetArrayRegion T array.ref start len buf) else none

/-- The call `env->GetObjectArrayElement(array, index)` as C++ sees it; the parameter
`array` is a `jobjectArray`. -/
def JNIEnv.callGetObjectArrayElement (env : JNIEnv) (array : JRef) (index : Int) :
    Option (Nat × JNIEnv) :=
  if array.type = .jobjectArray then some (env.GetObjectArrayElement array.ref index) else none

/-- The class `QJniArray<T>` with its base `QJniArrayBase`: the element type and the
`m_object` member. -/
structure QJniArray where
  T : JType
  m_object : QJniObject := {}
  deriving DecidableEq, Repr

/-- The containers `toContainer` returns: `QByteArray` for `jbyte`, `QStringList`
for `jstring` (each string stands for the Java string it was read from) and
`QList<T>` otherwise. -/
inductive Container
  | QByteArray (data : List Nat)
  | QStringList (strings : List Nat)
  | QList (T : JType) (items : List Nat)
  deriving DecidableEq, Repr

/-- The elements of a container, in order. -/
def Container.elems : Container → List Nat
  | .QByteArray data => data
  | .QStringList strings => strings
  | .QList _ items => items

namespace QJniArray

/-- The constructor `QJniArray()`. -/
def defaultConstructed (T : JType) : QJniArray := { T := T }

/-- The constructor `QJniArray(jarray array)`. -/
def fromArray (T : JType) (array : Nat) : QJniArray := { T := T, m_object := ⟨array⟩ }

/-- The member `object<T>()`: the reference held, as an expression of type `T`. -/
def object (a : QJniArray) (castTo : ArrayRefType) : JRef :=
  { type := castTo, ref := a.m_object.object }

/-- The member `isValid`. -/
def isValid (a : QJniArray) : Bool := a.m_object.isValid

/-- The member `size`. -/
def size (a : QJniArray) (env : JNIEnv) : Int × JNIEnv :=
  let array := a.object .jarray
  if array.ref ≠ 0 then env.GetArrayLength array.ref else (0, env)

/-- The member `isEmpty`. -/
def isEmpty (a : QJniArray) (env : JNIEnv) : Bool × JNIEnv :=
  let n := a.size env
  (n.1 == 0, n.2)

/-- The member `at(size_type i)`.  The result is `none` where the member is
ill-formed for the element type. -/
def at_ (a : QJniArray) (i : Int) (env : JNIEnv) : Option (Nat × JNIEnv) :=
  match a.T with
  | .jobject => env.callGetObjectArrayElement (a.object .jobjectArray) i
  | .jstring => env.callGetObjectArrayElement (a.object .jobjectArray) i
  | .jbyte =>
    (env.callGetArrayRegion .jbyte (a.object (.arrayOf .jbyte)) i 1 [0]).map
      fun res => (res.1.headD 0, res.2)
  | .jchar =>
    (env.callGetArrayRegion .jchar (a.object (.arrayOf .jchar)) i 1 [0]).map
      fun res => (res.1.headD 0, res.2)
  | .jboolean =>
    (env.callGetArrayRegion .jboolean (a.object (.arrayOf .jboolean)) i 1 [0]).map
      fun res => (res.1.headD 0, res.2)
  | .jshort =>
    (env.callGetArrayRegion .jshort (a.object (.arrayOf .jshort)) i 1 [0]).map
      fun res => (res.1.headD 0, res.2)
  | .jint =>
    (env.callGetArrayRegion .jint (a.object (.arrayOf .jbyte)) i 1 [0]).map
      fun res => (res.1.headD 0, res.2)
  | .jlong =>
    (env.callGetArrayRegion .jlong (a.object (.arrayOf .jlong)) i 1 [0]).map
      fun res => (res.1.headD 0, res.2)
  | .jfloat =>
    (env.callGetArrayRegion .jfloat (a.object (.arrayOf .jfloat)) i 1 [0]).map
      fun res => (res.1.headD 0, res.2)
  | .jdouble =>
    (env.callGetArrayRegion .jdouble (a.object (.arrayOf .jdouble)) i 1 [0]).map
      fun res => (res.1.headD 0, res.2)
  | .other => some (0, env)

/-- The member `operator[]`. -/
def operatorIndex (a : QJniArray) (i : Int) (env : JNIEnv) : Option (Nat × JNIEnv) :=
  a.at_ i env

end QJniArray

/-- The struct `QJniArrayIterator<T>`: `m_index` and the array `m_array` points to. -/
structure QJniArrayIterator where
  m_index : Int := 0
  m_array : QJniArray
  deriving DecidableEq, Repr

namespace QJniArrayIterator

/-- The member `operator*`; the `qsizetype` index narrows to the `size_type`
parameter of `at`. -/
def deref (it : QJniArrayIterator) (env : JNIEnv) : Option (Nat × JNIEnv) :=
  it.m_array.at_ (toJsize it.m_index) env

/-- The pre-increment `operator++`. -/
def increment (it : QJniArrayIterator) : QJniArrayIterator :=
  { it with m_index := it.m_index + 1 }

/-- The pre-decrement `operator--`. -/
def decrement (it : QJniArrayIterator) : QJniArrayIterator :=
  { it with m_index := it.m_index - 1 }

/-- The friend `comparesEqual`. -/
def comparesEqual (lhs rhs : QJniArrayIterator) : Bool :=
  lhs.m_index == rhs.m_index

end QJniArrayIterator

namespace QJniArray

/-- The member `begin`. -/
def begin_ (a : QJniArray) : QJniArrayIterator := { m_index := 0, m_array := a }

/-- The member `end`. -/
def end_ (a : QJniArray) (env : JNIEnv) : QJniArrayIterator × JNIEnv :=
  let n := a.size env
  ({ m_index := n.1, m_array := a }, n.2)

/-- The loop of a range-based `for` from `it` to `last`: `body` runs on every
element visited, and the indices visited are collected in the order of the
visits.  The result is `none` when `fuel` iterations do not reach `last`, or
when `operator*` has no result. -/
def rangeForLoop {σ : Type} (body : Nat → σ → JNIEnv → σ × JNIEnv) :
    Nat → QJniArrayIterator → QJniArrayIterator → σ → List Int → JNIEnv →
    Option (σ × List Int × JNIEnv)
  | 0, _, _, _, _, _ => none
  | fuel + 1, it, last, acc, visited, env =>
    if it.comparesEqual last then some (acc, visited, env)
    else
      match it.deref env with
      | none => none
      | some element =>
        let acc1 := body element.1 acc element.2
        rangeForLoop body fuel it.increment last acc1.1 (visited ++ [it.m_index]) acc1.2

/-- The statement `for (auto element : *this) body`: `begin()` and `end()` are
taken once, then the loop runs. -/
def rangeFor {σ : Type} (body : Nat → σ → JNIEnv → σ × JNIEnv) (fuel : Nat) (a : QJniArray)
    (init : σ) (env : JNIEnv) : Option (σ × List Int × JNIEnv) :=
  let first := a.begin_
  let last := a.end_ env
  rangeForLoop body fuel first last.1 init [] last.2

/-- The loop body `res.append(element)`. -/
def appendElement (element : Nat) (res : List Nat) (env : JNIEnv) : List Nat × JNIEnv :=
  (res ++ [element], env)

/-- The loop body `res.append(QJniObject(element).toString())`; `toString` is a call
into Java, and the string stands for the Java string it was read from. -/
def appendString (element : Nat) (res : List Nat) (env : JNIEnv) : List Nat × JNIEnv :=
  (res ++ [element], env.record (.toString element))

/-- The region read of the last arm of `toContainer`, by element type; the final
`else` of the source clears the list. -/
def readAll (a : QJniArray) (res : List Nat) (env : JNIEnv) : Option (List Nat × JNIEnv) :=
  match a.T with
  | .jchar =>
    env.callGetArrayRegion .jchar (a.object (.arrayOf .jchar)) 0 (toJsize res.length) res
  | .jboolean =>
    env.callGetArrayRegion .jboolean (a.object (.arrayOf .jboolean)) 0 (toJsize res.length) res
  | .jshort =>
    env.callGetArrayRegion .jshort (a.object (.arrayOf .jshort)) 0 (toJsize res.length) res
  | .jint =>
    env.callGetArrayRegion .jint (a.object (.arrayOf .jint)) 0 (toJsize res.length) res
  | .jlong =>
    env.callGetArrayRegion .jlong (a.object (.arrayOf .jlong)) 0 (toJsize res.length) res
  | .jfloat =>
    env.callGetArrayRegion .jfloat (a.object (.arrayOf .jfloat)) 0 (toJsize res.length) res
  | .jdouble =>
    env.callGetArrayRegion .jdouble (a.object (.arrayOf .jdouble)) 0 (toJsize res.length) res
  | _ => some ([], env)

/-- The member `toContainer`.  The loops of the two object arms get `fuel`
iterations; the result is `none` when they need more, or when a call in the
member is ill-formed.  The `QByteArray` is created uninitialised in the
source; the model fills it with zeros. -/
def toContainer (fuel : Nat) (a : QJniArray) (env : JNIEnv) : Option (Container × JNIEnv) :=
  match a.T with
  | .jobject =>
    let reserved := a.size env
    match a.rangeFor appendElement fuel [] reserved.2 with
    | none => none
    | some res => some (.QList .jobject res.1, res.2.2)
  | .jstring =>
    let reserved := a.size env
    match a.rangeFor appendString fuel [] reserved.2 with
    | none => none
    | some res => some (.QStringList res.1, res.2.2)
  | .jbyte =>
    let bytecount := a.size env
    let res := List.replicate bytecount.1.toNat 0
    let empty := a.isEmpty bytecount.2
    if !empty.1 then
      (empty.2.callGetArrayRegion .jbyte (a.object (.arrayOf .jbyte)) 0 (toJsize bytecount.1)
        res).map fun read => (.QByteArray read.1, read.2)
    else
      some (.QByteArray res, empty.2)
  | T =>
    let empty := a.isEmpty env
    if empty.1 then some (.QList T [], empty.2)
    else
      let n := a.size empty.2
      let res := List.replicate n.1.toNat 0
      (a.readAll res n.2).map fun read => (.QList T read.1, read.2)

end QJniArray

/-! ## Making arrays from containers -/

/-- The element types `Container::value_type` that `fromContainer` tells apart by
name; `declared` is a type derived from `QtJniTypes::JObjectBase`, and `other`
is any further type.  Types with different names are different types. -/
inductive CppType
  | jobject | QJniObject | QString
  | declared (name : String)
  | jfloat | jdouble
  | jboolean | bool
  | jbyte | char
  | jchar | QChar
  | jshort | jint | jlong
  | other (name : String)
  deriving DecidableEq, Repr

/-- The trait `std::is_base_of<QtJniTypes::JObjectBase, ElementType>`. -/
def CppType.isJObjectBase : CppType → Bool
  | .declared _ => true
  | _ => false

/-- Modelled from the spec: the return type of `LocalFrame::convertToJni`, declared
outside this header, which `makeObjectArray` takes as the element type of its
result: `jstring` for a `QString`, `jobject` for the other object types. -/
def convertToJniType : CppType → JType
  | .QString => .jstring
  | _ => .jobject

namespace QJniArrayBase

/-- The precondition `Q_ASSERT_X` states at the head of `fromContainer`. -/
def fromContainerPrecondition (container : List Nat) : Prop :=
  (container.length : Int) ≤ jsizeMax

/-- The function template `makeArray<ElementType>(list, newArray, setRegion)`;
`newArray` and `setRegion` name the element type of the JNI functions passed. -/
def makeArray (ElementType : JType) (list : List Nat) (newArray setRegion : JType)
    (env : JNIEnv) : QJniArray × JNIEnv :=
  let length := toJsize list.length
  let localArray := env.NewArray newArray length
  let exception := checkAndClearExceptions localArray.2
  if exception.1 then (QJniArray.defaultConstructed ElementType, exception.2)
  else
    let env3 :=
      if length ≠ 0 then exception.2.SetArrayRegion setRegion localArray.1 0 length list
      else exception.2
    (QJniArray.fromArray ElementType localArray.1, env3)

/-- The element class `makeObjectArray` creates the array with, taken from the
first element of the list. -/
def elementClass (ElementType : CppType) (first : Nat) : ClassRef :=
  if ElementType = .QJniObject ∨ ElementType.isJObjectBase = true then .objectClass first
  else if ElementType = .QString then .findClass "java/lang/String"
  else .getObjectClass first

/-- The body of the `for` loop of `makeObjectArray` after the frame handling:
the element is converted and stored at index `i`. -/
def storeElement (localArray : Nat) (element : Nat) (i : Int) (env : JNIEnv) : JNIEnv :=
  let object := convertToJni env element
  object.2.SetObjectArrayElement localArray (toJsize i) object.1

/-- The `for` loop of `makeObjectArray` over the remaining elements, with the
running index `i`.  The result is `none` when a `PushLocalFrame` fails and the
function returns early, and the final `i` otherwise. -/
def makeObjectArrayLoop (localArray : Nat) : List Nat → Int → JNIEnv → Option Int × JNIEnv
  | [], i, env => (some i, env)
  | element :: rest, i, env =>
    if i % 100 = 0 then
      let env1 := if i ≠ 0 then env.PopLocalFrame else env
      let pushed := env1.PushLocalFrame 100
      if pushed.1 ≠ 0 then (none, pushed.2)
      else makeObjectArrayLoop localArray rest (i + 1) (storeElement localArray element i pushed.2)
    else
      makeObjectArrayLoop localArray rest (i + 1) (storeElement localArray element i env)

/-- The function template `makeObjectArray(list)`. -/
def makeObjectArray (ElementType : CppType) (list : List Nat) (env : JNIEnv) :
    QJniArray × JNIEnv :=
  let ResultType := convertToJniType ElementType
  if list.length = 0 then (QJniArray.defaultConstructed ResultType, env)
  else
    let length := toJsize list.length
    let cls := elementClass ElementType (list.headD 0)
    let env0 := env.record (.classLookup cls)
    let localArray := env0.NewObjectArray length cls
    let exception := checkAndClearExceptions localArray.2
    if exception.1 then (QJniArray.defaultConstructed ResultType, exception.2)
    else
      let loop := makeObjectArrayLoop localArray.1 list 0 exception.2
      match loop.1 with
      | none => (QJniArray.defaultConstructed ResultType, loop.2)
      | some i =>
        let env4 := if i ≠ 0 then loop.2.PopLocalFrame else loop.2
        (QJniArray.fromArray ResultType localArray.1, env4)

/-- The function template `fromContainer(container)`, for a container with elements
of type `ElementType`; `sizeofT` gives `sizeof` of a type.  The result is `none`
when no arm of the `if constexpr` chain applies and the function returns
nothing. -/
def fromContainer (sizeofT : CppType → Nat) (ElementType : CppType) (container : List Nat)
    (env : JNIEnv) : Option (QJniArray × JNIEnv) :=
  if ElementType = .jobject ∨ ElementType = .QJniObject ∨ ElementType = .QString
      ∨ ElementType.isJObjectBase = true then
    some (makeObjectArray ElementType container env)
  else if ElementType = .jfloat then
    some (makeArray .jfloat container .jfloat .jfloat env)
  else if ElementType = .jdouble then
    some (makeArray .jdouble container .jdouble .jdouble env)
  else if ElementType = .jboolean ∨ ElementType = .bool then
    some (makeArray .jboolean container .jboolean .jboolean env)
  else if ElementType = .jbyte ∨ ElementType = .char then
    some (makeArray .jbyte container .jbyte .jbyte env)
  else if ElementType = .jchar ∨ ElementType = .QChar then
    some (makeArray .jchar container .jchar .jchar env)
  else if ElementType = .jshort ∨ sizeofT ElementType = sizeofT .jshort then
    some (makeArray .jshort container .jshort .jshort env)
  else if ElementType = .jint ∨ sizeofT ElementType = sizeofT .jint then
    some (makeArray .jint container .jint .jint env)
  else if ElementType = .jlong ∨ sizeofT ElementType = sizeofT .jlong then
    some (makeArray .jlong container .jlong .jlong env)
  else
    none

end QJniArrayBase

/-- The element type `T` of the `QJniArray<T>` that `fromContainer` returns for a
container with elements of type `ElementType`, if it returns an array. -/
def QJniArrayBase.fromContainerType (sizeofT : CppType → Nat) (ElementType : CppType)
    (container : List Nat) (env : JNIEnv) : Option JType :=
  (QJniArrayBase.fromContainer sizeofT ElementType container env).map fun r => r.1.T

/-- The element types of an object array. -/
def JType.isObject : JType → Bool
  | .jobject | .jstring => true
  | _ => false

/-- A valid primitive array: `a` has a primitive element type and refers, in `env`,
to the Java array `arr` of that element type; a Java array has at most 2^31-1
elements. -/
def QJniArray.ValidPrimitive (a : QJniArray) (env : JNIEnv) (arr : JavaArray) : Prop :=
  a.T.isPrimitive = true ∧ env.lookup a.m_object.m_jobject = some arr ∧ arr.elemType = a.T
    ∧ (arr.elems.length : Int) ≤ jsizeMax

/-- The length a call passes to a JNI array allocation, for the calls that
allocate an array. -/
def allocationLength : JniCall → Option Int
  | .NewArray _ length => some length
  | .NewObjectArray length _ => some length
  | _ => none

/-- The lengths passed to the JNI array allocations in a log, in call order. -/
def allocationLengths (log : List JniCall) : List Int :=
  log.filterMap allocationLength

/-- The sizes of the JNI types on every platform: `sizeof(jshort)`, `sizeof(jint)`
and `sizeof(jlong)` are 2, 4 and 8. -/
def JniSizes (sizeofT : CppType → Nat) : Prop :=
  sizeofT .jshort = 2 ∧ sizeofT .jint = 4 ∧ sizeofT .jlong = 8

/-- A `sizeof` for a 64-bit Android target, with a few further element types. -/
def sizeofAndroid64 : CppType → Nat
  | .jobject => 8 | .QJniObject => 8 | .QString => 24 | .declared _ => 8
  | .jfloat => 4 | .jdouble => 8
  | .jboolean => 1 | .bool => 1 | .jbyte => 1 | .char => 1
  | .jchar => 2 | .QChar => 2
  | .jshort => 2 | .jint => 4 | .jlong => 8
  | .other name =>
    if name = "char16_t" then 2
    else if name = "char32_t" then 4
    else if name = "quint64" then 8
    else if name = "QUuid" then 16
    else 1

/-! ## Local reference frames in a log -/

/-- The calls made between two states of the environment: the part of the later
log that follows the earlier log. -/
def callsSince (before after : JNIEnv) : List JniCall :=
  after.log.drop before.log.length

/-- The number of `PushLocalFrame` calls of a log that succeeded. -/
def pushedFrames (log : List JniCall) : Nat :=
  log.countP fun c =>
    match c with
    | .PushLocalFrame _ result => result == 0
    | _ => false

/-- The number of `PushLocalFrame` calls of a log that failed. -/
def failedPushes (log : List JniCall) : Nat :=
  log.countP fun c =>
    match c with
    | .PushLocalFrame _ result => result != 0
    | _ => false

/-- The capacities passed to the `PushLocalFrame` calls of a log. -/
def frameCapacities (log : List JniCall) : List Int :=
  log.filterMap fun c =>
    match c with
    | .PushLocalFrame capacity _ => some capacity
    | _ => none

/-- The number of `PopLocalFrame` calls of a log. -/
def poppedFrames (log : List JniCall) : Nat :=
  log.countP fun c =>
    match c with
    | .PopLocalFrame => true
    | _ => false

/-- The `SetObjectArrayElement` calls of a log, in call order: the array, the index
and the object stored. -/
def storedElements (log : List JniCall) : List (Nat × Int × Nat) :=
  log.filterMap fun c =>
    match c with
    | .SetObjectArrayElement array index obj => some (array, index, obj)
    | _ => none

/-- The elements passed to `convertToJni` in a log, in call order. -/
def convertedElements (log : List JniCall) : List Nat :=
  log.filterMap fun c =>
    match c with
    | .convertToJni element => some element
    | _ => none

/-- What a scan of a log knows about local frames: for every frame popped so far
the number of elements converted and the number of elements stored while it was
open, in the order of the pops; these two numbers for the frame that is open, if
one is; and the number of conversions and stores made while no frame was open. -/
structure FrameScan where
  closed : List (Nat × Nat) := []
  current : Option (Nat × Nat) := none
  outside : Nat := 0
  deriving DecidableEq, Repr

/-- One call of the scan: a successful `PushLocalFrame` opens a frame; a
`convertToJni` and a `SetObjectArrayElement` count for the open frame, or as made
outside of a frame when none is open; a `PopLocalFrame` closes the open
frame. -/
def FrameScan.step (s : FrameScan) : JniCall → FrameScan
  | .PushLocalFrame _ result => if result = 0 then { s with current := some (0, 0) } else s
  | .convertToJni _ =>
    match s.current with
    | some k => { s with current := some (k.1 + 1, k.2) }
    | none => { s with outside := s.outside + 1 }
  | .SetObjectArrayElement _ _ _ =>
    match s.current with
    | some k => { s with current := some (k.1, k.2 + 1) }
    | none => { s with outside := s.outside + 1 }
  | .PopLocalFrame =>
    match s.current with
    | some k => { s with closed := s.closed ++ [k], current := none }
    | none => s
  | _ => s

/-- The scan of a whole log. -/
def frameScan (log : List JniCall) : FrameScan :=
  log.foldl FrameScan.step {}

/-- The numbers of elements converted and stored in the open frame when the loop of
`makeObjectArray` is about to handle the element of index `i`: no frame is open
before the first element, and the frame pushed at the last multiple of 100
below `i` has seen the conversion and the store of every element from there
on. -/
def handledInOpenFrame (i : Int) : Option (Nat × Nat) :=
  if i = 0 then none else some (((i - 1) % 100).toNat + 1, ((i - 1) % 100).toNat + 1)

end QJni

/-- Conversion of an integer to the 32-bit C++ type `int`, which is also the value
an `int` operation wraps to: a value of the 32-bit range is kept, any other
value wraps (two's complement). -/
def toInt (n : Int) : Int :=
  if -2147483648 ≤ n ∧ n ≤ 2147483647 then n
  else (n + 2147483648) % 4294967296 - 2147483648

namespace MultiWindow

/-! ## The multi-window demo: graphics API selection -/

/-- The enum `GraphicsApi`. -/
inductive GraphicsApi
  | OpenGL | Vulkan | D3D11 | D3D12 | Metal
  deriving DecidableEq, Repr

/-- The build settings `main` tests with the preprocessor. -/
structure BuildConfig where
  Q_OS_WIN : Bool
  metal : Bool
  vulkan : Bool
  deriving DecidableEq, Repr

/-- The value `main` gives `graphicsApi` before it reads the command line. -/
def platformDefault (cfg : BuildConfig) : GraphicsApi :=
  if cfg.Q_OS_WIN then .D3D11
  else if cfg.metal then .Metal
  else if cfg.vulkan then .Vulkan
  else .OpenGL

/-- What `cmdLineParser.isSet` reports for the five API options. -/
structure ApiOptions where
  glOption : Bool := false
  vkOption : Bool := false
  d3dOption : Bool := false
  d3d12Option : Bool := false
  mtlOption : Bool := false
  deriving DecidableEq, Repr

/-- The value of `graphicsApi` when `main` reports the selected API: the platform
default, then the five `if (cmdLineParser.isSet(...))` statements in order. -/
def selectGraphicsApi (cfg : BuildConfig) (opts : ApiOptions) : GraphicsApi :=
  let g0 := platformDefault cfg
  let g1 := if opts.glOption then .OpenGL else g0
  let g2 := if opts.vkOption then .Vulkan else g1
  let g3 := if opts.d3dOption then .D3D11 else g2
  let g4 := if opts.d3d12Option then .D3D12 else g3
  if opts.mtlOption then .Metal else g4

/-- The API options in the order opengl, vulkan, d3d11, d3d12, metal. -/
def optionOrder : List GraphicsApi := [.OpenGL, .Vulkan, .D3D11, .D3D12, .Metal]

/-- Whether the option of an API was given on the command line. -/
def ApiOptions.isSet (opts : ApiOptions) : GraphicsApi → Bool
  | .OpenGL => opts.glOption
  | .Vulkan => opts.vkOption
  | .D3D11 => opts.d3dOption
  | .D3D12 => opts.d3d12Option
  | .Metal => opts.mtlOption

/-- The APIs whose option was given, in the order of `optionOrder`. -/
def ApiOptions.given (opts : ApiOptions) : List GraphicsApi :=
  optionOrder.filter opts.isSet

/-- The command line with the option of exactly one API. -/
def ApiOptions.only : GraphicsApi → ApiOptions
  | .OpenGL => { glOption := true }
  | .Vulkan => { vkOption := true }
  | .D3D11 => { d3dOption := true }
  | .D3D12 => { d3d12Option := true }
  | .Metal => { mtlOption := true }

/-! ## The multi-window demo: window bookkeeping -/

/-- The colours of the array `colors` in `createWindow`. -/
inductive GlobalColor
  | red | green | blue | yellow | cyan | gray
  deriving DecidableEq, Repr

/-- The array `colors` of `createWindow`. -/
def colors : List GlobalColor := [.red, .green, .blue, .yellow, .cyan, .gray]

/-- Modelled from the spec: the class `QSize`, declared outside the sources at
hand.  A default-constructed size is (-1, -1), and a size is empty when its
width or its height is not positive. -/
structure QSize where
  width : Int := -1
  height : Int := -1
  deriving DecidableEq, Repr

/-- The member `QSize::isEmpty`. -/
def QSize.isEmpty (s : QSize) : Bool :=
  decide (s.width ≤ 0) || decide (s.height ≤ 0)

/-- The object a `QRhiSwapChain *` points to, as far as the window uses it: the
pixel size it was last built with (`currentPixelSize()`), the flag `NoVSync`,
and the depth-stencil buffer and render pass descriptor set on it. -/
structure QRhiSwapChain where
  currentPixelSize : QSize := {}
  noVSync : Bool := false
  depthStencil : Option Nat := none
  renderPassDescriptor : Option Nat := none
  deriving DecidableEq, Repr

/-- The members of the class `Window`, as its constructor and its member
initialisers set them, with what the window uses of its base `QWindow`: the
title, the visibility, `isExposed()`, and the pixel size of its surface, which
`m_sc->surfacePixelSize()` reports.  A pointer member is `none` when null; the
resources of the RHI are named by numbers.  `m_proj` is named by the output
size it was computed for (`none` is the identity matrix). -/
structure Window where
  title : String
  m_bgColor : GlobalColor
  m_rotationAxis : Int
  m_noVSync : Bool
  visible : Bool := false
  m_running : Bool := false
  m_notExposed : Bool := false
  m_newlyExposed : Bool := false
  m_hasSwapChain : Bool := false
  m_rotation : Rat := 0
  m_opacity : Rat := 1
  m_opacityDir : Int := -1
  isExposed : Bool := false
  surfacePixelSize : QSize := {}
  m_proj : Option QSize := none
  m_releasePool : List Nat := []
  m_sc : Option QRhiSwapChain := none
  m_ds : Option Nat := none
  m_rp : Option Nat := none
  deriving DecidableEq, Repr

/-- The function `createWindow(noVSync)` on the list `d.windows`. -/
def createWindow (windows : List Window) (noVSync : Bool) : List Window :=
  let n := toInt windows.length
  let title := "Window #" ++ toString n ++ (if noVSync then " (no vsync)" else "")
  let w : Window :=
    { title := title
      m_bgColor := colors.getD (Int.tmod n 6).toNat .red
      m_rotationAxis := Int.tmod n 3
      m_noVSync := noVSync }
  (windows ++ [w]).modifyLast fun last => { last with visible := true }

/-- The function `closeWindow()` on the list `d.windows`; `takeLast` has no result
on an empty list. -/
def closeWindow (windows : List Window) : Option (List Window) :=
  if windows.isEmpty then none else some windows.dropLast

/-- The widgets and variables of `main` that the button handlers use, with the
list `d.windows`. -/
structure App where
  winCount : Int := 0
  label : String := "Window count: 0"
  vsCb : Bool := false
  windows : List Window := []
  deriving DecidableEq, Repr

/-- What the user can do in the control widget. -/
inductive Click
  | newWindow
  | closeWindow
  | checkBox
  deriving DecidableEq, Repr

/-- The handler of the button "New window". -/
def onNewWindow (app : App) : App :=
  let winCount := toInt (app.winCount + 1)
  let label := "Window count: " ++ toString winCount
  let noVSync := app.vsCb && decide (winCount > 1)
  { app with winCount := winCount, label := label, windows := createWindow app.windows noVSync }

/-- The handler of the button "Close window"; the result is `none` when
`closeWindow` runs on an empty list. -/
def onCloseWindow (app : App) : Option App :=
  if app.winCount > 0 then
    let winCount := toInt (app.winCount - 1)
    let label := "Window count: " ++ toString winCount
    match closeWindow app.windows with
    | none => none
    | some windows => some { app with winCount := winCount, label := label, windows := windows }
  else
    some app

/-- The invariant of the control widget: the counter is the number of windows in
`d.windows`, and the label displays the counter. -/
def App.Consistent (app : App) : Prop :=
  app.winCount = (app.windows.length : Int) ∧
  app.label = "Window count: " ++ toString app.winCount

/-- One click in the control widget; a click on the check box toggles it. -/
def click (app : App) : Click → Option App
  | .newWindow => some (onNewWindow app)
  | .closeWindow => onCloseWindow app
  | .checkBox => some { app with vsCb := !app.vsCb }

/-- A sequence of clicks, from the state `app`. -/
def run : App → List Click → Option App
  | app, [] => some app
  | app, c :: rest =>
    match click app c with
    | none => none
    | some app1 => run app1 rest

/-! ## The multi-window demo: the windows and the RHI -/

/-- The results of `QRhi::beginFrame` that `render` tells apart; `other` is any
further value of `QRhi::FrameOpResult`. -/
inductive FrameOpResult
  | FrameOpSuccess
  | FrameOpSwapChainOutOfDate
  | other
  deriving DecidableEq, Repr

/-- The calls a window makes that the claims talk about: the entry into the members
`init`, `resizeSwapChain`, `releaseSwapChain` and `render`, the calls into the
RHI (`createOrResize` and `beginFrame` with what they return), and
`requestUpdate`. -/
inductive Call
  | init | resizeSwapChain | releaseSwapChain | render
  | newSwapChain | newRenderBuffer | newCompatibleRenderPassDescriptor
  | ensureSharedResources
  | createOrResize (ok : Bool)
  | destroy
  | beginFrame (result : FrameOpResult)
  | nextResourceUpdateBatch
  | merge
  | updateDynamicBuffer (offset size : Nat)
  | beginPass | setGraphicsPipeline | setViewport (size : QSize) | setShaderResources
  | setVertexInput | draw (vertexCount : Nat) | endPass
  | endFrame
  | requestUpdate
  deriving DecidableEq, Repr

/-- The pointers of the global `d` apart from the window list, with the render
pass descriptor the pipeline was created with. -/
structure Shared where
  vbuf : Option Nat := none
  ubuf : Option Nat := none
  srb : Option Nat := none
  ps : Option Nat := none
  initialUpdates : Option Nat := none
  psRenderPassDescriptor : Option Nat := none
  deriving DecidableEq, Repr

/-- What a window shares with the rest of the program and with the platform: the
global `d`, whether the two shader packs load, the number that names the next
RHI resource, and the log of the calls made.  `createOrResizeOutcomes` and
`beginFrameOutcomes` decide what the next `createOrResize` and `beginFrame`
return: the head is consumed by the call; for `createOrResize`, `none` is a
failure and `some size` a success that leaves the swapchain with that pixel
size; an exhausted list means success (with the pixel size of the surface). -/
structure World where
  d : Shared := {}
  vertexShaderValid : Bool := true
  fragmentShaderValid : Bool := true
  createOrResizeOutcomes : List (Option QSize) := []
  beginFrameOutcomes : List FrameOpResult := []
  nextResource : Nat := 1
  log : List Call := []
  deriving DecidableEq, Repr

/-- Why a member does not return: it calls a member through a null `m_sc`, or it
ends the program with `qFatal`. -/
inductive Fault
  | nullSwapChain
  | qFatal (message : String)
  deriving DecidableEq, Repr

/-- Appends a call to the log. -/
def World.record (world : World) (c : Call) : World :=
  { world with log := world.log ++ [c] }

/-- The calls made between two states of the world: the part of the later log that
follows the earlier log. -/
def callsSince (before after : World) : List Call :=
  after.log.drop before.log.length

/-- The function `ensureSharedResources(rp)`: each of `d.vbuf`, `d.ubuf`, `d.srb`
and `d.ps` is created if it is null. -/
def ensureSharedResources (rp : Option Nat) (world : World) : Except Fault World :=
  let world0 := world.record .ensureSharedResources
  let world1 : World :=
    if world0.d.vbuf = none then
      { world0 with
          d := { world0.d with
                  vbuf := some world0.nextResource
                  initialUpdates := some (world0.nextResource + 1) }
          nextResource := world0.nextResource + 2 }
    else world0
  let world2 : World :=
    if world1.d.ubuf = none then
      { world1 with
          d := { world1.d with ubuf := some world1.nextResource }
          nextResource := world1.nextResource + 1 }
    else world1
  let world3 : World :=
    if world2.d.srb = none then
      { world2 with
          d := { world2.d with srb := some world2.nextResource }
          nextResource := world2.nextResource + 1 }
    else world2
  if world3.d.ps = none then
    if !world3.vertexShaderValid then .error (.qFatal "Failed to load shader pack (vertex)")
    else if !world3.fragmentShaderValid then
      .error (.qFatal "Failed to load shader pack (fragment)")
    else
      .ok { world3 with
              d := { world3.d with ps := some world3.nextResource, psRenderPassDescriptor := rp }
              nextResource := world3.nextResource + 1 }
  else .ok world3

/-- The function `destroySharedResources()`. -/
def destroySharedResources (world : World) : World :=
  { world with d := { world.d with ps := none, srb := none, vbuf := none, ubuf := none } }

namespace Window

/-- The member `Window::init`. -/
def init (w : Window) (world : World) : Except Fault (Window × World) :=
  let world1 := (world.record .init).record .newSwapChain
  let ds := world1.nextResource
  let world2 := { world1.record .newRenderBuffer with nextResource := world1.nextResource + 1 }
  let rp := world2.nextResource
  let world3 :=
    { world2.record .newCompatibleRenderPassDescriptor with
        nextResource := world2.nextResource + 1 }
  let sc : QRhiSwapChain :=
    { noVSync := w.m_noVSync, depthStencil := some ds, renderPassDescriptor := some rp }
  let w1 : Window :=
    { w with
        m_sc := some sc
        m_ds := some ds
        m_rp := some rp
        m_releasePool := w.m_releasePool ++ [ds, rp] }
  match ensureSharedResources (some rp) world3 with
  | .error fault => .error fault
  | .ok world4 => .ok (w1, world4)

/-- The member `Window::releaseResources`. -/
def releaseResources (w : Window) : Window :=
  { w with m_releasePool := [], m_sc := none }

/-- The member `Window::resizeSwapChain`. -/
def resizeSwapChain (w : Window) (world : World) : Except Fault (Window × World) :=
  match w.m_sc with
  | none => .error .nullSwapChain
  | some sc =>
    let outcome := world.createOrResizeOutcomes.head?.getD (some w.surfacePixelSize)
    let world1 :=
      { (world.record .resizeSwapChain).record (.createOrResize outcome.isSome) with
          createOrResizeOutcomes := world.createOrResizeOutcomes.tail }
    let sc1 : QRhiSwapChain := { sc with currentPixelSize := outcome.getD sc.currentPixelSize }
    .ok ({ w with
            m_hasSwapChain := outcome.isSome
            m_sc := some sc1
            m_proj := some sc1.currentPixelSize }, world1)

/-- The member `Window::releaseSwapChain`. -/
def releaseSwapChain (w : Window) (world : World) : Except Fault (Window × World) :=
  let world0 := world.record .releaseSwapChain
  if w.m_hasSwapChain then
    match w.m_sc with
    | none => .error .nullSwapChain
    | some _ => .ok ({ w with m_hasSwapChain := false }, world0.record .destroy)
  else .ok (w, world0)

/-- The call `r.r->beginFrame(m_sc)`. -/
def beginFrame (world : World) : FrameOpResult × World :=
  let result := world.beginFrameOutcomes.head?.getD .FrameOpSuccess
  (result,
    { world.record (.beginFrame result) with
        beginFrameOutcomes := world.beginFrameOutcomes.tail })

/-- Modelled from the spec: the function `qBound(min, val, max)`, declared outside
the sources at hand, which clamps `val` to the range from `min` to `max`. -/
def qBound (min val max : Rat) : Rat :=
  if val < min then min else if max < val then max else val

/-- The calls of `Window::render` after a successful `beginFrame`, in order: the
resource updates (with the merge of `d.initialUpdates` when it is not null),
the pass with its draw call, `endFrame` and `requestUpdate`. -/
def frameCalls (merge : Bool) (outputSizeInPixels : QSize) : List Call :=
  [.nextResourceUpdateBatch] ++ (if merge then [.merge] else []) ++
    [.updateDynamicBuffer 0 64, .updateDynamicBuffer 64 4,
     .beginPass, .setGraphicsPipeline, .setViewport outputSizeInPixels, .setShaderResources,
     .setVertexInput, .draw 3, .endPass, .endFrame, .requestUpdate]

/-- The part of `Window::render` after a successful `beginFrame`: the frame is
recorded and ended, and the next update is requested.  Rotation and opacity
are exact rational numbers. -/
def renderFrame (w : Window) (sc : QRhiSwapChain) (world : World) : Window × World :=
  let outputSizeInPixels := sc.currentPixelSize
  let world1 : World :=
    { world with
        d := { world.d with initialUpdates := none }
        log := world.log ++ frameCalls world.d.initialUpdates.isSome outputSizeInPixels }
  let rotation := w.m_rotation + 1
  let opacity := w.m_opacity + (w.m_opacityDir : Rat) * (1 / 200)
  let bounce : Bool := decide (opacity < 0) || decide (opacity > 1)
  let opacityDir := if bounce then toInt (w.m_opacityDir * -1) else w.m_opacityDir
  let opacity1 := if bounce then qBound 0 opacity 1 else opacity
  ({ w with m_rotation := rotation, m_opacity := opacity1, m_opacityDir := opacityDir }, world1)

/-- The part of `Window::render` from the test of the result of `beginFrame` on. -/
def renderResult (w : Window) (result : FrameOpResult) (world : World) :
    Except Fault (Window × World) :=
  if result ≠ .FrameOpSuccess then .ok (w, world.record .requestUpdate)
  else
    match w.m_sc with
    | none => .error .nullSwapChain
    | some sc => .ok (w.renderFrame sc world)

/-- The part of `Window::render` from the first `beginFrame` on. -/
def renderBegin (w : Window) (world : World) : Except Fault (Window × World) :=
  let first := beginFrame world
  if first.1 = .FrameOpSwapChainOutOfDate then
    match w.resizeSwapChain first.2 with
    | .error fault => .error fault
    | .ok resized =>
      if !resized.1.m_hasSwapChain then .ok resized
      else
        let second := beginFrame resized.2
        resized.1.renderResult second.1 second.2
  else w.renderResult first.1 first.2

/-- The member `Window::render`. -/
def render (w : Window) (world : World) : Except Fault (Window × World) :=
  let world0 := world.record .render
  if !w.m_hasSwapChain || w.m_notExposed then .ok (w, world0)
  else
    match w.m_sc with
    | none => .error .nullSwapChain
    | some sc =>
      if sc.currentPixelSize ≠ w.surfacePixelSize ∨ w.m_newlyExposed = true then
        match w.resizeSwapChain world0 with
        | .error fault => .error fault
        | .ok resized =>
          if !resized.1.m_hasSwapChain then .ok resized
          else renderBegin { resized.1 with m_newlyExposed := false } resized.2
      else w.renderBegin world0

/-- The expression `m_sc->surfacePixelSize().isEmpty()`. -/
def surfaceIsEmpty (w : Window) : Except Fault Bool :=
  match w.m_sc with
  | none => .error .nullSwapChain
  | some _ => .ok w.surfacePixelSize.isEmpty

/-- The first statement of `Window::exposeEvent`: "initialize and start rendering
when the window becomes usable for graphics purposes". -/
def exposeStart (w : Window) (world : World) : Except Fault (Window × World) :=
  if w.isExposed && !w.m_running then
    match ({ w with m_running := true } : Window).init world with
    | .error fault => .error fault
    | .ok started => started.1.resizeSwapChain started.2
  else .ok (w, world)

/-- The second statement of `Window::exposeEvent`: "stop pushing frames when not
exposed (or size is 0)". -/
def exposeStop (w : Window) : Except Fault Window :=
  if !w.isExposed then
    .ok (if w.m_running then { w with m_notExposed := true } else w)
  else if w.m_hasSwapChain then
    match w.surfaceIsEmpty with
    | .error fault => .error fault
    | .ok empty => .ok (if empty && w.m_running then { w with m_notExposed := true } else w)
  else .ok w

/-- The third statement of `Window::exposeEvent`: "continue when exposed again and
the surface has a valid size". -/
def exposeContinue (w : Window) : Except Fault Window :=
  if w.isExposed && w.m_running && w.m_notExposed then
    match w.surfaceIsEmpty with
    | .error fault => .error fault
    | .ok empty =>
      .ok (if !empty then { w with m_notExposed := false, m_newlyExposed := true } else w)
  else .ok w

/-- The last statement of `Window::exposeEvent`: "always render a frame on
exposeEvent() (when exposed)". -/
def exposeRender (w : Window) (world : World) : Except Fault (Window × World) :=
  if w.isExposed then
    match w.surfaceIsEmpty with
    | .error fault => .error fault
    | .ok empty => if !empty then w.render world else .ok (w, world)
  else .ok (w, world)

/-- The member `Window::exposeEvent`. -/
def exposeEvent (w : Window) (world : World) : Except Fault (Window × World) :=
  match w.exposeStart world with
  | .error fault => .error fault
  | .ok started =>
    match started.1.exposeStop with
    | .error fault => .error fault
    | .ok stopped =>
      match stopped.exposeContinue with
      | .error fault => .error fault
      | .ok continued => continued.exposeRender started.2

end Window

/-- The events a window receives: an expose event, before which the platform has
set whether the window is exposed and the pixel size of its surface; an update
request; a platform surface event, which says whether the surface is about to
be destroyed; and any other event. -/
inductive Event
  | Expose (isExposed : Bool) (surfacePixelSize : QSize)
  | UpdateRequest
  | PlatformSurface (surfaceAboutToBeDestroyed : Bool)
  | other
  deriving DecidableEq, Repr

/-- An expose event for an exposed window. -/
def Event.isExposure : Event → Bool
  | .Expose isExposed _ => isExposed
  | _ => false

/-- The member `Window::event`, with the call of `exposeEvent` that `QWindow::event`
makes for an expose event. -/
def Window.event (w : Window) (e : Event) (world : World) : Except Fault (Window × World) :=
  match e with
  | .UpdateRequest => w.render world
  | .PlatformSurface surfaceAboutToBeDestroyed =>
    if surfaceAboutToBeDestroyed then w.releaseSwapChain world else .ok (w, world)
  | .Expose isExposed surfacePixelSize =>
    ({ w with isExposed := isExposed, surfacePixelSize := surfacePixelSize } : Window).exposeEvent
      world
  | .other => .ok (w, world)

/-- The `switch` statement of `Window::event`, which comes before the call of
`QWindow::event`: an update request runs `render`, a platform surface event for
a surface that is about to be destroyed runs `releaseSwapChain`, and no other
event does anything here. -/
def Window.eventSwitch (w : Window) (e : Event) (world : World) :
    Except Fault (Window × World) :=
  match e with
  | .UpdateRequest => w.render world
  | .PlatformSurface surfaceAboutToBeDestroyed =>
    if surfaceAboutToBeDestroyed then w.releaseSwapChain world else .ok (w, world)
  | _ => .ok (w, world)

/-- Modelled from the spec: the call `QWindow::event(e)` that ends `Window::event`;
`QWindow` is declared outside the sources at hand.  Of what it does, the model
keeps the call of the virtual `exposeEvent` for an expose event, before which
the platform has set whether the window is exposed and the pixel size of its
surface. -/
def Window.baseEvent (w : Window) (e : Event) (world : World) : Except Fault (Window × World) :=
  match e with
  | .Expose isExposed surfacePixelSize =>
    ({ w with isExposed := isExposed, surfacePixelSize := surfacePixelSize } : Window).exposeEvent
      world
  | _ => .ok (w, world)

/-- The opacity animation is in range: `m_opacityDir` is 1 or -1, and `m_opacity` lies
between 0 and 1. -/
def Window.OpacityInRange (w : Window) : Prop :=
  (w.m_opacityDir = 1 ∨ w.m_opacityDir = -1) ∧ 0 ≤ w.m_opacity ∧ w.m_opacity ≤ 1

/-- What the calls of one `render` do to the opacity of the window `w`, which they
leave as the window `v`: with no `endFrame` among the calls the opacity and its
direction are as before, and with one `endFrame` they are those that the
recording of one frame computes. -/
def Window.OpacityAfter (w v : Window) (calls : List Call) : Prop :=
  (calls.count .endFrame = 0 ∧ v.m_opacity = w.m_opacity ∧ v.m_opacityDir = w.m_opacityDir) ∨
  (calls.count .endFrame = 1 ∧ ∀ (sc : QRhiSwapChain) (world : World),
    v.m_opacity = (w.renderFrame sc world).1.m_opacity ∧
    v.m_opacityDir = (w.renderFrame sc world).1.m_opacityDir)

/-- A sequence of events delivered to a window, in order; it ends with the first
event whose handling does not return. -/
def Window.events (w : Window) (world : World) : List Event → Except Fault (Window × World)
  | [] => .ok (w, world)
  | e :: rest =>
    match w.event e world with
    | .error fault => .error fault
    | .ok next => Window.events next.1 next.2 rest

/-- The state a window keeps between events so that its members do not reach
through a null `m_sc`: a running window has its swapchain object, and
`m_hasSwapChain` is set only in a running window. -/
def Window.Started (w : Window) : Prop :=
  (w.m_running = true → w.m_sc ≠ none) ∧ (w.m_hasSwapChain = true → w.m_running = true)

/-- The shader packs load, or the pipeline exists already: `ensureSharedResources`
does not end the program. -/
def World.ShadersLoad (world : World) : Prop :=
  world.d.ps ≠ none ∨ (world.vertexShaderValid = true ∧ world.fragmentShaderValid = true)

/-- The calls `render` makes from its first `beginFrame` on, path by path: the
first result is out-of-date and the resize fails; the first result is
out-of-date, the resize succeeds and the second result is not success; the
same with a second result that is success; the first result is neither
out-of-date nor success; the first result is success. -/
inductive BeginFramePath : List Call → Prop
  | resizeFailed :
    BeginFramePath
      [.beginFrame .FrameOpSwapChainOutOfDate, .resizeSwapChain, .createOrResize false]
  | retryFailed (result : FrameOpResult) (h : result ≠ .FrameOpSuccess) :
    BeginFramePath
      [.beginFrame .FrameOpSwapChainOutOfDate, .resizeSwapChain, .createOrResize true,
       .beginFrame result, .requestUpdate]
  | retrySucceeded (merge : Bool) (size : QSize) :
    BeginFramePath
      ([.beginFrame .FrameOpSwapChainOutOfDate, .resizeSwapChain, .createOrResize true,
        .beginFrame .FrameOpSuccess] ++ Window.frameCalls merge size)
  | failed (result : FrameOpResult) (h1 : result ≠ .FrameOpSuccess)
      (h2 : result ≠ .FrameOpSwapChainOutOfDate) :
    BeginFramePath [.beginFrame result, .requestUpdate]
  | succeeded (merge : Bool) (size : QSize) :
    BeginFramePath ([.beginFrame .FrameOpSuccess] ++ Window.frameCalls merge size)

/-- The first window of the demo as `createWindow(false)` creates and shows it,
before any event. -/
def firstWindow : Window :=
  { title := "Window #0"
    m_bgColor := .red
    m_rotationAxis := 0
    m_noVSync := false
    visible := true }

/-- The first window of the demo, exposed with a surface of 800x600 pixels and with
a swapchain of that size. -/
def exposedWindow : Window :=
  { title := "Window #0"
    m_bgColor := .red
    m_rotationAxis := 0
    m_noVSync := false
    visible := true
    m_running := true
    m_hasSwapChain := true
    isExposed := true
    surfacePixelSize := { width := 800, height := 600 }
    m_proj := some { width := 800, height := 600 }
    m_releasePool := [1, 2]
    m_sc := some
      { currentPixelSize := { width := 800, height := 600 }
        depthStencil := some 1
        renderPassDescriptor := some 2 }
    m_ds := some 1
    m_rp := some 2 }

/-- A world in which the next `beginFrame` reports `FrameOpSwapChainOutOfDate` and
the next `createOrResize` fails. -/
def outOfDateAndResizeFails : World :=
  { d := { vbuf := some 3, ubuf := some 5, srb := some 6, ps := some 7,
           psRenderPassDescriptor := some 2 }
    beginFrameOutcomes := [.FrameOpSwapChainOutOfDate]
    createOrResizeOutcomes := [none]
    nextResource := 8 }

/-- The results of the `beginFrame` calls of a log, in call order. -/
def beginFrames (log : List Call) : List FrameOpResult :=
  log.filterMap fun c =>
    match c with
    | .beginFrame result => some result
    | _ => none

/-- What a scan of a log knows about frames and passes: whether a frame is open
(a `beginFrame` returned `FrameOpSuccess` and no `endFrame` followed), whether a
pass is open in it, and whether every call so far was in its place. -/
structure FrameState where
  inFrame : Bool := false
  inPass : Bool := false
  ok : Bool := true
  deriving DecidableEq, Repr

/-- One call of the scan.  A `beginFrame` is in its place outside a frame, and
opens one when it succeeds; a `beginPass` is in its place in a frame outside a
pass; a `draw` is in its place in a pass; an `endPass` ends the open pass; an
`endFrame` ends the open frame outside a pass. -/
def FrameState.step (s : FrameState) : Call → FrameState
  | .beginFrame result =>
    { s with inFrame := decide (result = .FrameOpSuccess), ok := s.ok && !s.inFrame }
  | .beginPass => { s with inPass := true, ok := s.ok && s.inFrame && !s.inPass }
  | .draw _ => { s with ok := s.ok && s.inPass }
  | .endPass => { s with inPass := false, ok := s.ok && s.inPass }
  | .endFrame => { s with inFrame := false, ok := s.ok && s.inFrame && !s.inPass }
  | _ => s

/-- The scan of a whole log. -/
def frameState (log : List Call) : FrameState :=
  log.foldl FrameState.step {}

end MultiWindow

/-! # Theorems -/

namespace QJni

/-! ## Facts about the JNI model -/

/-- The narrowing to `jsize` is reduction modulo 2^32 into the signed range. -/
theorem toJsize_eq_wrap (n : Int) :
    toJsize n = (n + 2147483648) % 4294967296 - 2147483648 := by
  unfold toJsize
  split_ifs with h
  · omega
  · rfl

theorem toJsize_eq_self {n : Int} (h0 : 0 ≤ n) (h1 : n ≤ jsizeMax) : toJsize n = n := by
  unfold toJsize
  unfold jsizeMax at h1
  rw [if_pos ⟨by omega, h1⟩]

@[simp] theorem record_log (env : JNIEnv) (c : JniCall) : (env.record c).log = env.log ++ [c] :=
  rfl

@[simp] theorem record_heap (env : JNIEnv) (c : JniCall) : (env.record c).heap = env.heap :=
  rfl

@[simp] theorem record_lookup (env : JNIEnv) (c : JniCall) (r : Nat) :
    (env.record c).lookup r = env.lookup r :=
  rfl

@[simp] theorem allocate_log (env : JNIEnv) (T : JType) (n : Int) :
    (env.allocate T n).2.log = env.log := by
  unfold JNIEnv.allocate
  split <;> rfl

@[simp] theorem NewArray_log (env : JNIEnv) (T : JType) (n : Int) :
    (env.NewArray T n).2.log = env.log ++ [.NewArray T n] := by
  simp [JNIEnv.NewArray]

@[simp] theorem NewObjectArray_log (env : JNIEnv) (n : Int) (cls : ClassRef) :
    (env.NewObjectArray n cls).2.log = env.log ++ [.NewObjectArray n cls] := by
  simp [JNIEnv.NewObjectArray]

@[simp] theorem SetArrayRegion_log (env : JNIEnv) (T : JType) (array : Nat) (start len : Int)
    (buf : List Nat) :
    (env.SetArrayRegion T array start len buf).log
      = env.log ++ [.SetArrayRegion T array start len] := by
  unfold JNIEnv.SetArrayRegion
  dsimp only
  split
  · rfl
  · split <;> rfl

@[simp] theorem GetArrayRegion_log (env : JNIEnv) (T : JType) (array : Nat) (start len : Int)
    (buf : List Nat) :
    (env.GetArrayRegion T array start len buf).2.log
      = env.log ++ [.GetArrayRegion T array start len] := by
  unfold JNIEnv.GetArrayRegion
  dsimp only
  split
  · rfl
  · split <;> rfl

@[simp] theorem GetArrayLength_log (env : JNIEnv) (array : Nat) :
    (env.GetArrayLength array).2.log = env.log ++ [.GetArrayLength array] := by
  unfold JNIEnv.GetArrayLength
  dsimp only
  split <;> rfl

@[simp] theorem SetObjectArrayElement_log (env : JNIEnv) (array : Nat) (index : Int) (obj : Nat) :
    (env.SetObjectArrayElement array index obj).log
      = env.log ++ [.SetObjectArrayElement array index obj] := by
  unfold JNIEnv.SetObjectArrayElement
  dsimp only
  split
  · rfl
  · split <;> rfl

@[simp] theorem PushLocalFrame_log (env : JNIEnv) (capacity : Int) :
    (env.PushLocalFrame capacity).2.log
      = env.log ++ [.PushLocalFrame capacity (env.PushLocalFrame capacity).1] := by
  unfold JNIEnv.PushLocalFrame
  dsimp only
  split <;> rfl

@[simp] theorem PopLocalFrame_log (env : JNIEnv) :
    env.PopLocalFrame.log = env.log ++ [.PopLocalFrame] :=
  rfl

@[simp] theorem checkAndClearExceptions_log (env : JNIEnv) :
    (checkAndClearExceptions env).2.log = env.log ++ [.checkAndClearExceptions] :=
  rfl

@[simp] theorem convertToJni_log (env : JNIEnv) (element : Nat) :
    (convertToJni env element).2.log = env.log ++ [.convertToJni element] :=
  rfl

@[simp] theorem allocationLengths_append (l1 l2 : List JniCall) :
    allocationLengths (l1 ++ l2) = allocationLengths l1 ++ allocationLengths l2 := by
  simp [allocationLengths]

@[simp] theorem allocationLengths_nil : allocationLengths [] = [] :=
  rfl

@[simp] theorem allocationLengths_cons (c : JniCall) (l : List JniCall) :
    allocationLengths (c :: l) = (allocationLength c).toList ++ allocationLengths l := by
  cases h : allocationLength c <;> simp [allocationLengths, List.filterMap_cons, h]

@[simp] theorem storeElement_log (localArray element : Nat) (i : Int) (env : JNIEnv) :
    (QJniArrayBase.storeElement localArray element i env).log
      = env.log ++ [.convertToJni element, .SetObjectArrayElement localArray (toJsize i) element] := by
  simp [QJniArrayBase.storeElement, convertToJni]

/-- The loop of `makeObjectArray` allocates no array. -/
theorem makeObjectArrayLoop_allocationLengths (localArray : Nat) (list : List Nat) :
    ∀ (i : Int) (env : JNIEnv),
      allocationLengths (QJniArrayBase.makeObjectArrayLoop localArray list i env).2.log
        = allocationLengths env.log := by
  induction list with
  | nil => intro i env; rfl
  | cons element rest ih =>
    intro i env
    rw [QJniArrayBase.makeObjectArrayLoop]
    dsimp only
    split_ifs <;> simp [ih, allocationLength]

/-- The one allocation `makeObjectArray` makes for a non-empty list. -/
theorem makeObjectArray_allocationLengths (ObjectType : CppType) (list : List Nat)
    (env : JNIEnv) (hne : list ≠ []) :
    allocationLengths (QJniArrayBase.makeObjectArray ObjectType list env).2.log
      = allocationLengths env.log ++ [toJsize (list.length : Nat)] := by
  have hlen : list.length ≠ 0 := fun h => hne (List.length_eq_zero.mp h)
  rw [QJniArrayBase.makeObjectArray.eq_def]
  dsimp only
  rw [if_neg hlen]
  split_ifs with hexc
  · simp [allocationLength]
  · split
    · simp [makeObjectArrayLoop_allocationLengths, allocationLength]
    · split_ifs <;> simp [makeObjectArrayLoop_allocationLengths, allocationLength]

/-- The one allocation `makeArray` makes. -/
theorem makeArray_allocationLengths (ElementType newArray setRegion : JType) (list : List Nat)
    (env : JNIEnv) :
    allocationLengths (QJniArrayBase.makeArray ElementType list newArray setRegion env).2.log
      = allocationLengths env.log ++ [toJsize (list.length : Nat)] := by
  rw [QJniArrayBase.makeArray.eq_def]
  dsimp only
  split_ifs <;> simp [allocationLength]

/-! ## Claims about `fromContainer`, `makeArray` and `makeObjectArray` -/

/-- C3: under the precondition of `fromContainer` (the container has at most
2^31-1 elements) the narrowing of the container size to `jsize` is exact and not
negative, `makeArray` passes exactly the container size to the one JNI array
allocation it makes, and so does `makeObjectArray` (which allocates only for a
non-empty container). -/
theorem C3_allocation_length_is_container_size (list : List Nat) (env : JNIEnv)
    (ElementType newArray setRegion : JType) (ObjectType : CppType)
    (h : QJniArrayBase.fromContainerPrecondition list) :
    toJsize list.length = (list.length : Int) ∧ 0 ≤ toJsize list.length ∧
    allocationLengths (QJniArrayBase.makeArray ElementType list newArray setRegion env).2.log
      = allocationLengths env.log ++ [(list.length : Int)] ∧
    allocationLengths (QJniArrayBase.makeObjectArray ObjectType list env).2.log
      = allocationLengths env.log ++ (if list = [] then [] else [(list.length : Int)]) := by
  unfold QJniArrayBase.fromContainerPrecondition at h
  have hn : toJsize list.length = (list.length : Int) :=
    toJsize_eq_self (Int.ofNat_nonneg _) h
  refine ⟨hn, ?_, ?_, ?_⟩
  · rw [hn]
    exact Int.ofNat_nonneg _
  · rw [makeArray_allocationLengths, hn]
  · by_cases hl : list = []
    · subst hl
      rw [if_pos rfl, List.append_nil]
      rfl
    · rw [if_neg hl, makeObjectArray_allocationLengths _ _ _ hl, hn]

/-- Witness for C3: a list of three `jint`s and a list of three objects, in a
fresh environment. -/
theorem C3_allocation_length_is_container_size_witness :
    QJniArrayBase.fromContainerPrecondition [7, 8, 9] ∧
    (toJsize ([7, 8, 9] : List Nat).length = (([7, 8, 9] : List Nat).length : Int) ∧
      0 ≤ toJsize ([7, 8, 9] : List Nat).length ∧
      allocationLengths (QJniArrayBase.makeArray .jint [7, 8, 9] .jint .jint {}).2.log
        = allocationLengths ({} : JNIEnv).log ++ [(([7, 8, 9] : List Nat).length : Int)] ∧
      allocationLengths (QJniArrayBase.makeObjectArray .jobject [7, 8, 9] {}).2.log
        = allocationLengths ({} : JNIEnv).log
          ++ (if ([7, 8, 9] : List Nat) = [] then [] else [(([7, 8, 9] : List Nat).length : Int)])) :=
  ⟨by unfold QJniArrayBase.fromContainerPrecondition jsizeMax; decide,
   C3_allocation_length_is_container_size [7, 8, 9] {} .jint .jint .jint .jobject
     (by unfold QJniArrayBase.fromContainerPrecondition jsizeMax; decide)⟩

theorem makeArray_T (ElementType newArray setRegion : JType) (list : List Nat) (env : JNIEnv) :
    (QJniArrayBase.makeArray ElementType list newArray setRegion env).1.T = ElementType := by
  rw [QJniArrayBase.makeArray.eq_def]
  dsimp only
  split_ifs <;> rfl

theorem makeObjectArray_T (ObjectType : CppType) (list : List Nat) (env : JNIEnv) :
    (QJniArrayBase.makeObjectArray ObjectType list env).1.T = convertToJniType ObjectType := by
  rw [QJniArrayBase.makeObjectArray.eq_def]
  dsimp only
  split_ifs
  · rfl
  · rfl
  · split
    · rfl
    · rfl

/-- C2: the element type of the array `fromContainer` returns.  `jboolean` and
`bool` give a boolean array, `jbyte` and `char` a byte array, `jchar` and
`QChar` a char array, `jfloat` a float array, `jdouble` a double array;
`jobject`, `QJniObject`, `QString` and the declared Java types give an object
array; any other element type gives a short, int or long array exactly when its
size is 2, 4 or 8, and no array for another size.  So `jfloat` never gives an
int array, `jdouble` never a long array, and `jchar` and `QChar` never a short
array. -/
theorem C2_fromContainer_element_type_mapping (sizeofT : CppType → Nat) (hs : JniSizes sizeofT)
    (container : List Nat) (env : JNIEnv) :
    (QJniArrayBase.fromContainerType sizeofT .jboolean container env = some .jboolean ∧
     QJniArrayBase.fromContainerType sizeofT .bool container env = some .jboolean ∧
     QJniArrayBase.fromContainerType sizeofT .jbyte container env = some .jbyte ∧
     QJniArrayBase.fromContainerType sizeofT .char container env = some .jbyte ∧
     QJniArrayBase.fromContainerType sizeofT .jchar container env = some .jchar ∧
     QJniArrayBase.fromContainerType sizeofT .QChar container env = some .jchar ∧
     QJniArrayBase.fromContainerType sizeofT .jfloat container env = some .jfloat ∧
     QJniArrayBase.fromContainerType sizeofT .jdouble container env = some .jdouble) ∧
    (∀ E : CppType,
      E = .jobject ∨ E = .QJniObject ∨ E = .QString ∨ (∃ name, E = .declared name) →
      ∃ T, QJniArrayBase.fromContainerType sizeofT E container env = some T ∧ T.isObject = true) ∧
    (∀ E : CppType,
      E = .jshort ∨ E = .jint ∨ E = .jlong ∨ (∃ name, E = .other name) →
      (QJniArrayBase.fromContainerType sizeofT E container env = some .jshort ↔ sizeofT E = 2) ∧
      (QJniArrayBase.fromContainerType sizeofT E container env = some .jint ↔ sizeofT E = 4) ∧
      (QJniArrayBase.fromContainerType sizeofT E container env = some .jlong ↔ sizeofT E = 8) ∧
      (QJniArrayBase.fromContainerType sizeofT E container env = none ↔
        sizeofT E ≠ 2 ∧ sizeofT E ≠ 4 ∧ sizeofT E ≠ 8)) ∧
    (QJniArrayBase.fromContainerType sizeofT .jfloat container env ≠ some .jint ∧
     QJniArrayBase.fromContainerType sizeofT .jdouble container env ≠ some .jlong ∧
     QJniArrayBase.fromContainerType sizeofT .jchar container env ≠ some .jshort ∧
     QJniArrayBase.fromContainerType sizeofT .QChar container env ≠ some .jshort) := by
  obtain ⟨h2, h4, h8⟩ := hs
  refine ⟨?_, ?_, ?_, ?_⟩
  · simp [QJniArrayBase.fromContainerType, QJniArrayBase.fromContainer, CppType.isJObjectBase,
      makeArray_T]
  · rintro E (rfl | rfl | rfl | ⟨name, rfl⟩) <;>
      simp [QJniArrayBase.fromContainerType, QJniArrayBase.fromContainer, CppType.isJObjectBase,
        makeObjectArray_T, convertToJniType, JType.isObject]
  · rintro E (rfl | rfl | rfl | ⟨name, rfl⟩)
    · simp [QJniArrayBase.fromContainerType, QJniArrayBase.fromContainer,
        CppType.isJObjectBase, makeArray_T, h2, h4, h8]
    · simp [QJniArrayBase.fromContainerType, QJniArrayBase.fromContainer,
        CppType.isJObjectBase, makeArray_T, h2, h4, h8]
    · simp [QJniArrayBase.fromContainerType, QJniArrayBase.fromContainer,
        CppType.isJObjectBase, makeArray_T, h2, h4, h8]
    · simp only [QJniArrayBase.fromContainerType, QJniArrayBase.fromContainer,
        CppType.isJObjectBase, h2, h4, h8]
      by_cases c2 : sizeofT (.other name) = 2
      · simp [c2, makeArray_T]
      · by_cases c4 : sizeofT (.other name) = 4
        · simp [c4, makeArray_T]
        · by_cases c8 : sizeofT (.other name) = 8
          · simp [c8, makeArray_T]
          · simp [c2, c4, c8]
  · simp [QJniArrayBase.fromContainerType, QJniArrayBase.fromContainer, CppType.isJObjectBase,
      makeArray_T]

/-! ## Reading arrays -/

theorem lookup_congr {e1 e2 : JNIEnv} (h : e1.heap = e2.heap) (r : Nat) :
    e1.lookup r = e2.lookup r := by
  unfold JNIEnv.lookup
  rw [h]

theorem lookup_ne_zero {env : JNIEnv} {r : Nat} {arr : JavaArray}
    (h : env.lookup r = some arr) : r ≠ 0 := by
  intro h0
  subst h0
  simp [JNIEnv.lookup] at h

@[simp] theorem GetArrayLength_heap (env : JNIEnv) (array : Nat) :
    (env.GetArrayLength array).2.heap = env.heap := by
  unfold JNIEnv.GetArrayLength
  dsimp only
  split <;> rfl

@[simp] theorem GetArrayRegion_heap (env : JNIEnv) (T : JType) (array : Nat) (start len : Int)
    (buf : List Nat) : (env.GetArrayRegion T array start len buf).2.heap = env.heap := by
  unfold JNIEnv.GetArrayRegion
  dsimp only
  split
  · rfl
  · split <;> rfl

theorem GetArrayLength_val {env : JNIEnv} {array : Nat} {arr : JavaArray}
    (h : env.lookup array = some arr) :
    (env.GetArrayLength array).1 = (arr.elems.length : Int) := by
  unfold JNIEnv.GetArrayLength
  dsimp only
  rw [record_lookup, h]

theorem GetArrayRegion_val {env : JNIEnv} {T : JType} {array : Nat} {arr : JavaArray}
    {start len : Int} {buf : List Nat}
    (h : env.lookup array = some arr) (hT : arr.elemType = T)
    (h0 : 0 ≤ start) (h1 : 0 ≤ len) (h2 : start + len ≤ (arr.elems.length : Int))
    (h3 : len.toNat ≤ buf.length) :
    (env.GetArrayRegion T array start len buf).1
      = writeRegion buf 0 ((arr.elems.drop start.toNat).take len.toNat) := by
  unfold JNIEnv.GetArrayRegion
  dsimp only
  rw [record_lookup, h]
  dsimp only
  rw [if_pos]
  refine ⟨hT, ?_, h3⟩
  simp [regionOk, h0, h1, h2]

theorem size_val {a : QJniArray} {env : JNIEnv} {arr : JavaArray}
    (h : env.lookup a.m_object.m_jobject = some arr) :
    (a.size env).1 = (arr.elems.length : Int) := by
  unfold QJniArray.size QJniArray.object QJniObject.object
  dsimp only
  rw [if_pos (lookup_ne_zero h)]
  exact GetArrayLength_val h

@[simp] theorem size_heap (a : QJniArray) (env : JNIEnv) : (a.size env).2.heap = env.heap := by
  unfold QJniArray.size
  dsimp only
  split_ifs
  · exact GetArrayLength_heap _ _
  · rfl

@[simp] theorem isEmpty_heap (a : QJniArray) (env : JNIEnv) :
    (a.isEmpty env).2.heap = env.heap := by
  simp [QJniArray.isEmpty]

theorem isEmpty_val (a : QJniArray) (env : JNIEnv) :
    (a.isEmpty env).1 = ((a.size env).1 == 0) :=
  rfl

@[simp] theorem size_lookup (a : QJniArray) (env : JNIEnv) (r : Nat) :
    (a.size env).2.lookup r = env.lookup r :=
  lookup_congr (size_heap a env) r

@[simp] theorem isEmpty_lookup (a : QJniArray) (env : JNIEnv) (r : Nat) :
    (a.isEmpty env).2.lookup r = env.lookup r :=
  lookup_congr (isEmpty_heap a env) r

theorem take_one_drop (l : List Nat) (k : Nat) (h : k < l.length) :
    (l.drop k).take 1 = [l.getD k 0] := by
  induction l generalizing k with
  | nil => simp at h
  | cons x rest ih =>
    cases k with
    | zero => simp
    | succ k =>
      simp only [List.drop_succ_cons, List.getD_cons_succ]
      exact ih k (by simpa using h)

theorem writeRegion_replicate (l : List Nat) :
    writeRegion (List.replicate l.length 0) 0 l = l := by
  simp [writeRegion]

theorem writeRegion_single (x y : Nat) : writeRegion [y] 0 [x] = [x] := by
  simp [writeRegion]

/-- Reading one element of a valid array through `Get<Prim>ArrayRegion`. -/
theorem GetArrayRegion_one {env : JNIEnv} {T : JType} {array : Nat} {arr : JavaArray} {i : Int}
    (h : env.lookup array = some arr) (hT : arr.elemType = T)
    (h0 : 0 ≤ i) (h1 : i < (arr.elems.length : Int)) :
    ((env.GetArrayRegion T array i 1 [0]).1).headD 0 = arr.elems.getD i.toNat 0 := by
  rw [GetArrayRegion_val h hT h0 (by decide) (by omega) (by simp)]
  have hk : i.toNat < arr.elems.length := by omega
  rw [show (1 : Int).toNat = 1 from rfl, take_one_drop _ _ hk, writeRegion_single]
  rfl

/-- Reading a whole valid array through `Get<Prim>ArrayRegion`. -/
theorem GetArrayRegion_all {env : JNIEnv} {T : JType} {array : Nat} {arr : JavaArray}
    (h : env.lookup array = some arr) (hT : arr.elemType = T)
    (hmax : (arr.elems.length : Int) ≤ jsizeMax) :
    (env.GetArrayRegion T array 0 (toJsize (arr.elems.length : Nat))
      (List.replicate arr.elems.length 0)).1 = arr.elems := by
  rw [toJsize_eq_self (Int.ofNat_nonneg _) hmax]
  rw [GetArrayRegion_val h hT (le_refl 0) (Int.ofNat_nonneg _) (by omega) (by simp)]
  simp only [Int.toNat_zero, List.drop_zero, Int.toNat_ofNat, List.take_length]
  exact writeRegion_replicate _

/-- For every primitive element type but `jint`, `at(i)` on a valid array gives
element `i` of the Java array and leaves the heap as it was. -/
theorem at_val {a : QJniArray} {env : JNIEnv} {arr : JavaArray}
    (hv : a.ValidPrimitive env arr) (hint : a.T ≠ .jint) {i : Int} (h0 : 0 ≤ i)
    (h1 : i < (arr.elems.length : Int)) :
    ∃ e2, a.at_ i env = some (arr.elems.getD i.toNat 0, e2) ∧ e2.heap = env.heap := by
  obtain ⟨hp, hl, hT, _⟩ := hv
  have key : ∀ (T : JType), a.T = T →
      ∃ e2, (env.callGetArrayRegion T (a.object (.arrayOf T)) i 1 [0]).map
          (fun res => (res.1.headD 0, res.2))
        = some (arr.elems.getD i.toNat 0, e2) ∧ e2.heap = env.heap := by
    intro T hT2
    refine ⟨(env.GetArrayRegion T a.m_object.m_jobject i 1 [0]).2, ?_, GetArrayRegion_heap _ _ _ _ _ _⟩
    unfold JNIEnv.callGetArrayRegion QJniArray.object QJniObject.object
    dsimp only
    rw [if_pos rfl, Option.map_some', GetArrayRegion_one hl (hT.trans hT2) h0 h1]
  unfold QJniArray.at_
  split <;> rename_i hTa
  all_goals first
    | exact key _ hTa
    | exact absurd hTa hint
    | (rw [hTa] at hp; exact absurd hp (by decide))

/-- The member `at` has no result for `jint`: it passes the array as a `jbyteArray`
to `GetIntArrayRegion`. -/
theorem at_jint (a : QJniArray) (hint : a.T = .jint) (i : Int) (env : JNIEnv) :
    a.at_ i env = none := by
  unfold QJniArray.at_
  rw [hint]
  rfl

theorem readAll_val {a : QJniArray} {env : JNIEnv} {arr : JavaArray}
    (hv : a.ValidPrimitive env arr) (hb : a.T ≠ .jbyte) :
    ∃ e2, a.readAll (List.replicate arr.elems.length 0) env = some (arr.elems, e2)
      ∧ e2.heap = env.heap := by
  obtain ⟨hp, hl, hT, hmax⟩ := hv
  have key : ∀ (T : JType), a.T = T →
      ∃ e2, env.callGetArrayRegion T (a.object (.arrayOf T)) 0
          (toJsize ((List.replicate arr.elems.length 0).length : Nat))
          (List.replicate arr.elems.length 0)
        = some (arr.elems, e2) ∧ e2.heap = env.heap := by
    intro T hT2
    refine ⟨(env.GetArrayRegion T a.m_object.m_jobject 0 (toJsize (arr.elems.length : Nat))
      (List.replicate arr.elems.length 0)).2, ?_, GetArrayRegion_heap _ _ _ _ _ _⟩
    unfold JNIEnv.callGetArrayRegion QJniArray.object QJniObject.object
    dsimp only
    rw [if_pos rfl, List.length_replicate]
    exact congrArg some (Prod.ext (GetArrayRegion_all hl (hT.trans hT2) hmax) rfl)
  unfold QJniArray.readAll
  split <;> rename_i hTa
  all_goals first
    | exact key _ hTa
    | skip
  cases hTa2 : a.T <;> rw [hTa2] at hp <;> simp_all [JType.isPrimitive]

theorem ValidPrimitive_congr {a : QJniArray} {e1 e2 : JNIEnv} {arr : JavaArray}
    (h : e2.heap = e1.heap) (hv : a.ValidPrimitive e1 arr) : a.ValidPrimitive e2 arr := by
  obtain ⟨hp, hl, hT, hmax⟩ := hv
  exact ⟨hp, (lookup_congr h _).trans hl, hT, hmax⟩

/-- What `toContainer` returns for a valid primitive array: a `QByteArray` (for
`jbyte`) or a `QList` with the elements of the Java array, in order; the heap
is left as it was. -/
theorem toContainer_val {a : QJniArray} {env : JNIEnv} {arr : JavaArray}
    (hv : a.ValidPrimitive env arr) (fuel : Nat) :
    ∃ env2, a.toContainer fuel env
        = some (if a.T = .jbyte then .QByteArray arr.elems else .QList a.T arr.elems, env2)
      ∧ env2.heap = env.heap := by
  have hv0 := hv
  obtain ⟨hp, hl, hT, hmax⟩ := hv
  have hsize : ∀ e : JNIEnv, e.heap = env.heap → (a.size e).1 = (arr.elems.length : Int) := by
    intro e he
    exact size_val ((lookup_congr he _).trans hl)
  have hempty : ∀ e : JNIEnv, e.heap = env.heap →
      (a.isEmpty e).1 = decide (arr.elems.length = 0) := by
    intro e he
    rw [isEmpty_val, hsize e he]
    by_cases h0 : arr.elems.length = 0
    · simp [h0]
    · simp [h0]
  unfold QJniArray.toContainer
  split <;> rename_i hTa
  · rw [hTa] at hp; exact absurd hp (by decide)
  · rw [hTa] at hp; exact absurd hp (by decide)
  · dsimp only
    rw [hempty _ (size_heap a env), hsize env rfl, if_pos hTa]
    by_cases h0 : arr.elems.length = 0
    · have hnil : arr.elems = [] := List.length_eq_zero.mp h0
      simp only [h0, hnil, decide_True, Bool.not_true, Bool.false_eq_true, if_false]
      exact ⟨_, rfl, by simp⟩
    · simp only [h0, decide_False, Bool.not_false, if_true, Int.toNat_ofNat]
      have hreg := @GetArrayRegion_all (a.isEmpty (a.size env).2).2 .jbyte
        a.m_object.m_jobject arr
        ((lookup_congr (by simp) a.m_object.m_jobject).trans hl) (hT.trans hTa) hmax
      unfold JNIEnv.callGetArrayRegion QJniArray.object QJniObject.object
      dsimp only
      rw [if_pos rfl, Option.map_some', hreg]
      exact ⟨_, rfl, by simp⟩
  · dsimp only
    rw [hempty env rfl, if_neg hTa]
    by_cases h0 : arr.elems.length = 0
    · have hnil : arr.elems = [] := List.length_eq_zero.mp h0
      simp only [h0, hnil, decide_True, if_true]
      exact ⟨_, rfl, by simp⟩
    · simp only [h0, decide_False, if_false, Bool.false_eq_true]
      rw [hsize _ (isEmpty_heap a env)]
      simp only [Int.toNat_ofNat]
      obtain ⟨e2, hread, he2⟩ :=
        readAll_val (@ValidPrimitive_congr a env (a.size (a.isEmpty env).2).2 arr (by simp) hv0)
          hTa
      rw [hread, Option.map_some']
      exact ⟨_, rfl, by rw [he2]; simp⟩

/-! ## Writing arrays -/

theorem lookup_append_last (heap : List JavaArray) (a : JavaArray) (env : JNIEnv)
    (h : env.heap = heap ++ [a]) : env.lookup (heap.length + 1) = some a := by
  unfold JNIEnv.lookup
  rw [h]
  simp

/-- A successful `New<Prim>Array`: the reference returned, the new heap, and no
exception raised. -/
theorem NewArray_success (env : JNIEnv) (T : JType) (n : Nat)
    (halloc : env.allocOutcomes.head? ≠ some true) :
    (env.NewArray T n).1 = env.heap.length + 1 ∧
    (env.NewArray T n).2.heap = env.heap ++ [⟨T, List.replicate n 0⟩] ∧
    (env.NewArray T n).2.exceptionPending = env.exceptionPending := by
  have hneg : ¬ ((n : Int) < 0) := by omega
  unfold JNIEnv.NewArray JNIEnv.allocate
  dsimp only
  rw [if_neg (by simp only [JNIEnv.record, not_or]; exact ⟨hneg, halloc⟩)]
  simp [JNIEnv.record]

/-- Writing a whole list into a fresh array of the same length. -/
theorem SetArrayRegion_all (env : JNIEnv) (T : JType) (heap : List JavaArray) (xs : List Nat)
    (h : env.heap = heap ++ [⟨T, List.replicate xs.length 0⟩]) :
    (env.SetArrayRegion T (heap.length + 1) 0 (xs.length : Nat) xs).heap
      = heap ++ [⟨T, xs⟩] := by
  unfold JNIEnv.SetArrayRegion
  dsimp only
  rw [record_lookup, lookup_append_last heap _ env h]
  dsimp only
  rw [if_pos]
  · simp only [record_heap, h, Int.toNat_zero, Int.toNat_ofNat, List.take_length,
      Nat.add_sub_cancel]
    rw [show writeRegion (List.replicate xs.length 0) 0 xs = xs from writeRegion_replicate xs]
    simp
  · refine ⟨rfl, ?_, by simp⟩
    simp [regionOk]

/-- A successful `makeArray`: the array returned is valid and refers to a Java
array holding the elements of the list. -/
theorem makeArray_success (T : JType) (hp : T.isPrimitive = true) (xs : List Nat) (env : JNIEnv)
    (hlen : (xs.length : Int) ≤ jsizeMax) (hexc : env.exceptionPending = false)
    (halloc : env.allocOutcomes.head? ≠ some true) :
    (QJniArrayBase.makeArray T xs T T env).1.ValidPrimitive
      (QJniArrayBase.makeArray T xs T T env).2 ⟨T, xs⟩ := by
  obtain ⟨hnew1, hnew2, hnew3⟩ := NewArray_success env T xs.length halloc
  rw [QJniArrayBase.makeArray.eq_def]
  dsimp only
  rw [toJsize_eq_self (Int.ofNat_nonneg _) hlen]
  have hno : (checkAndClearExceptions (env.NewArray T ↑xs.length).2).1 = false := by
    simp only [checkAndClearExceptions, hnew3, hexc]
  rw [if_neg (by simp [hno]), hnew1]
  refine ⟨hp, ?_, rfl, hlen⟩
  simp only [QJniArray.fromArray]
  by_cases h0 : xs.length = 0
  · have hnil : xs = [] := List.length_eq_zero.mp h0
    subst hnil
    simp only [List.length_nil, Nat.cast_zero, ne_eq, not_true_eq_false, if_false]
    exact lookup_append_last env.heap _ _ (by simpa [checkAndClearExceptions] using hnew2)
  · rw [if_pos (by simpa using h0)]
    exact lookup_append_last env.heap _ _
      (SetArrayRegion_all _ T env.heap xs (by simpa [checkAndClearExceptions] using hnew2))

/-! ## Iterating over arrays -/

theorem drop_eq_getD_cons (l : List Nat) (k : Nat) (h : k < l.length) :
    l.drop k = l.getD k 0 :: l.drop (k + 1) := by
  induction l generalizing k with
  | nil => simp at h
  | cons x rest ih =>
    cases k with
    | zero => simp
    | succ k =>
      simp only [List.drop_succ_cons, List.getD_cons_succ]
      exact ih k (by simpa using h)

/-- The loop of a range-based `for` over a valid primitive array, of an element
type other than `jint`, started at index `k` with `m` elements to go: it ends,
having seen the elements from `k` on at the indices `k`, `k + 1`, ... in this
order. -/
theorem rangeForLoop_val {a : QJniArray} {env : JNIEnv} {arr : JavaArray}
    (hv : a.ValidPrimitive env arr) (hint : a.T ≠ .jint) :
    ∀ (m k fuel : Nat) (e : JNIEnv) (acc : List Nat) (visited : List Int),
      k + m = arr.elems.length → m < fuel → e.heap = env.heap →
      ∃ e2, QJniArray.rangeForLoop QJniArray.appendElement fuel
          { m_index := (k : Int), m_array := a }
          { m_index := (arr.elems.length : Int), m_array := a } acc visited e
        = some (acc ++ arr.elems.drop k, visited ++ (List.range' k m).map Int.ofNat, e2)
        ∧ e2.heap = env.heap := by
  intro m
  induction m with
  | zero =>
    intro k fuel e acc visited hk hf he
    obtain ⟨f, rfl⟩ : ∃ f, fuel = f + 1 := ⟨fuel - 1, by omega⟩
    have hk2 : k = arr.elems.length := by omega
    subst hk2
    refine ⟨e, ?_, he⟩
    simp [QJniArray.rangeForLoop, QJniArrayIterator.comparesEqual]
  | succ m ih =>
    intro k fuel e acc visited hk hf he
    obtain ⟨f, rfl⟩ : ∃ f, fuel = f + 1 := ⟨fuel - 1, by omega⟩
    have hklt : k < arr.elems.length := by omega
    have hne : ¬ ((k : Int) = (arr.elems.length : Int)) := by omega
    have hmax := hv.2.2.2
    have hkmax : (k : Int) ≤ jsizeMax := by omega
    have hve : a.ValidPrimitive e arr := ValidPrimitive_congr he hv
    obtain ⟨e1, hat, he1⟩ := at_val hve hint (Int.ofNat_nonneg k)
      (show (k : Int) < (arr.elems.length : Int) by omega)
    rw [Int.toNat_ofNat] at hat
    obtain ⟨e2, hloop, he2⟩ := ih (k + 1) f e1
      (acc ++ [arr.elems.getD k 0]) (visited ++ [(k : Int)]) (by omega) (by omega)
      (he1.trans he)
    refine ⟨e2, ?_, he2⟩
    rw [QJniArray.rangeForLoop]
    simp only [QJniArrayIterator.comparesEqual, beq_iff_eq, hne, if_false,
      QJniArrayIterator.deref]
    rw [toJsize_eq_self (Int.ofNat_nonneg _) hkmax, hat]
    simp only [QJniArray.appendElement, QJniArrayIterator.increment]
    rw [show ((k : Int) + 1) = ((k + 1 : Nat) : Int) by push_cast; rfl, hloop]
    rw [drop_eq_getD_cons arr.elems k hklt, List.range'_succ]
    simp

/-- The statement `for (auto element : *this)` over a valid primitive array of an
element type other than `jint`. -/
theorem rangeFor_val {a : QJniArray} {env : JNIEnv} {arr : JavaArray}
    (hv : a.ValidPrimitive env arr) (hint : a.T ≠ .jint) (fuel : Nat)
    (hf : arr.elems.length < fuel) :
    ∃ e2, a.rangeFor QJniArray.appendElement fuel [] env
        = some (arr.elems, (List.range arr.elems.length).map Int.ofNat, e2)
      ∧ e2.heap = env.heap := by
  obtain ⟨e2, hloop, he2⟩ := rangeForLoop_val hv hint arr.elems.length 0 fuel (a.size env).2 [] []
    (by omega) hf (size_heap a env)
  refine ⟨e2, ?_, he2⟩
  unfold QJniArray.rangeFor QJniArray.begin_ QJniArray.end_
  dsimp only
  rw [size_val hv.2.1]
  simpa [List.range_eq_range'] using hloop

/-- Element access agrees with bulk conversion for every primitive element type
but `jint`.  For a valid array `toContainer` returns a container with `size()`
elements; `at(i)` and `operator[]` give element `i` of it for every index
`0 <= i < size()`; and the range-based loop from `begin()` to `end()` ends,
having visited the indices `0, 1, ..., size() - 1` in this order and seen the
elements of the container. -/
theorem element_access_agrees_with_toContainer (a : QJniArray) (env : JNIEnv)
    (arr : JavaArray) (hv : a.ValidPrimitive env arr) (hint : a.T ≠ .jint) (fuel : Nat) :
    ∃ c env1, a.toContainer fuel env = some (c, env1) ∧
      (c.elems.length : Int) = (a.size env).1 ∧
      (∀ i : Int, 0 ≤ i → i < (a.size env).1 →
        ∃ x e2 e3, a.at_ i env = some (x, e2) ∧ a.operatorIndex i env = some (x, e3) ∧
          c.elems.get? i.toNat = some x) ∧
      (∀ loopFuel : Nat, c.elems.length < loopFuel →
        ∃ env2, a.rangeFor QJniArray.appendElement loopFuel [] env
          = some (c.elems, (List.range c.elems.length).map Int.ofNat, env2)) := by
  obtain ⟨env1, htc, _⟩ := toContainer_val hv fuel
  have helems : (if a.T = .jbyte then Container.QByteArray arr.elems
      else Container.QList a.T arr.elems).elems = arr.elems := by
    split_ifs <;> rfl
  refine ⟨_, env1, htc, ?_, ?_, ?_⟩
  · rw [helems, size_val hv.2.1]
  · intro i h0 h1
    rw [size_val hv.2.1] at h1
    have hk : i.toNat < arr.elems.length := by omega
    obtain ⟨e2, hat, _⟩ := at_val hv hint h0 h1
    refine ⟨_, e2, e2, hat, hat, ?_⟩
    rw [helems, List.getD_eq_getElem _ _ hk, List.get?_eq_getElem?,
      List.getElem?_eq_getElem hk]
  · intro loopFuel hf
    rw [helems] at hf ⊢
    obtain ⟨e2, hloop, _⟩ := rangeFor_val hv hint loopFuel hf
    exact ⟨e2, hloop⟩

/-! ## Claims about the round trip and about element access -/

/-- C1: round trip.  For a list `xs` of `jint`, `jlong`, `jshort`, `jchar`,
`jboolean` or `jbyte` elements with at most 2^31-1 elements, when no exception
is pending and the array allocation raises none, `fromContainer` returns an
array and `toContainer` of that array returns a container (a `QByteArray` for
`jbyte`) with as many elements as `xs` and the same elements in the same order;
the empty list is included. -/
theorem C1_fromContainer_toContainer_round_trip (sizeofT : CppType → Nat)
    (hs : JniSizes sizeofT) (E : CppType)
    (hE : E = .jint ∨ E = .jlong ∨ E = .jshort ∨ E = .jchar ∨ E = .jboolean ∨ E = .jbyte)
    (xs : List Nat) (env : JNIEnv) (fuel : Nat)
    (hlen : QJniArrayBase.fromContainerPrecondition xs)
    (hexc : env.exceptionPending = false)
    (halloc : env.allocOutcomes.head? ≠ some true) :
    ∃ a env1 c env2,
      QJniArrayBase.fromContainer sizeofT E xs env = some (a, env1) ∧
      a.toContainer fuel env1 = some (c, env2) ∧
      c.elems.length = xs.length ∧ c.elems = xs ∧
      (E = .jbyte → c = .QByteArray xs) := by
  obtain ⟨h2, h4, h8⟩ := hs
  unfold QJniArrayBase.fromContainerPrecondition at hlen
  have main : ∀ T : JType, T.isPrimitive = true →
      QJniArrayBase.fromContainer sizeofT E xs env
        = some (QJniArrayBase.makeArray T xs T T env) →
      (E = .jbyte → T = .jbyte) →
      ∃ a env1 c env2,
        QJniArrayBase.fromContainer sizeofT E xs env = some (a, env1) ∧
        a.toContainer fuel env1 = some (c, env2) ∧
        c.elems.length = xs.length ∧ c.elems = xs ∧
        (E = .jbyte → c = .QByteArray xs) := by
    intro T hp hfrom hbyte
    have hv := makeArray_success T hp xs env hlen hexc halloc
    obtain ⟨env2, htc, _⟩ := toContainer_val hv fuel
    refine ⟨_, _, _, env2, hfrom, htc, ?_, ?_, ?_⟩
    · split_ifs <;> rfl
    · split_ifs <;> rfl
    · intro hEb
      rw [makeArray_T, if_pos (hbyte hEb)]
  rcases hE with rfl | rfl | rfl | rfl | rfl | rfl
  · exact main .jint rfl
      (by simp [QJniArrayBase.fromContainer, CppType.isJObjectBase, h2, h4]) (by simp)
  · exact main .jlong rfl
      (by simp [QJniArrayBase.fromContainer, CppType.isJObjectBase, h2, h4, h8]) (by simp)
  · exact main .jshort rfl
      (by simp [QJniArrayBase.fromContainer, CppType.isJObjectBase]) (by simp)
  · exact main .jchar rfl
      (by simp [QJniArrayBase.fromContainer, CppType.isJObjectBase]) (by simp)
  · exact main .jboolean rfl
      (by simp [QJniArrayBase.fromContainer, CppType.isJObjectBase]) (by simp)
  · exact main .jbyte rfl
      (by simp [QJniArrayBase.fromContainer, CppType.isJObjectBase]) (by simp)

/-- Witness for C1: three `jint`s in a fresh environment on a 64-bit Android
target. -/
theorem C1_fromContainer_toContainer_round_trip_witness :
    JniSizes sizeofAndroid64 ∧ QJniArrayBase.fromContainerPrecondition [5, 6, 7] ∧
    ({} : JNIEnv).exceptionPending = false ∧ ({} : JNIEnv).allocOutcomes.head? ≠ some true ∧
    ∃ a env1 c env2,
      QJniArrayBase.fromContainer sizeofAndroid64 .jint [5, 6, 7] {} = some (a, env1) ∧
      a.toContainer 0 env1 = some (c, env2) ∧
      c.elems.length = ([5, 6, 7] : List Nat).length ∧ c.elems = [5, 6, 7] ∧
      (CppType.jint = .jbyte → c = .QByteArray [5, 6, 7]) :=
  ⟨⟨rfl, rfl, rfl⟩, by unfold QJniArrayBase.fromContainerPrecondition jsizeMax; decide,
   rfl, by decide,
   C1_fromContainer_toContainer_round_trip sizeofAndroid64 ⟨rfl, rfl, rfl⟩ .jint (Or.inl rfl)
     [5, 6, 7] {} 0 (by unfold QJniArrayBase.fromContainerPrecondition jsizeMax; decide)
     rfl (by decide)⟩

/-- Witness for C2: on a 64-bit Android target a `bool` container gives a boolean
array and a `char16_t` container, of size 2, a short array. -/
theorem C2_fromContainer_element_type_mapping_witness :
    JniSizes sizeofAndroid64 ∧
    QJniArrayBase.fromContainerType sizeofAndroid64 .bool [1, 0] {} = some .jboolean ∧
    QJniArrayBase.fromContainerType sizeofAndroid64 (.other "char16_t") [1, 0] {}
      = some .jshort :=
  ⟨⟨rfl, rfl, rfl⟩,
   (C2_fromContainer_element_type_mapping sizeofAndroid64 ⟨rfl, rfl, rfl⟩ [1, 0] {}).1.2.1,
   (((C2_fromContainer_element_type_mapping sizeofAndroid64 ⟨rfl, rfl, rfl⟩ [1, 0] {}).2.2.1
      (.other "char16_t") (Or.inr (Or.inr (Or.inr ⟨"char16_t", rfl⟩)))).1).mpr (by decide)⟩

/-- C4, at a `jint` array: for the array of the three `jint`s 5, 6, 7 `toContainer`
returns the list 5, 6, 7, but `at(1)` and `operator[](1)` have no result, and
neither has the range-based loop, which reads its elements through `at`.  The
`jint` arm of `at` passes `object<jbyteArray>()` to `GetIntArrayRegion`, where
`toContainer` and the other arms of `at` pass the array type of the element
type. -/
theorem C4_at_has_no_result_for_jint :
    (QJniArray.fromArray .jint 1).ValidPrimitive { heap := [⟨.jint, [5, 6, 7]⟩] }
      ⟨.jint, [5, 6, 7]⟩ ∧
    ((QJniArray.fromArray .jint 1).toContainer 0 { heap := [⟨.jint, [5, 6, 7]⟩] }).map Prod.fst
      = some (.QList .jint [5, 6, 7]) ∧
    (QJniArray.fromArray .jint 1).at_ 1 { heap := [⟨.jint, [5, 6, 7]⟩] } = none ∧
    (QJniArray.fromArray .jint 1).operatorIndex 1 { heap := [⟨.jint, [5, 6, 7]⟩] } = none ∧
    (QJniArray.fromArray .jint 1).rangeFor QJniArray.appendElement 4 []
      { heap := [⟨.jint, [5, 6, 7]⟩] } = none := by
  refine ⟨⟨rfl, rfl, rfl, by unfold jsizeMax; decide⟩, by decide, rfl, rfl, by decide⟩

/-- Witness for the agreement of element access and bulk conversion: a `jlong`
array with three elements. -/
theorem element_access_agrees_with_toContainer_witness :
    (QJniArray.fromArray .jlong 1).ValidPrimitive { heap := [⟨.jlong, [5, 6, 7]⟩] }
      ⟨.jlong, [5, 6, 7]⟩ ∧
    (QJniArray.fromArray .jlong 1).T ≠ .jint ∧
    ∃ c env1, (QJniArray.fromArray .jlong 1).toContainer 0 { heap := [⟨.jlong, [5, 6, 7]⟩] }
        = some (c, env1) ∧
      (c.elems.length : Int)
        = ((QJniArray.fromArray .jlong 1).size { heap := [⟨.jlong, [5, 6, 7]⟩] }).1 ∧
      (∀ i : Int, 0 ≤ i →
        i < ((QJniArray.fromArray .jlong 1).size { heap := [⟨.jlong, [5, 6, 7]⟩] }).1 →
        ∃ x e2 e3,
          (QJniArray.fromArray .jlong 1).at_ i { heap := [⟨.jlong, [5, 6, 7]⟩] }
            = some (x, e2) ∧
          (QJniArray.fromArray .jlong 1).operatorIndex i { heap := [⟨.jlong, [5, 6, 7]⟩] }
            = some (x, e3) ∧
          c.elems.get? i.toNat = some x) ∧
      (∀ loopFuel : Nat, c.elems.length < loopFuel →
        ∃ env2, (QJniArray.fromArray .jlong 1).rangeFor QJniArray.appendElement loopFuel []
            { heap := [⟨.jlong, [5, 6, 7]⟩] }
          = some (c.elems, (List.range c.elems.length).map Int.ofNat, env2)) :=
  ⟨⟨rfl, rfl, rfl, by unfold jsizeMax; decide⟩, by decide,
   element_access_agrees_with_toContainer (QJniArray.fromArray .jlong 1)
     { heap := [⟨.jlong, [5, 6, 7]⟩] } ⟨.jlong, [5, 6, 7]⟩
     ⟨rfl, rfl, rfl, by unfold jsizeMax; decide⟩ (by decide) 0⟩

/-- C5: a default-constructed array is a safe empty container.  It is not valid,
`size()` is 0 and `isEmpty()` is true, both without a JNI call; for every array
`isEmpty()` holds exactly when `size()` is 0; `begin()` equals `end()`; and
`toContainer()` returns an empty container and leaves the environment, and with
it the log of JNI calls, as it was: no region is read. -/
theorem C5_default_constructed_is_empty (T : JType) (env : JNIEnv) (fuel : Nat) :
    (QJniArray.defaultConstructed T).isValid = false ∧
    (QJniArray.defaultConstructed T).size env = (0, env) ∧
    (QJniArray.defaultConstructed T).isEmpty env = (true, env) ∧
    (∀ (b : QJniArray) (e : JNIEnv), (b.isEmpty e).1 = true ↔ (b.size e).1 = 0) ∧
    QJniArrayIterator.comparesEqual (QJniArray.defaultConstructed T).begin_
      ((QJniArray.defaultConstructed T).end_ env).1 = true ∧
    ∃ c, (QJniArray.defaultConstructed T).toContainer (fuel + 1) env = some (c, env) ∧
      c.elems = [] := by
  have hsize : (QJniArray.defaultConstructed T).size env = (0, env) := rfl
  have hempty : (QJniArray.defaultConstructed T).isEmpty env = (true, env) := rfl
  refine ⟨rfl, hsize, hempty, ?_, rfl, ?_⟩
  · intro b e
    rw [isEmpty_val]
    simp
  · cases T <;> exact ⟨_, rfl, rfl⟩

/-! ## Claims about failures and empty containers -/

@[simp] theorem callsSince_append (env env1 : JNIEnv) (calls : List JniCall)
    (h : env1.log = env.log ++ calls) : callsSince env env1 = calls := by
  simp [callsSince, h]

/-- The arms of `fromContainer`: the result comes from `makeObjectArray`, for an
object element type, or from `makeArray` for a primitive array type. -/
theorem fromContainer_cases {sizeofT : CppType → Nat} {E : CppType} {container : List Nat}
    {env : JNIEnv} {r : QJniArray × JNIEnv}
    (h : QJniArrayBase.fromContainer sizeofT E container env = some r) :
    r = QJniArrayBase.makeObjectArray E container env ∨
    ∃ T : JType, T.isPrimitive = true ∧ r = QJniArrayBase.makeArray T container T T env := by
  unfold QJniArrayBase.fromContainer at h
  split_ifs at h
  · exact Or.inl (Option.some.inj h).symm
  · exact Or.inr ⟨.jfloat, rfl, (Option.some.inj h).symm⟩
  · exact Or.inr ⟨.jdouble, rfl, (Option.some.inj h).symm⟩
  · exact Or.inr ⟨.jboolean, rfl, (Option.some.inj h).symm⟩
  · exact Or.inr ⟨.jbyte, rfl, (Option.some.inj h).symm⟩
  · exact Or.inr ⟨.jchar, rfl, (Option.some.inj h).symm⟩
  · exact Or.inr ⟨.jshort, rfl, (Option.some.inj h).symm⟩
  · exact Or.inr ⟨.jint, rfl, (Option.some.inj h).symm⟩
  · exact Or.inr ⟨.jlong, rfl, (Option.some.inj h).symm⟩

/-- The calls of `makeArray` when the check after the allocation reports an
exception. -/
theorem makeArray_exception (ElementType newArray setRegion : JType) (list : List Nat)
    (env : JNIEnv)
    (h : (checkAndClearExceptions (env.NewArray newArray (toJsize list.length)).2).1 = true) :
    (QJniArrayBase.makeArray ElementType list newArray setRegion env).1
      = QJniArray.defaultConstructed ElementType ∧
    callsSince env (QJniArrayBase.makeArray ElementType list newArray setRegion env).2
      = [.NewArray newArray (toJsize list.length), .checkAndClearExceptions] := by
  rw [QJniArrayBase.makeArray.eq_def]
  dsimp only
  rw [if_pos h]
  exact ⟨rfl, callsSince_append _ _ _ (by simp)⟩

/-- The calls of `makeArray` for an empty list. -/
theorem makeArray_nil_calls (ElementType newArray setRegion : JType) (env : JNIEnv) :
    callsSince env (QJniArrayBase.makeArray ElementType [] newArray setRegion env).2
      = [.NewArray newArray 0, .checkAndClearExceptions] := by
  rw [QJniArrayBase.makeArray.eq_def]
  dsimp only
  have h0 : toJsize ((([] : List Nat).length : Nat) : Int) = 0 := by
    unfold toJsize
    simp
  rw [h0]
  split_ifs with hexc hlen
  · exact callsSince_append _ _ _ (by simp)
  · exact absurd rfl hlen
  · exact callsSince_append _ _ _ (by simp)

/-- The calls of `makeObjectArray` when the check after the allocation reports an
exception. -/
theorem makeObjectArray_exception (ObjectType : CppType) (list : List Nat) (env : JNIEnv)
    (hne : list ≠ [])
    (h : (checkAndClearExceptions
      ((env.record (.classLookup (QJniArrayBase.elementClass ObjectType (list.headD 0)))).NewObjectArray
        (toJsize list.length) (QJniArrayBase.elementClass ObjectType (list.headD 0))).2).1 = true) :
    (QJniArrayBase.makeObjectArray ObjectType list env).1
      = QJniArray.defaultConstructed (convertToJniType ObjectType) ∧
    callsSince env (QJniArrayBase.makeObjectArray ObjectType list env).2
      = [.classLookup (QJniArrayBase.elementClass ObjectType (list.headD 0)),
         .NewObjectArray (toJsize list.length) (QJniArrayBase.elementClass ObjectType (list.headD 0)),
         .checkAndClearExceptions] := by
  have hlen : list.length ≠ 0 := fun h => hne (List.length_eq_zero.mp h)
  rw [QJniArrayBase.makeObjectArray.eq_def]
  dsimp only
  rw [if_neg hlen, if_pos h]
  exact ⟨rfl, callsSince_append _ _ _ (by simp)⟩

/-- C13: when `checkAndClearExceptions` reports an exception after the array
allocation, `makeArray` and `makeObjectArray` return an invalid
default-constructed `QJniArray`, and the check is their last call: no
`Set<Prim>ArrayRegion`, no conversion and no `SetObjectArrayElement` follows.  For
a zero-length container `makeArray` makes the allocation and the check and never
calls the set-region function. -/
theorem C13_exception_gives_invalid_array_and_no_write (ElementType newArray setRegion : JType)
    (ObjectType : CppType) (list : List Nat) (env : JNIEnv) :
    ((checkAndClearExceptions (env.NewArray newArray (toJsize list.length)).2).1 = true →
      (QJniArrayBase.makeArray ElementType list newArray setRegion env).1.isValid = false ∧
      callsSince env (QJniArrayBase.makeArray ElementType list newArray setRegion env).2
        = [.NewArray newArray (toJsize list.length), .checkAndClearExceptions]) ∧
    (list ≠ [] →
      (checkAndClearExceptions
        ((env.record (.classLookup (QJniArrayBase.elementClass ObjectType (list.headD 0)))).NewObjectArray
          (toJsize list.length) (QJniArrayBase.elementClass ObjectType (list.headD 0))).2).1 = true →
      (QJniArrayBase.makeObjectArray ObjectType list env).1.isValid = false ∧
      callsSince env (QJniArrayBase.makeObjectArray ObjectType list env).2
        = [.classLookup (QJniArrayBase.elementClass ObjectType (list.headD 0)),
           .NewObjectArray (toJsize list.length)
             (QJniArrayBase.elementClass ObjectType (list.headD 0)),
           .checkAndClearExceptions]) ∧
    callsSince env (QJniArrayBase.makeArray ElementType [] newArray setRegion env).2
      = [.NewArray newArray 0, .checkAndClearExceptions] := by
  refine ⟨fun h => ?_, fun hne h => ?_, makeArray_nil_calls _ _ _ _⟩
  · obtain ⟨h1, h2⟩ := makeArray_exception ElementType newArray setRegion list env h
    exact ⟨by rw [h1]; rfl, h2⟩
  · obtain ⟨h1, h2⟩ := makeObjectArray_exception ObjectType list env hne h
    exact ⟨by rw [h1]; rfl, h2⟩

/-- Witness for C13: the allocation of an array for three `jint`s, and of an array
for three objects, fails for lack of memory. -/
theorem C13_exception_gives_invalid_array_and_no_write_witness :
    (checkAndClearExceptions
      (({ allocOutcomes := [true] } : JNIEnv).NewArray .jint (toJsize ([7, 8, 9] : List Nat).length)).2).1
        = true ∧
    (QJniArrayBase.makeArray .jint [7, 8, 9] .jint .jint { allocOutcomes := [true] }).1.isValid
      = false ∧
    (QJniArrayBase.makeObjectArray .jobject [7, 8, 9] { allocOutcomes := [true] }).1.isValid
      = false :=
  ⟨by decide,
   ((C13_exception_gives_invalid_array_and_no_write .jint .jint .jint .jobject [7, 8, 9]
      { allocOutcomes := [true] }).1 (by decide)).1,
   ((C13_exception_gives_invalid_array_and_no_write .jint .jint .jint .jobject [7, 8, 9]
      { allocOutcomes := [true] }).2.1 (by decide) (by decide)).1⟩

/-- The size of the array `makeArray` returns for an empty list is 0. -/
theorem makeArray_nil_size (T : JType) (env : JNIEnv) :
    ((QJniArrayBase.makeArray T [] T T env).1.size (QJniArrayBase.makeArray T [] T T env).2).1
      = 0 := by
  have h0 : toJsize ((([] : List Nat).length : Nat) : Int) = 0 := by
    unfold toJsize
    simp
  rw [QJniArrayBase.makeArray.eq_def]
  dsimp only
  rw [h0]
  split_ifs with hexc hlen
  · rfl
  · exact absurd rfl hlen
  · by_cases halloc : env.allocOutcomes.head? = some true
    · exfalso
      apply hexc
      simp [checkAndClearExceptions, JNIEnv.NewArray, JNIEnv.allocate, JNIEnv.record, halloc]
    · obtain ⟨hnew1, hnew2, _⟩ := NewArray_success env T 0 halloc
      have hl : (checkAndClearExceptions (env.NewArray T 0).2).2.lookup (env.heap.length + 1)
          = some ⟨T, []⟩ :=
        lookup_append_last env.heap _ _ (by simpa [checkAndClearExceptions] using hnew2)
      have hs := @size_val (QJniArray.fromArray T (env.NewArray T 0).1)
        (checkAndClearExceptions (env.NewArray T 0).2).2 ⟨T, []⟩
        (by rw [show (QJniArray.fromArray T (env.NewArray T 0).1).m_object.m_jobject
              = (env.NewArray T 0).1 from rfl]
            change (checkAndClearExceptions (env.NewArray T ((0 : Nat) : Int)).2).2.lookup
              (env.NewArray T ((0 : Nat) : Int)).1 = _
            rw [hnew1]
            exact hl)
      simpa using hs

/-- C14: for an empty container `fromContainer` returns, for an object element type
(`jobject`, `QJniObject`, `QString`, a declared Java type), an invalid
default-constructed `QJniArray` and leaves the environment as it was, so no JNI
call is made; for an element type that gives a primitive array it returns, when
no exception is pending and the allocation succeeds, a valid array that refers
to a Java array with no elements, after the allocation and the exception check;
and in every case `size()` is 0 and `isEmpty()` is true. -/
theorem C14_empty_container_by_element_kind (sizeofT : CppType → Nat) (env : JNIEnv) :
    (∀ E : CppType,
      E = .jobject ∨ E = .QJniObject ∨ E = .QString ∨ (∃ name, E = .declared name) →
      QJniArrayBase.fromContainer sizeofT E [] env
        = some (QJniArray.defaultConstructed (convertToJniType E), env) ∧
      (QJniArray.defaultConstructed (convertToJniType E)).isValid = false) ∧
    (∀ (E : CppType) (r : QJniArray × JNIEnv),
      QJniArrayBase.fromContainer sizeofT E [] env = some r → r.1.T.isPrimitive = true →
      env.exceptionPending = false → env.allocOutcomes.head? ≠ some true →
      r.1.isValid = true ∧ r.2.lookup r.1.m_object.m_jobject = some ⟨r.1.T, []⟩ ∧
      callsSince env r.2 = [.NewArray r.1.T 0, .checkAndClearExceptions]) ∧
    (∀ (E : CppType) (r : QJniArray × JNIEnv),
      QJniArrayBase.fromContainer sizeofT E [] env = some r →
      (r.1.size r.2).1 = 0 ∧ (r.1.isEmpty r.2).1 = true) := by
  have hobj : ∀ E : CppType, QJniArrayBase.makeObjectArray E [] env
      = (QJniArray.defaultConstructed (convertToJniType E), env) := fun E => rfl
  refine ⟨?_, ?_, ?_⟩
  · intro E hE
    refine ⟨?_, rfl⟩
    unfold QJniArrayBase.fromContainer
    rw [if_pos, hobj]
    rcases hE with h | h | h | ⟨name, h⟩ <;> subst h <;> simp [CppType.isJObjectBase]
  · intro E r hr hp hexc halloc
    rcases fromContainer_cases hr with h | ⟨T, hT, h⟩
    · rw [h, hobj] at hp
      cases E <;> simp [convertToJniType, QJniArray.defaultConstructed, JType.isPrimitive] at hp
    · have hv := makeArray_success T hT [] env (by unfold jsizeMax; simp) hexc halloc
      have hcalls := makeArray_nil_calls T T T env
      have hTT := makeArray_T T T T [] env
      rw [← h] at hv hcalls hTT
      obtain ⟨_, hl, _, _⟩ := hv
      rw [hTT]
      refine ⟨?_, hl, hcalls⟩
      have := lookup_ne_zero hl
      simpa [QJniArray.isValid, QJniObject.isValid] using this
  · intro E r hr
    have hsize : (r.1.size r.2).1 = 0 := by
      rcases fromContainer_cases hr with h | ⟨T, hT, h⟩
      · rw [h, hobj]
        rfl
      · rw [h]
        exact makeArray_nil_size T env
    refine ⟨hsize, ?_⟩
    rw [isEmpty_val, hsize]
    rfl

/-- Witness for C14: an empty list of `jint`s in a fresh environment. -/
theorem C14_empty_container_by_element_kind_witness :
    QJniArrayBase.fromContainer sizeofAndroid64 .jint [] {}
      = some (QJniArrayBase.makeArray .jint [] .jint .jint {}) ∧
    (QJniArrayBase.makeArray .jint [] .jint .jint {}).1.isValid = true ∧
    (QJniArrayBase.makeArray .jint [] .jint .jint {}).2.lookup
      (QJniArrayBase.makeArray .jint [] .jint .jint {}).1.m_object.m_jobject = some ⟨.jint, []⟩ :=
  ⟨by decide,
   ((C14_empty_container_by_element_kind sizeofAndroid64 {}).2.1 .jint
      (QJniArrayBase.makeArray .jint [] .jint .jint {}) (by decide) (by decide) (by decide)
      (by decide)).1,
   ((C14_empty_container_by_element_kind sizeofAndroid64 {}).2.1 .jint
      (QJniArrayBase.makeArray .jint [] .jint .jint {}) (by decide) (by decide) (by decide)
      (by decide)).2.1⟩

/-! ## Local reference frames -/

@[simp] theorem pushedFrames_nil : pushedFrames [] = 0 := rfl
@[simp] theorem failedPushes_nil : failedPushes [] = 0 := rfl
@[simp] theorem poppedFrames_nil : poppedFrames [] = 0 := rfl
@[simp] theorem frameCapacities_nil : frameCapacities [] = [] := rfl
@[simp] theorem storedElements_nil : storedElements [] = [] := rfl
@[simp] theorem convertedElements_nil : convertedElements [] = [] := rfl

@[simp] theorem pushedFrames_append (l1 l2 : List JniCall) :
    pushedFrames (l1 ++ l2) = pushedFrames l1 + pushedFrames l2 := by
  simp [pushedFrames]

@[simp] theorem failedPushes_append (l1 l2 : List JniCall) :
    failedPushes (l1 ++ l2) = failedPushes l1 + failedPushes l2 := by
  simp [failedPushes]

@[simp] theorem poppedFrames_append (l1 l2 : List JniCall) :
    poppedFrames (l1 ++ l2) = poppedFrames l1 + poppedFrames l2 := by
  simp [poppedFrames]

@[simp] theorem frameCapacities_append (l1 l2 : List JniCall) :
    frameCapacities (l1 ++ l2) = frameCapacities l1 ++ frameCapacities l2 := by
  simp [frameCapacities]

@[simp] theorem storedElements_append (l1 l2 : List JniCall) :
    storedElements (l1 ++ l2) = storedElements l1 ++ storedElements l2 := by
  simp [storedElements]

@[simp] theorem convertedElements_append (l1 l2 : List JniCall) :
    convertedElements (l1 ++ l2) = convertedElements l1 ++ convertedElements l2 := by
  simp [convertedElements]

theorem frameScan_append (l1 l2 : List JniCall) :
    frameScan (l1 ++ l2) = l2.foldl FrameScan.step (frameScan l1) := by
  simp [frameScan]

@[simp] theorem PopLocalFrame_pushOutcomes (env : JNIEnv) :
    env.PopLocalFrame.pushOutcomes = env.pushOutcomes :=
  rfl

@[simp] theorem SetObjectArrayElement_pushOutcomes (env : JNIEnv) (array : Nat) (index : Int)
    (obj : Nat) : (env.SetObjectArrayElement array index obj).pushOutcomes = env.pushOutcomes := by
  unfold JNIEnv.SetObjectArrayElement
  dsimp only
  split
  · rfl
  · split <;> rfl

@[simp] theorem storeElement_pushOutcomes (localArray element : Nat) (i : Int) (env : JNIEnv) :
    (QJniArrayBase.storeElement localArray element i env).pushOutcomes = env.pushOutcomes := by
  simp [QJniArrayBase.storeElement, convertToJni, JNIEnv.record]

theorem PushLocalFrame_fst (env : JNIEnv) (capacity : Int) :
    (env.PushLocalFrame capacity).1 = if env.pushOutcomes.head? = some true then -1 else 0 := by
  unfold JNIEnv.PushLocalFrame
  dsimp only
  split_ifs <;> rfl

@[simp] theorem PushLocalFrame_pushOutcomes (env : JNIEnv) (capacity : Int) :
    (env.PushLocalFrame capacity).2.pushOutcomes = env.pushOutcomes.tail := by
  unfold JNIEnv.PushLocalFrame
  dsimp only
  split_ifs <;> rfl

/-- The conversion and the store of one element, as the frame scan and the
counters see them. -/
theorem storeCalls_facts (la x : Nat) (i : Int) :
    frameCapacities [.convertToJni x, .SetObjectArrayElement la (toJsize i) x] = [] ∧
    pushedFrames [.convertToJni x, .SetObjectArrayElement la (toJsize i) x] = 0 ∧
    failedPushes [.convertToJni x, .SetObjectArrayElement la (toJsize i) x] = 0 ∧
    poppedFrames [.convertToJni x, .SetObjectArrayElement la (toJsize i) x] = 0 ∧
    storedElements [.convertToJni x, .SetObjectArrayElement la (toJsize i) x]
      = [(la, toJsize i, x)] ∧
    convertedElements [.convertToJni x, .SetObjectArrayElement la (toJsize i) x] = [x] ∧
    ∀ (s : FrameScan) (k : Nat × Nat), s.current = some k →
      ([JniCall.convertToJni x, .SetObjectArrayElement la (toJsize i) x].foldl FrameScan.step s)
        = { s with current := some (k.1 + 1, k.2 + 1) } :=
  ⟨rfl, rfl, rfl, rfl, rfl, rfl, fun s k h => by simp [FrameScan.step, h]⟩

/-- The elements stored from index `i` on, one index further. -/
theorem storedFrom_cons (la x : Nat) (i : Int) (rest : List Nat) :
    (la, toJsize i, x) ::
        (List.range rest.length).map (fun k : Nat => (la, toJsize (i + 1 + (k : Int)), rest.getD k 0))
      = (List.range (x :: rest).length).map
          (fun k : Nat => (la, toJsize (i + (k : Int)), (x :: rest).getD k 0)) := by
  simp only [List.length_cons, List.range_succ_eq_map, List.map_cons, List.map_map,
    Function.comp_def, List.getD_cons_zero, List.getD_cons_succ, Nat.cast_zero, Nat.cast_succ,
    add_zero]
  congr 1
  apply List.map_congr_left
  intro a _
  rw [show i + 1 + (a : Int) = i + ((a : Int) + 1) by omega]

/-- The calls of the loop of `makeObjectArray` from index `i` on: the frames it
pushes and pops, and the elements it converts and stores. -/
theorem makeObjectArrayLoop_calls (la : Nat) (list : List Nat) :
    ∀ (i : Int) (env : JNIEnv), 0 ≤ i →
      ∃ calls : List JniCall,
        (QJniArrayBase.makeObjectArrayLoop la list i env).2.log = env.log ++ calls ∧
        (∀ c ∈ frameCapacities calls, c = 100) ∧
        (∀ s : FrameScan, s.current = handledInOpenFrame i →
          (calls.foldl FrameScan.step s).closed
            = s.closed ++ List.replicate (poppedFrames calls) (100, 100) ∧
          (calls.foldl FrameScan.step s).outside = s.outside) ∧
        ((QJniArrayBase.makeObjectArrayLoop la list i env).1 = none →
          failedPushes calls = 1 ∧
          pushedFrames calls + (if i = 0 then 0 else 1) = poppedFrames calls ∧
          (∀ s : FrameScan, s.current = handledInOpenFrame i →
            (calls.foldl FrameScan.step s).current = none) ∧
          ∃ b ∈ env.pushOutcomes, b = true) ∧
        (∀ j : Int, (QJniArrayBase.makeObjectArrayLoop la list i env).1 = some j →
          j = i + list.length ∧
          failedPushes calls = 0 ∧
          pushedFrames calls + (if i = 0 then 0 else 1)
            = poppedFrames calls + (if j = 0 then 0 else 1) ∧
          (pushedFrames calls : Int) = (i + list.length + 99) / 100 - (i + 99) / 100 ∧
          (∀ s : FrameScan, s.current = handledInOpenFrame i →
            (calls.foldl FrameScan.step s).current = handledInOpenFrame j) ∧
          storedElements calls
            = (List.range list.length).map
                (fun k : Nat => (la, toJsize (i + (k : Int)), list.getD k 0)) ∧
          convertedElements calls = list) := by
  induction list with
  | nil =>
    intro i env hi
    refine ⟨[], by simp [QJniArrayBase.makeObjectArrayLoop], by simp, by simp, ?_, ?_⟩
    · intro h
      simp [QJniArrayBase.makeObjectArrayLoop] at h
    · intro j h
      have hj : j = i := by
        simp only [QJniArrayBase.makeObjectArrayLoop] at h
        exact (Option.some.inj h).symm
      subst hj
      refine ⟨by simp, by simp, by simp, by simp, fun s hs => hs, by simp, by simp⟩
  | cons x rest ih =>
    intro i env hi
    obtain ⟨hb1, hb2, hb3, hb4, hb5, hb6, hb7⟩ := storeCalls_facts la x i
    rw [QJniArrayBase.makeObjectArrayLoop]
    dsimp only
    by_cases h100 : i % 100 = 0
    · rw [if_pos h100]
      obtain ⟨pre, env1, henv1, hprelog, hprepush, hprecap, hpushed0, hfailed0, hpopped, hstored0,
          hconv0, hscan⟩ :
          ∃ pre : List JniCall, ∃ env1 : JNIEnv,
            env1 = (if i ≠ 0 then env.PopLocalFrame else env) ∧
            env1.log = env.log ++ pre ∧ env1.pushOutcomes = env.pushOutcomes ∧
            frameCapacities pre = [] ∧ pushedFrames pre = 0 ∧ failedPushes pre = 0 ∧
            poppedFrames pre = (if i = 0 then 0 else 1) ∧
            storedElements pre = [] ∧ convertedElements pre = [] ∧
            ∀ s : FrameScan, s.current = handledInOpenFrame i →
              (pre.foldl FrameScan.step s).current = none ∧
              (pre.foldl FrameScan.step s).closed
                = s.closed ++ List.replicate (poppedFrames pre) (100, 100) ∧
              (pre.foldl FrameScan.step s).outside = s.outside := by
        by_cases hi0 : i = 0
        · refine ⟨[], env, by simp [hi0], by simp, rfl, rfl, rfl, rfl, by simp [hi0], rfl, rfl, ?_⟩
          intro s hs
          simpa [handledInOpenFrame, hi0] using hs
        · refine ⟨[.PopLocalFrame], env.PopLocalFrame, by simp [hi0], by simp, rfl, rfl, rfl, rfl,
            by simp [hi0, poppedFrames], rfl, rfl, ?_⟩
          intro s hs
          have h99 : ((i - 1) % 100).toNat + 1 = 100 := by omega
          simp [FrameScan.step, hs, handledInOpenFrame, hi0, h99, poppedFrames]
      rw [← henv1]
      by_cases hpush : (env1.PushLocalFrame 100).1 = 0
      · rw [if_neg (not_not.mpr hpush)]
        obtain ⟨calls, hlog, hcap, hclosed, hnone, hsome⟩ :=
          ih (i + 1) (QJniArrayBase.storeElement la x i (env1.PushLocalFrame 100).2) (by omega)
        have hcur : ∀ s : FrameScan, s.current = handledInOpenFrame i →
            ((pre ++ [JniCall.PushLocalFrame 100 0] ++ [JniCall.convertToJni x,
                JniCall.SetObjectArrayElement la (toJsize i) x]).foldl FrameScan.step s).current
              = handledInOpenFrame (i + 1) ∧
            ((pre ++ [JniCall.PushLocalFrame 100 0] ++ [JniCall.convertToJni x,
                JniCall.SetObjectArrayElement la (toJsize i) x]).foldl FrameScan.step s).closed
              = s.closed ++ List.replicate (poppedFrames pre) (100, 100) ∧
            ((pre ++ [JniCall.PushLocalFrame 100 0] ++ [JniCall.convertToJni x,
                JniCall.SetObjectArrayElement la (toJsize i) x]).foldl FrameScan.step s).outside
              = s.outside := by
          intro s hs
          obtain ⟨hs1, hs2, hs3⟩ := hscan s hs
          have hinside : handledInOpenFrame (i + 1) = some (1, 1) := by
            have h0 : ((i + 1 - 1) % 100).toNat + 1 = 1 := by omega
            rw [handledInOpenFrame, if_neg (by omega), h0]
          rw [List.foldl_append,
            hb7 _ (0, 0) (by rw [List.foldl_append]; simp [FrameScan.step]), hinside]
          simp [List.foldl_append, FrameScan.step, hs2, hs3]
        refine ⟨pre ++ [JniCall.PushLocalFrame 100 0] ++ [JniCall.convertToJni x,
            JniCall.SetObjectArrayElement la (toJsize i) x] ++ calls,
          by rw [hlog]; simp [hprelog, hpush], ?_, ?_, ?_, ?_⟩
        · intro c hc
          simp only [frameCapacities_append, hprecap, hb1, List.nil_append, List.append_nil] at hc
          rcases List.mem_append.mp hc with hc | hc
          · simpa [frameCapacities] using hc
          · exact hcap c hc
        · intro s hs
          obtain ⟨hc1, hc2, hc3⟩ := hcur s hs
          obtain ⟨hd1, hd2⟩ := hclosed _ hc1
          rw [List.foldl_append]
          refine ⟨?_, by rw [hd2, hc3]⟩
          rw [hd1, hc2]
          simp only [poppedFrames_append, hb4, List.replicate_add, List.append_assoc]
          simp [poppedFrames]
        · intro h
          obtain ⟨h1, h2, h3, h4⟩ := hnone h
          refine ⟨?_, ?_, ?_, ?_⟩
          · simp only [failedPushes_append, hfailed0, hb3, h1]
            simp [failedPushes]
          · rw [if_neg (by omega)] at h2
            simp only [pushedFrames_append, poppedFrames_append, hpushed0, hpopped, hb2, hb4]
            rw [show pushedFrames [JniCall.PushLocalFrame 100 0] = 1 from rfl,
              show poppedFrames [JniCall.PushLocalFrame 100 0] = 0 from rfl]
            omega
          · intro s hs
            rw [List.foldl_append]
            exact h3 _ (hcur s hs).1
          · obtain ⟨b, hb, hbt⟩ := h4
            refine ⟨b, ?_, hbt⟩
            rw [storeElement_pushOutcomes, PushLocalFrame_pushOutcomes, hprepush] at hb
            exact List.mem_of_mem_tail hb
        · intro j h
          obtain ⟨h1, h2, h3, h4, h5, h6, h7⟩ := hsome j h
          have hpushed : pushedFrames (pre ++ [JniCall.PushLocalFrame 100 0]
              ++ [JniCall.convertToJni x, JniCall.SetObjectArrayElement la (toJsize i) x] ++ calls)
                = pushedFrames calls + 1 := by
            simp only [pushedFrames_append, hpushed0, hb2]
            rw [show pushedFrames [JniCall.PushLocalFrame 100 0] = 1 from rfl]
            omega
          refine ⟨?_, ?_, ?_, ?_, ?_, ?_, ?_⟩
          · rw [h1]
            simp only [List.length_cons, Nat.cast_add, Nat.cast_one]
            omega
          · simp only [failedPushes_append, hfailed0, hb3, h2]
            simp [failedPushes]
          · rw [if_neg (by omega)] at h3
            rw [hpushed]
            simp only [poppedFrames_append, hpopped, hb4]
            rw [show poppedFrames [JniCall.PushLocalFrame 100 0] = 0 from rfl]
            omega
          · rw [hpushed]
            simp only [List.length_cons, Nat.cast_add, Nat.cast_one, h4]
            omega
          · intro s hs
            rw [List.foldl_append]
            exact h5 _ (hcur s hs).1
          · simp only [storedElements_append, hstored0, hb5, h6]
            rw [show storedElements [JniCall.PushLocalFrame 100 0] = [] from rfl]
            exact storedFrom_cons la x i rest
          · simp only [convertedElements_append, hconv0, hb6, h7]
            rfl
      · rw [if_pos hpush]
        refine ⟨pre ++ [JniCall.PushLocalFrame 100 (env1.PushLocalFrame 100).1],
          by simp [hprelog], ?_, ?_, ?_, ?_⟩
        · intro c hc
          rw [frameCapacities_append, hprecap] at hc
          simpa [frameCapacities] using hc
        · intro s hs
          obtain ⟨hs1, hs2, hs3⟩ := hscan s hs
          rw [List.foldl_append]
          simp [FrameScan.step, hpush, hs2, hs3, poppedFrames]
        · intro _
          refine ⟨?_, ?_, ?_, ?_⟩
          · rw [failedPushes_append, hfailed0]
            simp [failedPushes, hpush]
          · simp only [pushedFrames_append, poppedFrames_append, hpushed0, hpopped]
            simp [pushedFrames, poppedFrames, hpush]
          · intro s hs
            obtain ⟨hs1, hs2⟩ := hscan s hs
            rw [List.foldl_append]
            simp [FrameScan.step, hpush, hs1]
          · refine ⟨true, ?_, rfl⟩
            rw [PushLocalFrame_fst] at hpush
            have hh : env1.pushOutcomes.head? = some true := by
              by_contra hc
              exact hpush (by rw [if_neg hc])
            rw [← hprepush]
            exact List.mem_of_mem_head? hh
        · intro j h
          exact absurd h (by simp)
    · rw [if_neg h100]
      have hi0 : i ≠ 0 := fun h => h100 (by rw [h]; rfl)
      obtain ⟨calls, hlog, hcap, hclosed, hnone, hsome⟩ :=
        ih (i + 1) (QJniArrayBase.storeElement la x i env) (by omega)
      have hopen : ∀ s : FrameScan, s.current = handledInOpenFrame i →
          s.current = some (((i - 1) % 100).toNat + 1, ((i - 1) % 100).toNat + 1) := by
        intro s hs
        rw [hs, handledInOpenFrame, if_neg hi0]
      have hcur : ∀ s : FrameScan, s.current = handledInOpenFrame i →
          (([JniCall.convertToJni x, JniCall.SetObjectArrayElement la (toJsize i) x]).foldl
            FrameScan.step s).current = handledInOpenFrame (i + 1) := by
        intro s hs
        rw [hb7 s _ (hopen s hs), handledInOpenFrame, if_neg (by omega)]
        have h1 : ((i + 1 - 1) % 100).toNat = ((i - 1) % 100).toNat + 1 := by omega
        rw [h1]
      refine ⟨[JniCall.convertToJni x, JniCall.SetObjectArrayElement la (toJsize i) x] ++ calls,
        by rw [hlog]; simp, ?_, ?_, ?_, ?_⟩
      · intro c hc
        simp only [frameCapacities_append, hb1, List.nil_append] at hc
        exact hcap c hc
      · intro s hs
        obtain ⟨hd1, hd2⟩ := hclosed _ (hcur s hs)
        rw [List.foldl_append, hd1, hd2, hb7 s _ (hopen s hs)]
        simp only [poppedFrames_append, hb4, Nat.zero_add]
        first
          | exact ⟨rfl, rfl⟩
          | exact ⟨rfl, trivial⟩
          | trivial
      · intro h
        obtain ⟨h1, h2, h3, h4⟩ := hnone h
        refine ⟨?_, ?_, ?_, ?_⟩
        · simp only [failedPushes_append, hb3, h1]
        · rw [if_neg (by omega)] at h2
          rw [if_neg hi0]
          simp only [pushedFrames_append, poppedFrames_append, hb2, hb4]
          omega
        · intro s hs
          rw [List.foldl_append]
          exact h3 _ (hcur s hs)
        · simpa using h4
      · intro j h
        obtain ⟨h1, h2, h3, h4, h5, h6, h7⟩ := hsome j h
        refine ⟨?_, ?_, ?_, ?_, ?_, ?_, ?_⟩
        · rw [h1]
          simp only [List.length_cons, Nat.cast_add, Nat.cast_one]
          omega
        · simp only [failedPushes_append, hb3, h2]
        · rw [if_neg (by omega)] at h3
          rw [if_neg hi0]
          simp only [pushedFrames_append, poppedFrames_append, hb2, hb4]
          omega
        · simp only [pushedFrames_append, hb2, Nat.zero_add, h4, List.length_cons, Nat.cast_add,
            Nat.cast_one]
          omega
        · intro s hs
          rw [List.foldl_append]
          exact h5 _ (hcur s hs)
        · simp only [storedElements_append, hb5, h6]
          exact storedFrom_cons la x i rest
        · simp only [convertedElements_append, hb6, h7]
          rfl

/-- A successful `NewObjectArray`: the reference returned and no exception
raised. -/
theorem NewObjectArray_success (env : JNIEnv) (cls : ClassRef) (n : Nat)
    (halloc : env.allocOutcomes.head? ≠ some true) :
    (env.NewObjectArray n cls).1 = env.heap.length + 1 ∧
    (env.NewObjectArray n cls).2.exceptionPending = env.exceptionPending := by
  have hneg : ¬ ((n : Int) < 0) := by omega
  unfold JNIEnv.NewObjectArray JNIEnv.allocate
  dsimp only
  rw [if_neg (by simp only [JNIEnv.record, not_or]; exact ⟨hneg, halloc⟩)]
  simp [JNIEnv.record]

/-- The three ways `makeObjectArray` returns for a non-empty list: after an
exception of the allocation, after a failed `PushLocalFrame`, and after the
loop. -/
theorem makeObjectArray_cases (ElementType : CppType) (list : List Nat) (env : JNIEnv)
    (hne : list ≠ []) :
    ∃ (localArray : Nat) (env3 : JNIEnv) (cls : ClassRef),
      env3.log = env.log
        ++ [.classLookup cls, .NewObjectArray (toJsize list.length) cls, .checkAndClearExceptions] ∧
      env3.pushOutcomes = env.pushOutcomes ∧
      (env.exceptionPending = false → env.allocOutcomes.head? ≠ some true →
        (list.length : Int) ≤ jsizeMax →
        localArray = env.heap.length + 1 ∧
        (checkAndClearExceptions
          ((env.record (.classLookup cls)).NewObjectArray (toJsize list.length) cls).2).1 = false) ∧
      (((checkAndClearExceptions
          ((env.record (.classLookup cls)).NewObjectArray (toJsize list.length) cls).2).1 = true ∧
        QJniArrayBase.makeObjectArray ElementType list env
          = (QJniArray.defaultConstructed (convertToJniType ElementType), env3)) ∨
       ((QJniArrayBase.makeObjectArrayLoop localArray list 0 env3).1 = none ∧
        QJniArrayBase.makeObjectArray ElementType list env
          = (QJniArray.defaultConstructed (convertToJniType ElementType),
              (QJniArrayBase.makeObjectArrayLoop localArray list 0 env3).2)) ∨
       ((QJniArrayBase.makeObjectArrayLoop localArray list 0 env3).1 = some (list.length : Int) ∧
        QJniArrayBase.makeObjectArray ElementType list env
          = (QJniArray.fromArray (convertToJniType ElementType) localArray,
              (QJniArrayBase.makeObjectArrayLoop localArray list 0 env3).2.PopLocalFrame))) := by
  have hlen : list.length ≠ 0 := fun h => hne (List.length_eq_zero.mp h)
  refine ⟨((env.record (.classLookup (QJniArrayBase.elementClass ElementType (list.headD 0)))).NewObjectArray
      (toJsize list.length) (QJniArrayBase.elementClass ElementType (list.headD 0))).1,
    (checkAndClearExceptions
      ((env.record (.classLookup (QJniArrayBase.elementClass ElementType (list.headD 0)))).NewObjectArray
        (toJsize list.length) (QJniArrayBase.elementClass ElementType (list.headD 0))).2).2,
    QJniArrayBase.elementClass ElementType (list.headD 0), by simp, ?_, ?_, ?_⟩
  · simp [checkAndClearExceptions, JNIEnv.NewObjectArray, JNIEnv.allocate, JNIEnv.record]
    split_ifs <;> rfl
  · intro hexc halloc hsize
    rw [toJsize_eq_self (Int.ofNat_nonneg _) hsize]
    obtain ⟨h1, h2⟩ := NewObjectArray_success
      (env.record (.classLookup (QJniArrayBase.elementClass ElementType (list.headD 0))))
      (QJniArrayBase.elementClass ElementType (list.headD 0)) list.length halloc
    refine ⟨by rw [h1]; simp, ?_⟩
    simp only [checkAndClearExceptions, h2]
    exact hexc
  · rw [QJniArrayBase.makeObjectArray.eq_def]
    dsimp only
    rw [if_neg hlen]
    split_ifs with hexc
    · exact Or.inl ⟨hexc, rfl⟩
    · obtain ⟨calls, _, _, _, _, hsome⟩ := makeObjectArrayLoop_calls
        ((env.record (.classLookup (QJniArrayBase.elementClass ElementType (list.headD 0)))).NewObjectArray
          (toJsize list.length) (QJniArrayBase.elementClass ElementType (list.headD 0))).1 list 0
        (checkAndClearExceptions
          ((env.record (.classLookup (QJniArrayBase.elementClass ElementType (list.headD 0)))).NewObjectArray
            (toJsize list.length) (QJniArrayBase.elementClass ElementType (list.headD 0))).2).2
        (le_refl 0)
      split
      · rename_i hnone
        exact Or.inr (Or.inl ⟨hnone, rfl⟩)
      · rename_i j hj
        have hjn := (hsome j hj).1
        rw [zero_add] at hjn
        have hj0 : j ≠ 0 := by omega
        rw [if_pos hj0]
        exact Or.inr (Or.inr ⟨by rw [hj, hjn], rfl⟩)

/-- C12: for every non-empty list of n elements, on every return path of
`makeObjectArray` the calls it made contain as many `PopLocalFrame` calls as
successful `PushLocalFrame` calls; every `PushLocalFrame` asks for a capacity of
100; every frame pushed is popped; between the push of a frame and its pop at
most 100 elements are converted and at most 100 are stored, as many of the one
as of the other, and no element is converted or stored outside of a frame; when
a `PushLocalFrame` fails the array returned is invalid; and no push fails when
the environment lets every `PushLocalFrame` succeed.  When n is at most 2^31-1
(the precondition of `fromContainer`), the array is created and no push fails,
the array returned is valid, exactly ceil(n/100) frames are pushed, each of
them but the last converts and stores 100 elements and the last one the
remaining ones, the n elements are converted in order, and element k is stored
at index k for every k below n. -/
theorem C12_local_frames_in_chunks_of_100 (ElementType : CppType) (list : List Nat)
    (env : JNIEnv) (hne : list ≠ []) :
    ∃ calls : List JniCall,
      (QJniArrayBase.makeObjectArray ElementType list env).2.log = env.log ++ calls ∧
      poppedFrames calls = pushedFrames calls ∧
      (∀ c ∈ frameCapacities calls, c = 100) ∧
      (frameScan calls).current = none ∧
      (frameScan calls).closed.length = pushedFrames calls ∧
      (∀ k ∈ (frameScan calls).closed, k.1 ≤ 100 ∧ k.2 ≤ 100 ∧ k.1 = k.2) ∧
      (frameScan calls).outside = 0 ∧
      (failedPushes calls ≠ 0 →
        (QJniArrayBase.makeObjectArray ElementType list env).1.isValid = false) ∧
      ((∀ b ∈ env.pushOutcomes, b = false) → failedPushes calls = 0) ∧
      (QJniArrayBase.fromContainerPrecondition list →
        env.exceptionPending = false → env.allocOutcomes.head? ≠ some true →
        failedPushes calls = 0 →
        (QJniArrayBase.makeObjectArray ElementType list env).1.isValid = true ∧
        pushedFrames calls = (list.length + 99) / 100 ∧
        (frameScan calls).closed
          = List.replicate ((list.length - 1) / 100) (100, 100)
              ++ [((list.length - 1) % 100 + 1, (list.length - 1) % 100 + 1)] ∧
        convertedElements calls = list ∧
        storedElements calls = (List.range list.length).map (fun k : Nat =>
          ((QJniArrayBase.makeObjectArray ElementType list env).1.m_object.m_jobject, (k : Int),
            list.getD k 0))) := by
  have hlen : 0 < list.length := List.length_pos.mpr hne
  obtain ⟨la, env3, cls, hlog3, hpush3, hok, hcases⟩ :=
    makeObjectArray_cases ElementType list env hne
  obtain ⟨lc, hlc, hcap, hclosed, hnone, hsome⟩ := makeObjectArrayLoop_calls la list 0 env3 (le_refl 0)
  have hhead : ∀ l : List JniCall,
      pushedFrames ([.classLookup cls, .NewObjectArray (toJsize list.length) cls,
        .checkAndClearExceptions] ++ l) = pushedFrames l ∧
      poppedFrames ([.classLookup cls, .NewObjectArray (toJsize list.length) cls,
        .checkAndClearExceptions] ++ l) = poppedFrames l ∧
      failedPushes ([.classLookup cls, .NewObjectArray (toJsize list.length) cls,
        .checkAndClearExceptions] ++ l) = failedPushes l ∧
      frameCapacities ([.classLookup cls, .NewObjectArray (toJsize list.length) cls,
        .checkAndClearExceptions] ++ l) = frameCapacities l ∧
      convertedElements ([.classLookup cls, .NewObjectArray (toJsize list.length) cls,
        .checkAndClearExceptions] ++ l) = convertedElements l ∧
      storedElements ([.classLookup cls, .NewObjectArray (toJsize list.length) cls,
        .checkAndClearExceptions] ++ l) = storedElements l ∧
      frameScan ([.classLookup cls, .NewObjectArray (toJsize list.length) cls,
        .checkAndClearExceptions] ++ l) = l.foldl FrameScan.step {} :=
    fun l => ⟨rfl, rfl, rfl, rfl, rfl, rfl, rfl⟩
  have hs0 : ({} : FrameScan).current = handledInOpenFrame 0 := rfl
  rcases hcases with ⟨hexc, hr⟩ | ⟨hloop, hr⟩ | ⟨hloop, hr⟩
  · refine ⟨[.classLookup cls, .NewObjectArray (toJsize list.length) cls,
      .checkAndClearExceptions], by rw [hr, hlog3], rfl, by simp [frameCapacities], rfl, rfl,
      by simp [frameScan, FrameScan.step], rfl, ?_, fun _ => rfl, ?_⟩
    · intro _
      rw [hr]
      rfl
    · intro hsize h1 h2 _
      unfold QJniArrayBase.fromContainerPrecondition at hsize
      rw [(hok h1 h2 hsize).2] at hexc
      exact absurd hexc (by simp)
  · obtain ⟨hf, hcount, hcur, hb⟩ := hnone hloop
    obtain ⟨h1, h2, h3, h4, h5, h6, h7⟩ := hhead lc
    refine ⟨[.classLookup cls, .NewObjectArray (toJsize list.length) cls,
      .checkAndClearExceptions] ++ lc, by rw [hr, hlc, hlog3, List.append_assoc], ?_, ?_, ?_, ?_,
      ?_, ?_, ?_, ?_, ?_⟩
    · rw [h1, h2]
      simpa using hcount.symm
    · rw [h4]
      exact hcap
    · rw [h7]
      exact hcur _ hs0
    · rw [h7, (hclosed _ hs0).1, h1]
      simpa using hcount.symm
    · rw [h7, (hclosed _ hs0).1]
      intro k hk
      have hk1 : k = (100, 100) := List.eq_of_mem_replicate (by simpa using hk)
      rw [hk1]
      exact ⟨le_refl _, le_refl _, rfl⟩
    · rw [h7, (hclosed _ hs0).2]
    · intro _
      rw [hr]
      rfl
    · intro hall
      obtain ⟨b, hbm, hbt⟩ := hb
      rw [hpush3] at hbm
      rw [hall b hbm] at hbt
      exact absurd hbt (by simp)
    · intro _ _ _ h0
      rw [h3, hf] at h0
      exact absurd h0 (by simp)
  · obtain ⟨_, hf, hcount, hceil, hcur, hstored, hconv⟩ := hsome _ hloop
    obtain ⟨h1, h2, h3, h4, h5, h6, h7⟩ := hhead (lc ++ [.PopLocalFrame])
    have hn0 : ((list.length : Nat) : Int) ≠ 0 := by omega
    rw [if_pos rfl, if_neg hn0] at hcount
    have hp1 : pushedFrames (lc ++ [.PopLocalFrame]) = pushedFrames lc := by
      rw [pushedFrames_append]
      rfl
    have hp2 : poppedFrames (lc ++ [.PopLocalFrame]) = poppedFrames lc + 1 := by
      rw [poppedFrames_append]
      rfl
    have hp3 : failedPushes (lc ++ [.PopLocalFrame]) = 0 := by
      rw [failedPushes_append, hf]
      rfl
    have hscan : (lc ++ [JniCall.PopLocalFrame]).foldl FrameScan.step {}
        = { closed := List.replicate (poppedFrames lc) (100, 100)
              ++ [((((list.length : Int) - 1) % 100).toNat + 1,
                    (((list.length : Int) - 1) % 100).toNat + 1)],
            current := none
            outside := 0 } := by
      obtain ⟨hc1, hc3⟩ := hclosed _ hs0
      have hc2 := hcur _ hs0
      rw [handledInOpenFrame, if_neg hn0] at hc2
      rw [List.foldl_append]
      simp only [List.foldl_cons, List.foldl_nil, FrameScan.step, hc2, hc1, hc3]
      rfl
    refine ⟨[.classLookup cls, .NewObjectArray (toJsize list.length) cls,
      .checkAndClearExceptions] ++ (lc ++ [.PopLocalFrame]),
      by rw [hr]; simp [hlc, hlog3], ?_, ?_, ?_, ?_, ?_, ?_, ?_, ?_, ?_⟩
    · rw [h1, h2, hp1, hp2]
      omega
    · rw [h4, frameCapacities_append]
      simpa [frameCapacities] using hcap
    · rw [h7, hscan]
    · rw [h7, hscan, h1, hp1]
      simp
      omega
    · rw [h7, hscan]
      intro k hk
      rcases List.mem_append.mp hk with hk | hk
      · rw [List.eq_of_mem_replicate hk]
        exact ⟨le_refl _, le_refl _, rfl⟩
      · rw [List.mem_singleton.mp hk]
        refine ⟨?_, ?_, rfl⟩ <;> dsimp only <;> omega
    · rw [h7, hscan]
    · intro h0
      rw [h3, hp3] at h0
      exact absurd rfl h0
    · intro _
      rw [h3, hp3]
    · intro hsize hexc halloc _
      unfold QJniArrayBase.fromContainerPrecondition at hsize
      obtain ⟨hla, _⟩ := hok hexc halloc hsize
      refine ⟨?_, ?_, ?_, ?_, ?_⟩
      · rw [hr, hla]
        simp [QJniArray.fromArray, QJniArray.isValid, QJniObject.isValid]
      · rw [h1, hp1]
        omega
      · rw [h7, hscan]
        have hfull : poppedFrames lc = (list.length - 1) / 100 := by omega
        have hlast : (((list.length : Int) - 1) % 100).toNat + 1 = (list.length - 1) % 100 + 1 := by
          omega
        rw [hfull, hlast]
      · rw [h5, convertedElements_append, hconv]
        exact List.append_nil list
      · rw [h6, storedElements_append, hstored, hr]
        rw [show storedElements [JniCall.PopLocalFrame] = [] from rfl, List.append_nil]
        apply List.map_congr_left
        intro k hk
        have hk1 : k < list.length := List.mem_range.mp hk
        rw [zero_add, toJsize_eq_self (Int.ofNat_nonneg _) (by omega)]
        rfl

/-- Witness for C12: a list of 250 objects in a fresh environment; three frames are
pushed and popped, the first two convert and store 100 elements each and the
last one 50, and nothing is converted or stored outside of a frame. -/
theorem C12_local_frames_in_chunks_of_100_witness :
    List.range 250 ≠ [] ∧
    ∃ calls : List JniCall,
      (QJniArrayBase.makeObjectArray .jobject (List.range 250) {}).2.log
        = ({} : JNIEnv).log ++ calls ∧
      poppedFrames calls = pushedFrames calls ∧ pushedFrames calls = 3 ∧
      (frameScan calls).closed = [(100, 100), (100, 100), (50, 50)] ∧
      (frameScan calls).outside = 0 ∧ convertedElements calls = List.range 250 := by
  refine ⟨by simp, ?_⟩
  obtain ⟨calls, hlog, hbalance, -, -, -, -, houtside, -, hnofail, hfull⟩ :=
    C12_local_frames_in_chunks_of_100 .jobject (List.range 250) {} (by simp)
  have hfailed : failedPushes calls = 0 := hnofail fun b hb => absurd hb (List.not_mem_nil b)
  obtain ⟨-, hpushed, hclosed, hconverted, -⟩ :=
    hfull (by simp [QJniArrayBase.fromContainerPrecondition, jsizeMax]) rfl (by decide) hfailed
  refine ⟨calls, hlog, hbalance, ?_, ?_, houtside, hconverted⟩
  · rw [hpushed, List.length_range]
  · rw [hclosed, List.length_range]
    rfl

end QJni

/-- The narrowing to `int` is reduction modulo 2^32 into the signed range. -/
theorem toInt_eq_wrap (n : Int) : toInt n = (n + 2147483648) % 4294967296 - 2147483648 := by
  unfold toInt
  split_ifs with h
  · omega
  · rfl

theorem toInt_eq_self {n : Int} (h0 : -2147483648 ≤ n) (h1 : n ≤ 2147483647) : toInt n = n := by
  unfold toInt
  rw [if_pos ⟨h0, h1⟩]

namespace MultiWindow

/-! ## Facts about the control widget -/

theorem createWindow_eq (windows : List Window) (noVSync : Bool) :
    ∃ w : Window, createWindow windows noVSync = windows ++ [w] ∧ w.m_noVSync = noVSync := by
  unfold createWindow
  dsimp only
  rw [List.modifyLast_append_one]
  exact ⟨_, rfl, rfl⟩

/-- One click keeps the invariant and moves the counter by at most one, as long
as the counter is below the largest `int`. -/
theorem click_consistent (app : App) (c : Click) (hc : app.Consistent)
    (hmax : app.winCount < 2147483647) :
    ∃ app1, click app c = some app1 ∧ app1.Consistent ∧ app1.winCount ≤ app.winCount + 1 := by
  obtain ⟨hcount, hlabel⟩ := hc
  have hnonneg : 0 ≤ app.winCount := by rw [hcount]; exact Int.ofNat_nonneg _
  cases c with
  | newWindow =>
    obtain ⟨w, hw, _⟩ := createWindow_eq app.windows
      (app.vsCb && decide (toInt (app.winCount + 1) > 1))
    refine ⟨onNewWindow app, rfl, ⟨?_, rfl⟩, ?_⟩
    · simp only [onNewWindow, hw, List.length_append, List.length_singleton]
      rw [toInt_eq_self (by omega) (by omega), hcount]
      push_cast
      rfl
    · simp only [onNewWindow]
      rw [toInt_eq_self (by omega) (by omega)]
  | closeWindow =>
    by_cases hpos : app.winCount > 0
    · have hne : app.windows ≠ [] := by
        intro hnil
        rw [hnil] at hcount
        simp at hcount
        omega
      have hempty : app.windows.isEmpty = false := by
        cases hw : app.windows with
        | nil => exact absurd hw hne
        | cons _ _ => rfl
      refine ⟨{ app with
          winCount := toInt (app.winCount - 1)
          label := "Window count: " ++ toString (toInt (app.winCount - 1))
          windows := app.windows.dropLast }, ?_, ⟨?_, rfl⟩, ?_⟩
      · simp only [click, onCloseWindow, if_pos hpos, closeWindow, hempty]
        rfl
      · dsimp only
        rw [toInt_eq_self (by omega) (by omega), List.length_dropLast, hcount]
        have : 0 < app.windows.length := List.length_pos.mpr hne
        omega
      · dsimp only
        rw [toInt_eq_self (by omega) (by omega)]
        omega
    · refine ⟨app, ?_, ⟨hcount, hlabel⟩, by omega⟩
      simp only [click, onCloseWindow, if_neg hpos]
  | checkBox =>
    exact ⟨_, rfl, ⟨hcount, hlabel⟩, by simp⟩

/-- A sequence of clicks keeps the invariant, as long as the counter cannot
pass the largest `int`. -/
theorem run_consistent (clicks : List Click) :
    ∀ app : App, app.Consistent → app.winCount + clicks.length ≤ 2147483647 →
      ∃ app1, run app clicks = some app1 ∧ app1.Consistent
        ∧ app1.winCount ≤ app.winCount + clicks.length := by
  induction clicks with
  | nil =>
    intro app hc _
    exact ⟨app, rfl, hc, by simp⟩
  | cons c rest ih =>
    intro app hc hmax
    simp only [List.length_cons, Nat.cast_add, Nat.cast_one] at hmax
    obtain ⟨app1, h1, hc1, hle1⟩ := click_consistent app c hc (by omega)
    obtain ⟨app2, h2, hc2, hle2⟩ := ih app1 hc1 (by omega)
    refine ⟨app2, ?_, hc2, ?_⟩
    · simp only [run, h1, h2]
    · simp only [List.length_cons, Nat.cast_add, Nat.cast_one]
      omega

theorem initial_consistent : ({} : App).Consistent :=
  ⟨rfl, rfl⟩

/-! ## Claims about the control widget -/

/-- C6: NoVSync on all swapchains except the first.  In a state reached by clicks
(fewer than 2^31 with the new one, so that the `int` counter `winCount` stays
in its range; C++ leaves its overflow undefined), a click on "New window"
appends one window; that window gets NoVSync exactly when the check box is
checked and the window count after the click is greater than 1, which is the
case exactly when a window was open before the click.  So with the check box
checked the window gets NoVSync exactly when it is not the first of the open
windows, and with the check box unchecked it never does. -/
theorem C6_noVSync_on_all_but_first_window (clicks : List Click)
    (h : clicks.length + 1 < 2147483648) :
    ∃ app app1 w, run {} clicks = some app ∧ click app .newWindow = some app1 ∧
      app1.windows = app.windows ++ [w] ∧
      w.m_noVSync = (app.vsCb && decide (app1.winCount > 1)) ∧
      (app1.winCount > 1 ↔ app.windows ≠ []) ∧
      (app.vsCb = true → (w.m_noVSync = true ↔ app.windows ≠ [])) ∧
      (app.vsCb = false → w.m_noVSync = false) := by
  obtain ⟨app, hrun, ⟨hcount, _⟩, hle⟩ := run_consistent clicks {} initial_consistent
    (by show (0 : Int) + _ ≤ _; omega)
  have hle2 : app.winCount ≤ clicks.length := by
    have : ({} : App).winCount = 0 := rfl
    omega
  have hnonneg : 0 ≤ app.winCount := by rw [hcount]; exact Int.ofNat_nonneg _
  have hcnt : toInt (app.winCount + 1) = app.winCount + 1 :=
    toInt_eq_self (by omega) (by omega)
  obtain ⟨w, hw, hwv⟩ := createWindow_eq app.windows
    (app.vsCb && decide (toInt (app.winCount + 1) > 1))
  have hiff : (onNewWindow app).winCount > 1 ↔ app.windows ≠ [] := by
    show toInt (app.winCount + 1) > 1 ↔ _
    rw [hcnt, ← List.length_pos, hcount]
    omega
  refine ⟨app, onNewWindow app, w, hrun, rfl, ?_, ?_, hiff, ?_, ?_⟩
  · simp only [onNewWindow, hw]
  · rw [hwv]
    rfl
  · intro hcb
    rw [hwv, hcb, Bool.true_and, decide_eq_true_iff]
    exact hiff
  · intro hcb
    rw [hwv, hcb, Bool.false_and]

/-- Witness for C6: the check box is checked after the first window is open, and
a second window is created. -/
theorem C6_noVSync_on_all_but_first_window_witness :
    ([Click.newWindow, Click.checkBox] : List Click).length + 1 < 2147483648 ∧
    ∃ app app1 w, run {} [.newWindow, .checkBox] = some app ∧
      click app .newWindow = some app1 ∧
      app1.windows = app.windows ++ [w] ∧
      w.m_noVSync = (app.vsCb && decide (app1.winCount > 1)) ∧
      (app1.winCount > 1 ↔ app.windows ≠ []) ∧
      (app.vsCb = true → (w.m_noVSync = true ↔ app.windows ≠ [])) ∧
      (app.vsCb = false → w.m_noVSync = false) :=
  ⟨by decide, C6_noVSync_on_all_but_first_window [.newWindow, .checkBox] (by decide)⟩

/-- C7: the displayed window count is the number of open windows.  Every sequence
of clicks on "New window", "Close window" and the check box (fewer than 2^31
clicks, so that the `int` counter `winCount` stays in its range; C++ leaves
its overflow undefined) runs to a state, that is `closeWindow` never takes
the last element of an empty list; in that state `winCount` is the
number of windows in `d.windows`, it is not negative, and the label displays
it; and if no window is open a click on "Close window" changes nothing. -/
theorem C7_window_count_is_number_of_windows (clicks : List Click)
    (h : clicks.length < 2147483648) :
    ∃ app, run {} clicks = some app ∧
      app.winCount = (app.windows.length : Int) ∧ 0 ≤ app.winCount ∧
      app.label = "Window count: " ++ toString app.winCount ∧
      (app.windows = [] → click app .closeWindow = some app) := by
  obtain ⟨app, hrun, ⟨hcount, hlabel⟩, _⟩ := run_consistent clicks {} initial_consistent
    (by show (0 : Int) + _ ≤ _; omega)
  refine ⟨app, hrun, hcount, ?_, hlabel, ?_⟩
  · rw [hcount]
    exact Int.ofNat_nonneg _
  · intro hnil
    have h0 : ¬ app.winCount > 0 := by
      rw [hcount, hnil]
      simp
    simp only [click, onCloseWindow, if_neg h0]

/-- Witness for C7: two windows are opened and "Close window" is clicked three
times. -/
theorem C7_window_count_is_number_of_windows_witness :
    ([Click.newWindow, Click.newWindow, Click.closeWindow, Click.closeWindow,
      Click.closeWindow] : List Click).length < 2147483648 ∧
    ∃ app, run {} [.newWindow, .newWindow, .closeWindow, .closeWindow, .closeWindow]
        = some app ∧
      app.winCount = (app.windows.length : Int) ∧ 0 ≤ app.winCount ∧
      app.label = "Window count: " ++ toString app.winCount ∧
      (app.windows = [] → click app .closeWindow = some app) :=
  ⟨by decide,
   C7_window_count_is_number_of_windows
     [.newWindow, .newWindow, .closeWindow, .closeWindow, .closeWindow] (by decide)⟩

/-- C8: command line arguments override the platform default.  With no API option
the selected API is the platform default; with the option of exactly one API it
is that API; and in general it is the last of the given options in the order
opengl, vulkan, d3d11, d3d12, metal, or the platform default if none is given. -/
theorem C8_command_line_overrides_platform_default (cfg : BuildConfig) (opts : ApiOptions) :
    selectGraphicsApi cfg {} = platformDefault cfg ∧
    (∀ api : GraphicsApi, selectGraphicsApi cfg (ApiOptions.only api) = api) ∧
    selectGraphicsApi cfg opts = (opts.given.getLast?).getD (platformDefault cfg) := by
  refine ⟨rfl, ?_, ?_⟩
  · intro api
    cases api <;> rfl
  · obtain ⟨gl, vk, d3d, d3d12, mtl⟩ := opts
    cases gl <;> cases vk <;> cases d3d <;> cases d3d12 <;> cases mtl <;> rfl

/-! ## Facts about the windows -/

@[simp] theorem World.log_record (world : World) (c : Call) :
    (world.record c).log = world.log ++ [c] :=
  rfl

theorem callsSince_of_log (world world1 : World) (calls : List Call)
    (h : world1.log = world.log ++ calls) : callsSince world world1 = calls := by
  simp [callsSince, h]

/-- The member `resizeSwapChain` on a window that has its swapchain object: what
`createOrResize` returns becomes `m_hasSwapChain`, the two calls are logged, and
the other fields of the window stay as they are. -/
theorem resizeSwapChain_some (w : Window) (world : World) (sc : QRhiSwapChain)
    (hsc : w.m_sc = some sc) :
    ∃ w1 world1, w.resizeSwapChain world = .ok (w1, world1) ∧
      w1.m_hasSwapChain = (world.createOrResizeOutcomes.head?.getD (some w.surfacePixelSize)).isSome ∧
      w1.m_sc ≠ none ∧ w1.m_running = w.m_running ∧ w1.m_notExposed = w.m_notExposed ∧
      w1.m_newlyExposed = w.m_newlyExposed ∧ w1.isExposed = w.isExposed ∧
      w1.surfacePixelSize = w.surfacePixelSize ∧
      world1.log = world.log ++ [.resizeSwapChain, .createOrResize w1.m_hasSwapChain] ∧
      world1.beginFrameOutcomes = world.beginFrameOutcomes ∧
      world1.createOrResizeOutcomes = world.createOrResizeOutcomes.tail ∧
      world1.d = world.d ∧ world1.vertexShaderValid = world.vertexShaderValid ∧
      world1.fragmentShaderValid = world.fragmentShaderValid := by
  unfold Window.resizeSwapChain
  rw [hsc]
  exact ⟨_, _, rfl, rfl, by simp, rfl, rfl, rfl, rfl, rfl, by simp [World.record], rfl, rfl, rfl,
    rfl, rfl⟩

/-- The part of `render` from the first `beginFrame` on, path by path: the calls
made and the fields left as they are. -/
theorem renderBegin_paths (w : Window) (world : World) (sc : QRhiSwapChain)
    (hsc : w.m_sc = some sc) :
    ∃ w1 world1 calls, w.renderBegin world = .ok (w1, world1) ∧
      world1.log = world.log ++ calls ∧
      w1.m_sc ≠ none ∧ w1.m_running = w.m_running ∧ w1.m_notExposed = w.m_notExposed ∧
      w1.m_newlyExposed = w.m_newlyExposed ∧ w1.isExposed = w.isExposed ∧
      w1.surfacePixelSize = w.surfacePixelSize ∧
      (world1.d.ps = none ↔ world.d.ps = none) ∧
      world1.vertexShaderValid = world.vertexShaderValid ∧
      world1.fragmentShaderValid = world.fragmentShaderValid ∧
      BeginFramePath calls := by
  unfold Window.renderBegin
  dsimp only
  by_cases hfirst : (Window.beginFrame world).1 = .FrameOpSwapChainOutOfDate
  · rw [if_pos hfirst]
    obtain ⟨w1, world1, hres, hhas, hsc1, h1, h2, h3, h4, h5, hlog, hbf, hcr, hd, hv, hf⟩ :=
      resizeSwapChain_some w (Window.beginFrame world).2 sc hsc
    rw [hres]
    dsimp only
    obtain ⟨sc1, hsc1'⟩ := Option.ne_none_iff_exists'.mp hsc1
    by_cases hok : w1.m_hasSwapChain = true
    · rw [if_neg (by simp [hok])]
      by_cases hsecond : (Window.beginFrame world1).1 = .FrameOpSuccess
      · refine ⟨(w1.renderFrame sc1 (Window.beginFrame world1).2).1,
          (w1.renderFrame sc1 (Window.beginFrame world1).2).2,
          [.beginFrame .FrameOpSwapChainOutOfDate, .resizeSwapChain,
            .createOrResize true, .beginFrame .FrameOpSuccess]
            ++ Window.frameCalls (Window.beginFrame world1).2.d.initialUpdates.isSome
              sc1.currentPixelSize,
          by simp [Window.renderResult, hsecond, hsc1'], ?_, ?_, ?_, ?_, ?_, ?_, ?_, ?_, ?_, ?_,
          .retrySucceeded _ _⟩
        · simp [Window.renderFrame, Window.beginFrame, hlog, hok]
          simp [Window.beginFrame] at hfirst hsecond
          simp [hfirst, hsecond]
        · simpa [Window.renderFrame] using hsc1
        · simpa [Window.renderFrame] using h1
        · simpa [Window.renderFrame] using h2
        · simpa [Window.renderFrame] using h3
        · simpa [Window.renderFrame] using h4
        · simpa [Window.renderFrame] using h5
        · simp [Window.renderFrame, Window.beginFrame, hd, World.record]
        · simp [Window.renderFrame, Window.beginFrame, hv, World.record]
        · simp [Window.renderFrame, Window.beginFrame, hf, World.record]
      · refine ⟨w1, (Window.beginFrame world1).2.record .requestUpdate,
          [.beginFrame .FrameOpSwapChainOutOfDate, .resizeSwapChain, .createOrResize true,
            .beginFrame (Window.beginFrame world1).1, .requestUpdate],
          by simp [Window.renderResult, hsecond], ?_, hsc1, h1, h2, h3, h4, h5, ?_, ?_, ?_,
          .retryFailed _ hsecond⟩
        · simp [Window.beginFrame, hlog, hok]
          simp [Window.beginFrame] at hfirst
          simp [hfirst]
        · simp [Window.beginFrame, hd, World.record]
        · simp [Window.beginFrame, hv, World.record]
        · simp [Window.beginFrame, hf, World.record]
    · rw [if_pos (by simpa using hok)]
      refine ⟨w1, world1, [.beginFrame .FrameOpSwapChainOutOfDate, .resizeSwapChain,
          .createOrResize false], rfl, ?_, hsc1, h1, h2, h3, h4, h5, ?_, ?_, ?_,
          .resizeFailed⟩
      · simp [Window.beginFrame, hlog, hok]
        simp [Window.beginFrame] at hfirst
        simp [hfirst]
      · simp [Window.beginFrame, hd, World.record]
      · simp [Window.beginFrame, hv, World.record]
      · simp [Window.beginFrame, hf, World.record]
  · rw [if_neg hfirst]
    by_cases hsuccess : (Window.beginFrame world).1 = .FrameOpSuccess
    · refine ⟨(w.renderFrame sc (Window.beginFrame world).2).1,
        (w.renderFrame sc (Window.beginFrame world).2).2,
        [.beginFrame .FrameOpSuccess]
          ++ Window.frameCalls (Window.beginFrame world).2.d.initialUpdates.isSome sc.currentPixelSize,
        by simp [Window.renderResult, hsuccess, hsc], ?_, ?_, rfl, rfl, rfl, rfl, rfl, ?_, ?_,
        ?_, .succeeded _ _⟩
      · simp [Window.renderFrame, Window.beginFrame]
        simp [Window.beginFrame] at hsuccess
        simp [hsuccess]
      · simp [Window.renderFrame, hsc]
      · simp [Window.renderFrame, Window.beginFrame, World.record]
      · simp [Window.renderFrame, Window.beginFrame, World.record]
      · simp [Window.renderFrame, Window.beginFrame, World.record]
    · refine ⟨w, (Window.beginFrame world).2.record .requestUpdate,
        [.beginFrame (Window.beginFrame world).1, .requestUpdate],
        by simp [Window.renderResult, hsuccess], ?_, by simp [hsc], rfl, rfl, rfl, rfl, rfl, ?_, ?_,
        ?_, .failed _ hsuccess hfirst⟩
      · simp [Window.beginFrame]
      · simp [Window.beginFrame, World.record]
      · simp [Window.beginFrame, World.record]
      · simp [Window.beginFrame, World.record]

/-- The member `render`, path by path: the calls made and the fields left as they
are. -/
theorem render_paths (w : Window) (world : World)
    (hsc : w.m_hasSwapChain = true → w.m_sc ≠ none) :
    ∃ w1 world1 calls, w.render world = .ok (w1, world1) ∧
      world1.log = world.log ++ calls ∧
      (w1.m_sc = none ↔ w.m_sc = none) ∧ w1.m_running = w.m_running ∧
      w1.m_notExposed = w.m_notExposed ∧ w1.isExposed = w.isExposed ∧
      w1.surfacePixelSize = w.surfacePixelSize ∧
      (world1.d.ps = none ↔ world.d.ps = none) ∧
      world1.vertexShaderValid = world.vertexShaderValid ∧
      world1.fragmentShaderValid = world.fragmentShaderValid ∧
      (w1.m_hasSwapChain = true → w.m_hasSwapChain = true) ∧
      (((w.m_hasSwapChain = false ∨ w.m_notExposed = true) ∧ calls = [.render] ∧ w1 = w) ∨
       (w.m_hasSwapChain = true ∧ w.m_notExposed = false ∧ ∃ sc, w.m_sc = some sc ∧
         (((sc.currentPixelSize ≠ w.surfacePixelSize ∨ w.m_newlyExposed = true) ∧
            ((calls = [.render, .resizeSwapChain, .createOrResize false] ∧
                w1.m_hasSwapChain = false ∧ w1.m_newlyExposed = w.m_newlyExposed) ∨
             (∃ rest, calls = [.render, .resizeSwapChain, .createOrResize true] ++ rest ∧
                BeginFramePath rest ∧ w1.m_newlyExposed = false))) ∨
          (¬ (sc.currentPixelSize ≠ w.surfacePixelSize ∨ w.m_newlyExposed = true) ∧
            ∃ rest, calls = .render :: rest ∧ BeginFramePath rest ∧
              w1.m_newlyExposed = w.m_newlyExposed)))) := by
  unfold Window.render
  dsimp only
  by_cases hguard : (!w.m_hasSwapChain || w.m_notExposed) = true
  · rw [if_pos hguard]
    refine ⟨w, world.record .render, [.render], rfl, rfl, Iff.rfl, rfl, rfl, rfl, rfl, Iff.rfl,
      rfl, rfl, id, Or.inl ⟨?_, rfl, rfl⟩⟩
    simpa using hguard
  · rw [if_neg hguard]
    have hhas : w.m_hasSwapChain = true := by
      cases h : w.m_hasSwapChain
      · simp [h] at hguard
      · rfl
    have hne : w.m_notExposed = false := by
      cases h : w.m_notExposed
      · rfl
      · simp [h] at hguard
    obtain ⟨sc, hsc0⟩ := Option.ne_none_iff_exists'.mp (hsc hhas)
    rw [hsc0]
    dsimp only
    by_cases hR : sc.currentPixelSize ≠ w.surfacePixelSize ∨ w.m_newlyExposed = true
    · rw [if_pos hR]
      obtain ⟨w1, world1, hres, hhas1, hsc1, h1, h2, h3, h4, h5, hlog, hbf, hcr, hd, hv, hf⟩ :=
        resizeSwapChain_some w (world.record .render) sc hsc0
      rw [hres]
      dsimp only
      by_cases hok : w1.m_hasSwapChain = true
      · rw [if_neg (by simp [hok])]
        obtain ⟨sc1, hsc1'⟩ := Option.ne_none_iff_exists'.mp hsc1
        obtain ⟨w2, world2, calls, hres2, hlog2, g1, g2, g3, g4, g5, g6, g7, g8, g9, hpath⟩ :=
          renderBegin_paths { w1 with m_newlyExposed := false } world1 sc1 hsc1'
        refine ⟨w2, world2, [.render, .resizeSwapChain, .createOrResize true] ++ calls, hres2,
          ?_, ?_, by rw [g2]; exact h1, by rw [g3]; exact h2, by rw [g5]; exact h4,
          by rw [g6]; exact h5, ?_, by rw [g8, hv]; rfl, by rw [g9, hf]; rfl, fun _ => hhas,
          Or.inr ⟨hhas, hne, sc, rfl, Or.inl ⟨hR, Or.inr ⟨calls, rfl, hpath, g4⟩⟩⟩⟩
        · rw [hlog2, hlog, hok]
          simp
        · simp [g1, hsc0]
        · rw [g7, hd]
          rfl
      · rw [if_pos (by simpa using hok)]
        refine ⟨w1, world1, [.render, .resizeSwapChain, .createOrResize false], rfl, ?_, ?_, h1,
          h2, h4, h5, ?_, by rw [hv]; rfl, by rw [hf]; rfl, fun _ => hhas,
          Or.inr ⟨hhas, hne, sc, rfl, Or.inl ⟨hR, Or.inl ⟨rfl, by simpa using hok, h3⟩⟩⟩⟩
        · rw [hlog]
          simp [hok]
        · simp [hsc1, hsc0]
        · rw [hd]
          rfl
    · rw [if_neg hR]
      obtain ⟨w2, world2, calls, hres2, hlog2, g1, g2, g3, g4, g5, g6, g7, g8, g9, hpath⟩ :=
        renderBegin_paths w (world.record .render) sc hsc0
      refine ⟨w2, world2, .render :: calls, hres2, ?_, ?_, g2, g3, g5, g6, ?_, g8, g9,
        fun _ => hhas, Or.inr ⟨hhas, hne, sc, rfl, Or.inr ⟨hR, calls, rfl, hpath, g4⟩⟩⟩
      · rw [hlog2]
        simp
      · simp [g1, hsc0]
      · rw [g7]
        rfl

@[simp] theorem beginFrames_append (l1 l2 : List Call) :
    beginFrames (l1 ++ l2) = beginFrames l1 ++ beginFrames l2 := by
  simp [beginFrames]

/-- A path from the first `beginFrame` on starts with that call. -/
theorem BeginFramePath.head {rest : List Call} (h : BeginFramePath rest) :
    ∃ result tail, rest = .beginFrame result :: tail := by
  cases h with
  | resizeFailed => exact ⟨_, _, rfl⟩
  | retryFailed result h => exact ⟨_, _, rfl⟩
  | retrySucceeded merge size => exact ⟨_, _, rfl⟩
  | failed result h1 h2 => exact ⟨_, _, rfl⟩
  | succeeded merge size => exact ⟨_, _, rfl⟩

/-- The retry of `beginFrame` on the paths from the first `beginFrame` on. -/
theorem BeginFramePath.retry {rest : List Call} (h : BeginFramePath rest) :
    (beginFrames rest).length ≤ 2 ∧
    (∀ first second, beginFrames rest = [first, second] →
      ∃ post, rest = [.beginFrame .FrameOpSwapChainOutOfDate, .resizeSwapChain,
        .createOrResize true, .beginFrame second] ++ post) ∧
    (∀ more, beginFrames rest = .FrameOpSwapChainOutOfDate :: more →
      (∃ second post, rest = [.beginFrame .FrameOpSwapChainOutOfDate, .resizeSwapChain,
        .createOrResize true, .beginFrame second] ++ post) ∨
      rest = [.beginFrame .FrameOpSwapChainOutOfDate, .resizeSwapChain, .createOrResize false]) ∧
    (∀ last, (beginFrames rest).getLast? = some last → last ≠ .FrameOpSuccess →
      .beginPass ∉ rest ∧ (∀ n, .draw n ∉ rest) ∧ .endPass ∉ rest ∧ .endFrame ∉ rest ∧
      rest.count .requestUpdate
        = if rest.getLast? = some (.createOrResize false) then 0 else 1) := by
  cases h with
  | resizeFailed => simp [beginFrames]
  | retryFailed result h => simp [beginFrames, h]
  | retrySucceeded merge size => cases merge <;> simp [beginFrames, Window.frameCalls]
  | failed result h1 h2 =>
    simp only [beginFrames, List.filterMap_cons, List.filterMap_nil]
    refine ⟨by simp, by simp, ?_, by simp⟩
    intro more hm
    simp at hm
    exact absurd hm.1 h2
  | succeeded merge size => cases merge <;> simp [beginFrames, Window.frameCalls]

/-! ## Claims about `render` -/

/-- C16: every execution of `render` (on a window that has its swapchain object when
`m_hasSwapChain` is set) returns, and in the calls it made `endFrame` occurs
exactly once when the last `beginFrame` returned `FrameOpSuccess` and does not
occur otherwise (also when no `beginFrame` was called); every call is in its
place: a `beginPass` comes in a frame begun by a successful `beginFrame` and not
yet ended, the `draw` and the `endPass` come in the pass, the `endFrame` comes
in the frame after the pass; no frame and no pass is left open; and without an
`endFrame` there is no `beginPass`, `draw` or `endPass` at all. -/
theorem C16_frames_are_balanced (w : Window) (world : World)
    (hsc : w.m_hasSwapChain = true → w.m_sc ≠ none) :
    ∃ r : Window × World, w.render world = .ok r ∧
      (callsSince world r.2).count .endFrame
        = (if (beginFrames (callsSince world r.2)).getLast? = some .FrameOpSuccess then 1 else 0) ∧
      frameState (callsSince world r.2) = { inFrame := false, inPass := false, ok := true } ∧
      ((callsSince world r.2).count .endFrame = 0 →
        .beginPass ∉ callsSince world r.2 ∧ .endPass ∉ callsSince world r.2 ∧
        ∀ n, .draw n ∉ callsSince world r.2) := by
  obtain ⟨w1, world1, calls, hres, hlog, -, -, -, -, -, -, -, -, -, hcases⟩ :=
    render_paths w world hsc
  refine ⟨(w1, world1), hres, ?_⟩
  rw [callsSince_of_log world world1 calls hlog]
  rcases hcases with ⟨-, rfl, -⟩ |
    ⟨-, -, sc, -, (⟨-, (⟨rfl, -⟩ | ⟨rest, rfl, hpath, -⟩)⟩ | ⟨-, rest, rfl, hpath, -⟩)⟩
  · simp [beginFrames, frameState, FrameState.step]
  · simp [beginFrames, frameState, FrameState.step]
  · cases hpath with
    | resizeFailed => simp [beginFrames, frameState, FrameState.step]
    | retryFailed result h => simp [beginFrames, frameState, FrameState.step, h]
    | retrySucceeded merge size =>
      cases merge <;> simp [beginFrames, frameState, FrameState.step, Window.frameCalls]
    | failed result h1 h2 => simp [beginFrames, frameState, FrameState.step, h1]
    | succeeded merge size =>
      cases merge <;> simp [beginFrames, frameState, FrameState.step, Window.frameCalls]
  · cases hpath with
    | resizeFailed => simp [beginFrames, frameState, FrameState.step]
    | retryFailed result h => simp [beginFrames, frameState, FrameState.step, h]
    | retrySucceeded merge size =>
      cases merge <;> simp [beginFrames, frameState, FrameState.step, Window.frameCalls]
    | failed result h1 h2 => simp [beginFrames, frameState, FrameState.step, h1]
    | succeeded merge size =>
      cases merge <;> simp [beginFrames, frameState, FrameState.step, Window.frameCalls]

/-- Witness for C16: the exposed first window, with a swapchain of the size of its
surface. -/
theorem C16_frames_are_balanced_witness :
    (exposedWindow.m_hasSwapChain = true → exposedWindow.m_sc ≠ none) ∧
    ∃ r : Window × World, exposedWindow.render {} = .ok r ∧
      (callsSince {} r.2).count .endFrame
        = (if (beginFrames (callsSince {} r.2)).getLast? = some .FrameOpSuccess then 1 else 0) ∧
      frameState (callsSince {} r.2) = { inFrame := false, inPass := false, ok := true } ∧
      ((callsSince {} r.2).count .endFrame = 0 →
        .beginPass ∉ callsSince {} r.2 ∧ .endPass ∉ callsSince {} r.2 ∧
        ∀ n, .draw n ∉ callsSince {} r.2) :=
  ⟨by decide, C16_frames_are_balanced exposedWindow {} (by decide)⟩

/-- C15, amended: every execution of `render` (on a window that has its swapchain
object when `m_hasSwapChain` is set) returns, and calls `beginFrame` at most
twice.  Two calls are made only as an out-of-date result, `resizeSwapChain` with
a successful `createOrResize`, and the second `beginFrame`, one after the
other.  After a first result that is out-of-date, either that retry follows or
the `createOrResize` fails and `render` returns with it.  When the result of the
last `beginFrame` is not `FrameOpSuccess`, no pass is recorded and `endFrame` is
not called; an update is then requested once, except on the return after the
failed `createOrResize`, where none is requested. -/
theorem C15_beginFrame_is_retried_once (w : Window) (world : World)
    (hsc : w.m_hasSwapChain = true → w.m_sc ≠ none) :
    ∃ r : Window × World, w.render world = .ok r ∧
      (beginFrames (callsSince world r.2)).length ≤ 2 ∧
      (∀ first second, beginFrames (callsSince world r.2) = [first, second] →
        ∃ pre post, callsSince world r.2
          = pre ++ [.beginFrame .FrameOpSwapChainOutOfDate, .resizeSwapChain,
              .createOrResize true, .beginFrame second] ++ post ∧ beginFrames pre = []) ∧
      (∀ more, beginFrames (callsSince world r.2) = .FrameOpSwapChainOutOfDate :: more →
        (∃ pre second post, callsSince world r.2
          = pre ++ [.beginFrame .FrameOpSwapChainOutOfDate, .resizeSwapChain,
              .createOrResize true, .beginFrame second] ++ post ∧ beginFrames pre = []) ∨
        ∃ pre, callsSince world r.2
          = pre ++ [.beginFrame .FrameOpSwapChainOutOfDate, .resizeSwapChain,
              .createOrResize false] ∧ beginFrames pre = []) ∧
      (∀ last, (beginFrames (callsSince world r.2)).getLast? = some last →
        last ≠ .FrameOpSuccess →
        .beginPass ∉ callsSince world r.2 ∧ (∀ n, .draw n ∉ callsSince world r.2) ∧
        .endPass ∉ callsSince world r.2 ∧ .endFrame ∉ callsSince world r.2 ∧
        (callsSince world r.2).count .requestUpdate
          = if (callsSince world r.2).getLast? = some (.createOrResize false) then 0 else 1) := by
  obtain ⟨w1, world1, calls, hres, hlog, -, -, -, -, -, -, -, -, -, hcases⟩ :=
    render_paths w world hsc
  refine ⟨(w1, world1), hres, ?_⟩
  rw [callsSince_of_log world world1 calls hlog]
  have key : ∀ (pre rest : List Call), BeginFramePath rest → beginFrames pre = [] →
      .beginPass ∉ pre → (∀ n, .draw n ∉ pre) → .endPass ∉ pre → .endFrame ∉ pre →
      pre.count .requestUpdate = 0 →
      (beginFrames (pre ++ rest)).length ≤ 2 ∧
      (∀ first second, beginFrames (pre ++ rest) = [first, second] →
        ∃ pre1 post, pre ++ rest
          = pre1 ++ [.beginFrame .FrameOpSwapChainOutOfDate, .resizeSwapChain,
              .createOrResize true, .beginFrame second] ++ post ∧ beginFrames pre1 = []) ∧
      (∀ more, beginFrames (pre ++ rest) = .FrameOpSwapChainOutOfDate :: more →
        (∃ pre1 second post, pre ++ rest
          = pre1 ++ [.beginFrame .FrameOpSwapChainOutOfDate, .resizeSwapChain,
              .createOrResize true, .beginFrame second] ++ post ∧ beginFrames pre1 = []) ∨
        ∃ pre1, pre ++ rest
          = pre1 ++ [.beginFrame .FrameOpSwapChainOutOfDate, .resizeSwapChain,
              .createOrResize false] ∧ beginFrames pre1 = []) ∧
      (∀ last, (beginFrames (pre ++ rest)).getLast? = some last →
        last ≠ .FrameOpSuccess →
        .beginPass ∉ pre ++ rest ∧ (∀ n, .draw n ∉ pre ++ rest) ∧
        .endPass ∉ pre ++ rest ∧ .endFrame ∉ pre ++ rest ∧
        (pre ++ rest).count .requestUpdate
          = if (pre ++ rest).getLast? = some (.createOrResize false) then 0 else 1) := by
    intro pre rest hpath hpre hp1 hp2 hp3 hp4 hp5
    obtain ⟨r1, r2, r3, r4⟩ := hpath.retry
    obtain ⟨result, tail, htail⟩ := hpath.head
    have hne : rest ≠ [] := by rw [htail]; simp
    rw [beginFrames_append, hpre, List.nil_append]
    refine ⟨r1, ?_, ?_, ?_⟩
    · intro first second h
      obtain ⟨post, hpost⟩ := r2 first second h
      exact ⟨pre, post, by rw [hpost]; simp, hpre⟩
    · intro more h
      rcases r3 more h with ⟨second, post, hpost⟩ | hfail
      · exact Or.inl ⟨pre, second, post, by rw [hpost]; simp, hpre⟩
      · exact Or.inr ⟨pre, by rw [hfail], hpre⟩
    · intro last h1 h2
      obtain ⟨q1, q2, q3, q4, q5⟩ := r4 last h1 h2
      refine ⟨by simp [hp1, q1], fun n => by simp [hp2 n, q2 n], by simp [hp3, q3],
        by simp [hp4, q4], ?_⟩
      rw [List.count_append, hp5, q5, List.getLast?_append_of_ne_nil _ hne, Nat.zero_add]
  rcases hcases with ⟨-, rfl, -⟩ |
    ⟨-, -, sc, -, (⟨-, (⟨rfl, -⟩ | ⟨rest, rfl, hpath, -⟩)⟩ | ⟨-, rest, rfl, hpath, -⟩)⟩
  · simp [beginFrames]
  · simp [beginFrames]
  · exact key [.render, .resizeSwapChain, .createOrResize true] rest hpath rfl (by simp)
      (by simp) (by simp) (by simp) (by simp)
  · exact key [.render] rest hpath rfl (by simp) (by simp) (by simp) (by simp) (by simp)

/-- Witness for C15: the exposed first window in a world where the first `beginFrame`
is out-of-date and the resize fails. -/
theorem C15_beginFrame_is_retried_once_witness :
    (exposedWindow.m_hasSwapChain = true → exposedWindow.m_sc ≠ none) ∧
    ∃ r : Window × World, exposedWindow.render outOfDateAndResizeFails = .ok r ∧
      (beginFrames (callsSince outOfDateAndResizeFails r.2)).length ≤ 2 :=
  ⟨by decide,
   (C15_beginFrame_is_retried_once exposedWindow outOfDateAndResizeFails (by decide)).imp
     fun _ h => ⟨h.1, h.2.1⟩⟩

/-- Counterexample to C15 as stated: the exposed first window renders in a world
where `beginFrame` reports out-of-date and the resize fails.  `render` returns
after one `beginFrame`, whose result, the final one, is not `FrameOpSuccess`, and
requests no update. -/
theorem C15_no_update_after_failed_resize :
    ∃ r : Window × World, exposedWindow.render outOfDateAndResizeFails = .ok r ∧
      callsSince outOfDateAndResizeFails r.2
        = [.render, .beginFrame .FrameOpSwapChainOutOfDate, .resizeSwapChain,
           .createOrResize false] ∧
      (beginFrames (callsSince outOfDateAndResizeFails r.2)).getLast?
        = some .FrameOpSwapChainOutOfDate ∧
      FrameOpResult.FrameOpSwapChainOutOfDate ≠ .FrameOpSuccess ∧
      Call.requestUpdate ∉ callsSince outOfDateAndResizeFails r.2 :=
  ⟨_, rfl, by decide, by decide, by decide, by decide⟩

/-- C20: past its entry guard (the window has a swapchain and is not marked not
exposed) `render` returns, and the call after the entry is `resizeSwapChain`
exactly when the current pixel size of the swapchain differs from the pixel
size of the surface or `m_newlyExposed` is set; otherwise the call after the
entry is the first `beginFrame`, and `m_newlyExposed` stays as it was.  When
that `resizeSwapChain` succeeds, the first `beginFrame` follows it and
`m_newlyExposed` is false afterwards; when it fails, `render` returns with it,
`m_hasSwapChain` is false and no `beginFrame` is called. -/
theorem C20_render_resizes_when_resized_or_newly_exposed (w : Window) (world : World)
    (sc : QRhiSwapChain) (hhas : w.m_hasSwapChain = true) (hne : w.m_notExposed = false)
    (hsc : w.m_sc = some sc) :
    ∃ r : Window × World, w.render world = .ok r ∧
      ((sc.currentPixelSize ≠ w.surfacePixelSize ∨ w.m_newlyExposed = true) →
        ((∃ result rest, callsSince world r.2
            = [.render, .resizeSwapChain, .createOrResize true, .beginFrame result] ++ rest) ∧
          r.1.m_newlyExposed = false) ∨
        (callsSince world r.2 = [.render, .resizeSwapChain, .createOrResize false] ∧
          beginFrames (callsSince world r.2) = [] ∧ r.1.m_hasSwapChain = false)) ∧
      (¬ (sc.currentPixelSize ≠ w.surfacePixelSize ∨ w.m_newlyExposed = true) →
        (∃ result rest, callsSince world r.2 = [.render, .beginFrame result] ++ rest) ∧
        r.1.m_newlyExposed = w.m_newlyExposed) ∧
      ((callsSince world r.2).get? 1 = some .resizeSwapChain ↔
        (sc.currentPixelSize ≠ w.surfacePixelSize ∨ w.m_newlyExposed = true)) := by
  obtain ⟨w1, world1, calls, hres, hlog, -, -, -, -, -, -, -, -, -, hcases⟩ :=
    render_paths w world (fun _ => by rw [hsc]; simp)
  refine ⟨(w1, world1), hres, ?_⟩
  rw [callsSince_of_log world world1 calls hlog]
  rcases hcases with ⟨hguard, -, -⟩ |
    ⟨-, -, sc1, hsc1, (⟨hR, (⟨rfl, h1, -⟩ | ⟨rest, rfl, hpath, h1⟩)⟩ | ⟨hR, rest, rfl, hpath, h1⟩)⟩
  · rcases hguard with h | h
    · rw [hhas] at h
      exact absurd h (by simp)
    · rw [hne] at h
      exact absurd h (by simp)
  · have hsc' : sc1 = sc := Option.some.inj (hsc1.symm.trans hsc)
    subst hsc'
    exact ⟨fun _ => Or.inr ⟨rfl, rfl, h1⟩, fun h => absurd hR h, by simp [hR]⟩
  · have hsc' : sc1 = sc := Option.some.inj (hsc1.symm.trans hsc)
    subst hsc'
    obtain ⟨result, tail, htail⟩ := hpath.head
    subst htail
    exact ⟨fun _ => Or.inl ⟨⟨result, tail, rfl⟩, h1⟩, fun h => absurd hR h, by simp [hR]⟩
  · have hsc' : sc1 = sc := Option.some.inj (hsc1.symm.trans hsc)
    subst hsc'
    obtain ⟨result, tail, htail⟩ := hpath.head
    subst htail
    refine ⟨fun h => absurd h hR, fun _ => ⟨⟨result, tail, rfl⟩, h1⟩, ?_⟩
    simp only [List.get?_cons_succ, List.get?_cons_zero, hR, iff_false]
    simp

/-- Witness for C20: the exposed first window, newly exposed. -/
theorem C20_render_resizes_when_resized_or_newly_exposed_witness :
    ({ exposedWindow with m_newlyExposed := true } : Window).m_hasSwapChain = true ∧
    ({ exposedWindow with m_newlyExposed := true } : Window).m_notExposed = false ∧
    ∃ r : Window × World,
      ({ exposedWindow with m_newlyExposed := true } : Window).render {} = .ok r ∧
      ((callsSince {} r.2).get? 1 = some .resizeSwapChain ↔
        ((({ width := 800, height := 600 } : QSize)
            ≠ ({ exposedWindow with m_newlyExposed := true } : Window).surfacePixelSize) ∨
          ({ exposedWindow with m_newlyExposed := true } : Window).m_newlyExposed = true)) :=
  ⟨rfl, rfl,
   (C20_render_resizes_when_resized_or_newly_exposed
      { exposedWindow with m_newlyExposed := true } {}
      { currentPixelSize := { width := 800, height := 600 }
        depthStencil := some 1
        renderPassDescriptor := some 2 } rfl rfl rfl).imp
     fun _ h => ⟨h.1, h.2.2.2⟩⟩

/-! ## Facts about expose events -/

theorem exists_ok_of_match {ε α : Type} {x : Except ε α} {P : α → Prop}
    (h : match x with
      | .ok a => P a
      | .error _ => False) : ∃ a, x = .ok a ∧ P a := by
  cases x with
  | error e => exact absurd h id
  | ok a => exact ⟨a, rfl, h⟩

/-- When the shader packs load, `ensureSharedResources` returns, and the pipeline
exists afterwards. -/
theorem ensureSharedResources_ok (rp : Option Nat) (world : World) (hsh : world.ShadersLoad) :
    ∃ world1, ensureSharedResources rp world = .ok world1 ∧
      (world1.log = world.log ++ [.ensureSharedResources] ∧
      world1.d.ps ≠ none ∧
      world1.createOrResizeOutcomes = world.createOrResizeOutcomes ∧
      world1.beginFrameOutcomes = world.beginFrameOutcomes) := by
  apply exists_ok_of_match
  unfold World.ShadersLoad at hsh
  unfold ensureSharedResources
  dsimp only
  split_ifs <;> simp_all [World.record]

/-- When the shader packs load, `init` returns: the window has its swapchain object,
and the calls of `init` are made. -/
theorem init_ok (w : Window) (world : World) (hsh : world.ShadersLoad) :
    ∃ r : Window × World, w.init world = .ok r ∧
      (r.2.log = world.log ++ [.init, .newSwapChain, .newRenderBuffer,
        .newCompatibleRenderPassDescriptor, .ensureSharedResources] ∧
      r.2.d.ps ≠ none ∧
      r.2.createOrResizeOutcomes = world.createOrResizeOutcomes ∧
      r.2.beginFrameOutcomes = world.beginFrameOutcomes ∧
      r.1.m_sc ≠ none ∧ r.1.m_running = w.m_running ∧ r.1.m_notExposed = w.m_notExposed ∧
      r.1.m_newlyExposed = w.m_newlyExposed ∧ r.1.m_hasSwapChain = w.m_hasSwapChain ∧
      r.1.isExposed = w.isExposed ∧ r.1.surfacePixelSize = w.surfacePixelSize) := by
  unfold Window.init
  dsimp only
  obtain ⟨world1, h1, h2, h3, h4, h5⟩ := ensureSharedResources_ok
    (some (((world.record .init).record .newSwapChain).nextResource + 1))
    { ({ ((world.record .init).record .newSwapChain).record .newRenderBuffer with
          nextResource := ((world.record .init).record .newSwapChain).nextResource + 1 } : World).record
        .newCompatibleRenderPassDescriptor with
        nextResource := ((world.record .init).record .newSwapChain).nextResource + 1 + 1 }
    (by simpa [World.ShadersLoad, World.record] using hsh)
  simp only [World.record] at h1 ⊢
  rw [h1]
  refine ⟨_, rfl, ?_⟩
  simp [h2, h3, h4, h5, World.record]

/-- The first statement of `exposeEvent`: the window starts when it is exposed and
not running yet, with the calls of `init` and `resizeSwapChain`, and is left as
it is otherwise. -/
theorem exposeStart_ok (w : Window) (world : World) (hst : w.Started)
    (hsh : world.ShadersLoad) :
    ∃ r : Window × World, w.exposeStart world = .ok r ∧
      (∃ startCalls, r.2.log = world.log ++ startCalls ∧
        ((¬ (w.isExposed = true ∧ w.m_running = false) ∧ startCalls = [] ∧ r = (w, world)) ∨
         (w.isExposed = true ∧ w.m_running = false ∧
           startCalls = [.init, .newSwapChain, .newRenderBuffer,
             .newCompatibleRenderPassDescriptor, .ensureSharedResources, .resizeSwapChain,
             .createOrResize r.1.m_hasSwapChain]))) ∧
      r.1.Started ∧ r.2.ShadersLoad ∧ r.1.m_running = (w.m_running || w.isExposed) ∧
      r.1.m_notExposed = w.m_notExposed ∧ r.1.m_newlyExposed = w.m_newlyExposed ∧
      r.1.isExposed = w.isExposed ∧ r.1.surfacePixelSize = w.surfacePixelSize := by
  unfold Window.exposeStart
  by_cases hc : w.isExposed = true ∧ w.m_running = false
  · rw [if_pos (by simp [hc.1, hc.2])]
    obtain ⟨r1, hr1, hlog1, hps1, -, -, hsc1, g1, g2, g3, g4, g5, g6⟩ :=
      init_ok { w with m_running := true } world hsh
    rw [hr1]
    dsimp only
    obtain ⟨sc1, hsc1'⟩ := Option.ne_none_iff_exists'.mp hsc1
    obtain ⟨w2, world2, hres, hhas, hsc2, h1, h2, h3, h4, h5, hlog, -, -, hd, hv, hf⟩ :=
      resizeSwapChain_some r1.1 r1.2 sc1 hsc1'
    rw [hres]
    refine ⟨(w2, world2), rfl, ⟨_, ?_, Or.inr ⟨hc.1, hc.2, rfl⟩⟩, ⟨fun _ => hsc2, fun _ => ?_⟩,
      Or.inl (by rw [hd]; exact hps1), ?_, by rw [h2, g2], by rw [h3, g3], by rw [h4, g5],
      by rw [h5, g6]⟩
    · rw [hlog, hlog1]
      simp
    · rw [h1, g1]
    · rw [h1, g1]
      simp [hc.1]
  · rw [if_neg (by simpa using hc)]
    refine ⟨(w, world), rfl, ⟨[], by simp, Or.inl ⟨hc, rfl, rfl⟩⟩, hst, hsh, ?_, rfl, rfl, rfl,
      rfl⟩
    cases h1 : w.isExposed <;> cases h2 : w.m_running <;> simp_all

/-- The second statement of `exposeEvent`, for a window that has its swapchain
object when it has a swapchain. -/
theorem exposeStop_ok (w : Window) (hsc : w.m_hasSwapChain = true → w.m_sc ≠ none) :
    w.exposeStop = .ok
      (if ((!w.isExposed || (w.m_hasSwapChain && w.surfacePixelSize.isEmpty)) && w.m_running)
          = true
        then { w with m_notExposed := true } else w) := by
  unfold Window.exposeStop Window.surfaceIsEmpty
  cases h1 : w.isExposed <;> cases h2 : w.m_hasSwapChain <;> cases h3 : w.m_running <;>
    simp
  all_goals
    obtain ⟨sc, hsc'⟩ := Option.ne_none_iff_exists'.mp (hsc h2)
    rw [hsc']

/-- The third statement of `exposeEvent`, for a window that has its swapchain object
when it is running. -/
theorem exposeContinue_ok (w : Window) (hsc : w.m_running = true → w.m_sc ≠ none) :
    w.exposeContinue = .ok
      (if (w.isExposed && w.m_running && w.m_notExposed && !w.surfacePixelSize.isEmpty) = true
        then { w with m_notExposed := false, m_newlyExposed := true } else w) := by
  unfold Window.exposeContinue Window.surfaceIsEmpty
  cases h1 : w.isExposed <;> cases h2 : w.m_running <;> cases h3 : w.m_notExposed <;> simp
  obtain ⟨sc, hsc'⟩ := Option.ne_none_iff_exists'.mp (hsc h2)
  rw [hsc']

/-- The last statement of `exposeEvent`, for a window that has its swapchain object
when it is exposed. -/
theorem exposeRender_eq (w : Window) (world : World) (hsc : w.isExposed = true → w.m_sc ≠ none) :
    w.exposeRender world
      = if (w.isExposed && !w.surfacePixelSize.isEmpty) = true then w.render world
        else .ok (w, world) := by
  unfold Window.exposeRender Window.surfaceIsEmpty
  cases h1 : w.isExposed
  · simp
  · obtain ⟨sc, hsc'⟩ := Option.ne_none_iff_exists'.mp (hsc h1)
    rw [hsc']
    cases w.surfacePixelSize.isEmpty <;> simp

/-- The member `exposeEvent`, statement by statement: the calls of the start, the
window as the last statement finds it, and the call of `render` that statement
makes when the window is exposed and its surface is not empty. -/
theorem exposeEvent_steps (w : Window) (world : World) (hst : w.Started)
    (hsh : world.ShadersLoad) :
    ∃ (w2 : Window) (world1 : World) (startCalls : List Call),
      w.exposeEvent world
        = (if (w.isExposed && !w.surfacePixelSize.isEmpty) = true then w2.render world1
           else .ok (w2, world1)) ∧
      world1.log = world.log ++ startCalls ∧
      ((¬ (w.isExposed = true ∧ w.m_running = false) ∧ startCalls = [] ∧ world1 = world) ∨
       (w.isExposed = true ∧ w.m_running = false ∧
         ∃ ok, startCalls = [.init, .newSwapChain, .newRenderBuffer,
           .newCompatibleRenderPassDescriptor, .ensureSharedResources, .resizeSwapChain,
           .createOrResize ok])) ∧
      w2.Started ∧ world1.ShadersLoad ∧
      w2.isExposed = w.isExposed ∧ w2.surfacePixelSize = w.surfacePixelSize ∧
      w2.m_running = (w.m_running || w.isExposed) ∧
      (w.isExposed = false →
        w2.m_notExposed = (w.m_notExposed || w.m_running) ∧
        w2.m_hasSwapChain = w.m_hasSwapChain ∧ w2.m_newlyExposed = w.m_newlyExposed) ∧
      (w.isExposed = true → w.surfacePixelSize.isEmpty = true →
        w2.m_hasSwapChain = false ∨ w2.m_notExposed = true) ∧
      (w.isExposed = true → w.surfacePixelSize.isEmpty = false →
        w2.m_notExposed = false ∧ (w.m_notExposed = true → w2.m_newlyExposed = true)) := by
  obtain ⟨⟨w1, world1⟩, hstart, ⟨startCalls, hlog, hshape⟩, hst1, hsh1, hrun, hne, hnew, hexp,
    hsurf⟩ := exposeStart_ok w world hst hsh
  dsimp only at hlog hshape hst1 hsh1 hrun hne hnew hexp hsurf
  have hsc1 : w1.m_hasSwapChain = true → w1.m_sc ≠ none := fun h => hst1.1 (hst1.2 h)
  have hstop := exposeStop_ok w1 hsc1
  obtain ⟨ws, hws⟩ : ∃ ws : Window, ws =
      (if ((!w1.isExposed || (w1.m_hasSwapChain && w1.surfacePixelSize.isEmpty)) && w1.m_running)
          = true
        then { w1 with m_notExposed := true } else w1) := ⟨_, rfl⟩
  rw [← hws] at hstop
  have hws_sc : ws.m_sc = w1.m_sc := by rw [hws]; split_ifs <;> rfl
  have hws_run : ws.m_running = w1.m_running := by rw [hws]; split_ifs <;> rfl
  have hws_has : ws.m_hasSwapChain = w1.m_hasSwapChain := by rw [hws]; split_ifs <;> rfl
  have hws_exp : ws.isExposed = w1.isExposed := by rw [hws]; split_ifs <;> rfl
  have hws_surf : ws.surfacePixelSize = w1.surfacePixelSize := by rw [hws]; split_ifs <;> rfl
  have hws_new : ws.m_newlyExposed = w1.m_newlyExposed := by rw [hws]; split_ifs <;> rfl
  have hcont := exposeContinue_ok ws (by rw [hws_sc, hws_run]; exact hst1.1)
  obtain ⟨wc, hwc⟩ : ∃ wc : Window, wc =
      (if (ws.isExposed && ws.m_running && ws.m_notExposed && !ws.surfacePixelSize.isEmpty) = true
        then { ws with m_notExposed := false, m_newlyExposed := true } else ws) := ⟨_, rfl⟩
  rw [← hwc] at hcont
  have hwc_sc : wc.m_sc = w1.m_sc := by rw [hwc, ← hws_sc]; split_ifs <;> rfl
  have hwc_run : wc.m_running = w1.m_running := by rw [hwc, ← hws_run]; split_ifs <;> rfl
  have hwc_has : wc.m_hasSwapChain = w1.m_hasSwapChain := by
    rw [hwc, ← hws_has]; split_ifs <;> rfl
  have hwc_exp : wc.isExposed = w1.isExposed := by rw [hwc, ← hws_exp]; split_ifs <;> rfl
  have hwc_surf : wc.surfacePixelSize = w1.surfacePixelSize := by
    rw [hwc, ← hws_surf]; split_ifs <;> rfl
  have hrun1 : w1.isExposed = true → w1.m_running = true := by
    intro h
    rw [hrun, ← hexp, h]
    simp
  have hrender := exposeRender_eq wc world1
    (by rw [hwc_exp, hwc_sc]; exact fun h => hst1.1 (hrun1 h))
  refine ⟨wc, world1, startCalls, ?_, hlog, ?_, ?_, hsh1, by rw [hwc_exp, hexp],
    by rw [hwc_surf, hsurf], by rw [hwc_run, hrun], ?_, ?_, ?_⟩
  · unfold Window.exposeEvent
    rw [hstart]
    dsimp only
    rw [hstop]
    dsimp only
    rw [hcont]
    dsimp only
    rw [hrender, hwc_exp, hwc_surf, hexp, hsurf]
  · rcases hshape with ⟨h1, h2, h3⟩ | ⟨h1, h2, h3⟩
    · exact Or.inl ⟨h1, h2, congrArg Prod.snd h3⟩
    · exact Or.inr ⟨h1, h2, _, h3⟩
  · exact ⟨by rw [hwc_run, hwc_sc]; exact hst1.1, by rw [hwc_run, hwc_has]; exact hst1.2⟩
  · intro hexp0
    have he1 : w1.isExposed = false := by rw [hexp, hexp0]
    have hr1 : w1.m_running = w.m_running := by rw [hrun, hexp0]; simp
    have hw1 : w1 = w := by
      rcases hshape with ⟨_, _, h3⟩ | ⟨h1, _, _⟩
      · exact congrArg Prod.fst h3
      · rw [hexp0] at h1
        exact absurd h1 (by simp)
    subst hw1
    rw [hwc, hws]
    cases h2 : w1.m_running <;> cases h3 : w1.m_notExposed <;> simp [hexp0, h2, h3]
  · intro hexp1 hempty
    have he1 : w1.isExposed = true := by rw [hexp, hexp1]
    have hs1 : w1.surfacePixelSize.isEmpty = true := by rw [hsurf, hempty]
    have hr1 := hrun1 he1
    rw [hwc, hws]
    cases h2 : w1.m_hasSwapChain <;> cases h3 : w1.m_notExposed <;>
      simp [he1, hs1, hr1, h2, h3]
  · intro hexp1 hempty
    have he1 : w1.isExposed = true := by rw [hexp, hexp1]
    have hs1 : w1.surfacePixelSize.isEmpty = false := by rw [hsurf, hempty]
    have hr1 := hrun1 he1
    rw [hwc, hws, ← hne]
    cases h2 : w1.m_hasSwapChain <;> cases h3 : w1.m_notExposed <;>
      simp [he1, hs1, hr1, h2, h3]

/-- The calls of a path from the first `beginFrame` on contain no entry into `init`
or `render`. -/
theorem BeginFramePath.counts {rest : List Call} (h : BeginFramePath rest) :
    rest.count .init = 0 ∧ rest.count .render = 0 := by
  cases h with
  | resizeFailed => simp
  | retryFailed result h => simp
  | retrySucceeded merge size => cases merge <;> simp [Window.frameCalls]
  | failed result h1 h2 => simp
  | succeeded merge size => cases merge <;> simp [Window.frameCalls]

/-- The member `render` returns; it keeps what the window knows about its exposure,
enters `render` once and does not enter `init`. -/
theorem render_ok (w : Window) (world : World) (hst : w.Started) :
    ∃ r : Window × World, w.render world = .ok r ∧
      r.1.Started ∧ (world.ShadersLoad → r.2.ShadersLoad) ∧
      r.1.m_running = w.m_running ∧ r.1.m_notExposed = w.m_notExposed ∧
      ∃ calls, r.2.log = world.log ++ calls ∧ calls.count .init = 0 ∧
        calls.count .render = 1 := by
  obtain ⟨w1, world1, calls, hres, hlog, hsc, hrun, hne, -, -, hps, hv, hf, hhas, hcases⟩ :=
    render_paths w world (fun h => hst.1 (hst.2 h))
  refine ⟨(w1, world1), hres, ⟨?_, ?_⟩, ?_, hrun, hne, calls, hlog, ?_⟩
  · intro h
    rw [hrun] at h
    exact fun h0 => hst.1 h (hsc.mp h0)
  · intro h
    rw [hrun]
    exact hst.2 (hhas h)
  · intro hsh
    rcases hsh with h | h
    · exact Or.inl fun h0 => h (hps.mp h0)
    · exact Or.inr (by rw [hv, hf]; exact h)
  · rcases hcases with ⟨-, rfl, -⟩ |
      ⟨-, -, sc, -, (⟨-, (⟨rfl, -⟩ | ⟨rest, rfl, hpath, -⟩)⟩ | ⟨-, rest, rfl, hpath, -⟩)⟩
    · simp
    · simp
    · obtain ⟨h1, h2⟩ := hpath.counts
      simp [List.count_append, h1, h2, List.count_cons]
    · obtain ⟨h1, h2⟩ := hpath.counts
      simp [List.count_cons, h1, h2]

/-! ## Claims about expose events -/

/-- C17: an `exposeEvent` in which the window is not exposed, or in which the pixel
size of its surface is empty (whether or not the swapchain exists), returns
without entering `render`, without a `beginFrame` and without requesting an
update, and leaves the window with `m_notExposed` set or without a swapchain;
a `render()` that follows then returns at its entry guard, in any state of the
world: it makes no call at all, so it begins no frame and requests no update.
The window is one that events have left (running with its swapchain object, or
not started yet), and the shader packs load. -/
theorem C17_no_frames_when_not_exposed_or_empty (w : Window) (world world2 : World)
    (hst : w.Started) (hsh : world.ShadersLoad)
    (hcond : w.isExposed = false ∨ w.surfacePixelSize.isEmpty = true) :
    ∃ r : Window × World, w.exposeEvent world = .ok r ∧
      (callsSince world r.2).count .render = 0 ∧
      beginFrames (callsSince world r.2) = [] ∧
      (callsSince world r.2).count .requestUpdate = 0 ∧
      (r.1.m_hasSwapChain = false ∨ r.1.m_notExposed = true) ∧
      r.1.render world2 = .ok (r.1, world2.record .render) ∧
      callsSince world2 (world2.record .render) = [.render] := by
  obtain ⟨w2, world1, startCalls, hev, hlog, hshape, hst2, -, -, -, -, hnot, hempty, -⟩ :=
    exposeEvent_steps w world hst hsh
  have hno : ¬ ((w.isExposed && !w.surfacePixelSize.isEmpty) = true) := by
    rcases hcond with h | h <;> simp [h]
  rw [if_neg hno] at hev
  have hguard : w2.m_hasSwapChain = false ∨ w2.m_notExposed = true := by
    cases hexp : w.isExposed
    · obtain ⟨h1, h2, -⟩ := hnot hexp
      cases hrun : w.m_running
      · left
        rw [h2]
        cases hhas : w.m_hasSwapChain
        · rfl
        · rw [hst.2 hhas] at hrun
          exact absurd hrun (by simp)
      · right
        rw [h1, hrun]
        simp
    · rcases hcond with h | h
      · rw [hexp] at h
        exact absurd h (by simp)
      · exact hempty hexp h
  refine ⟨(w2, world1), hev, ?_, ?_, ?_, hguard, ?_, callsSince_of_log _ _ _ rfl⟩
  · rw [callsSince_of_log world world1 startCalls hlog]
    rcases hshape with ⟨-, rfl, -⟩ | ⟨-, -, ok, rfl⟩ <;> simp
  · rw [callsSince_of_log world world1 startCalls hlog]
    rcases hshape with ⟨-, rfl, -⟩ | ⟨-, -, ok, rfl⟩ <;> simp [beginFrames]
  · rw [callsSince_of_log world world1 startCalls hlog]
    rcases hshape with ⟨-, rfl, -⟩ | ⟨-, -, ok, rfl⟩ <;> simp
  · unfold Window.render
    dsimp only
    rw [if_pos]
    rcases hguard with h | h <;> simp [h]

/-- Witness for C17: the exposed first window receives an expose event in which it
is not exposed any more. -/
theorem C17_no_frames_when_not_exposed_or_empty_witness :
    ({ exposedWindow with isExposed := false } : Window).Started ∧
    ({} : World).ShadersLoad ∧
    ∃ r : Window × World,
      ({ exposedWindow with isExposed := false } : Window).exposeEvent {} = .ok r ∧
      (r.1.m_hasSwapChain = false ∨ r.1.m_notExposed = true) ∧
      r.1.render {} = .ok (r.1, ({} : World).record .render) :=
  ⟨⟨by decide, by decide⟩, Or.inr ⟨rfl, rfl⟩,
   (C17_no_frames_when_not_exposed_or_empty { exposedWindow with isExposed := false } {} {}
      ⟨by decide, by decide⟩ (Or.inr ⟨rfl, rfl⟩) (Or.inl rfl)).imp
     fun _ h => ⟨h.1, h.2.2.2.2.1, h.2.2.2.2.2.1⟩⟩

/-- C18: an `exposeEvent` in which the window is exposed and the pixel size of its
surface is not empty returns (for a window that events have left, when the
shader packs load); it ends with the call of `render` on a window whose
`m_notExposed` is false, and whose `m_newlyExposed` is set if the window had
been marked not exposed before the event; `render` is entered exactly once in
the event, and `m_notExposed` is false after it. -/
theorem C18_frame_rendered_on_expose (w : Window) (world : World)
    (hst : w.Started) (hsh : world.ShadersLoad)
    (hexp : w.isExposed = true) (hsize : w.surfacePixelSize.isEmpty = false) :
    ∃ r : Window × World, w.exposeEvent world = .ok r ∧
      r.1.m_notExposed = false ∧
      (callsSince world r.2).count .render = 1 ∧
      ∃ (w2 : Window) (world1 : World),
        w.exposeEvent world = w2.render world1 ∧
        (callsSince world world1).count .render = 0 ∧
        w2.m_notExposed = false ∧
        (w.m_notExposed = true → w2.m_newlyExposed = true) := by
  obtain ⟨w2, world1, startCalls, hev, hlog, hshape, hst2, -, -, -, -, -, -, hcont⟩ :=
    exposeEvent_steps w world hst hsh
  rw [if_pos (by simp [hexp, hsize])] at hev
  obtain ⟨hne2, hnew2⟩ := hcont hexp hsize
  obtain ⟨r, hr, -, -, -, hne3, calls, hlog3, -, hcount⟩ := render_ok w2 world1 hst2
  have hstart : startCalls.count .render = 0 := by
    rcases hshape with ⟨-, rfl, -⟩ | ⟨-, -, ok, rfl⟩ <;> simp
  refine ⟨r, by rw [hev, hr], by rw [hne3, hne2], ?_, w2, world1, hev, ?_, hne2, hnew2⟩
  · rw [callsSince_of_log world r.2 (startCalls ++ calls) (by rw [hlog3, hlog, List.append_assoc])]
    rw [List.count_append, hstart, hcount]
  · rw [callsSince_of_log world world1 startCalls hlog]
    exact hstart

/-- Witness for C18: the first window of the demo, marked not exposed, is exposed
again with a surface of 800x600 pixels. -/
theorem C18_frame_rendered_on_expose_witness :
    ({ exposedWindow with m_notExposed := true } : Window).Started ∧
    ({} : World).ShadersLoad ∧
    ({ exposedWindow with m_notExposed := true } : Window).isExposed = true ∧
    ({ exposedWindow with m_notExposed := true } : Window).surfacePixelSize.isEmpty = false ∧
    ∃ r : Window × World,
      ({ exposedWindow with m_notExposed := true } : Window).exposeEvent {} = .ok r ∧
      r.1.m_notExposed = false ∧ (callsSince {} r.2).count .render = 1 :=
  ⟨⟨by decide, by decide⟩, Or.inr ⟨rfl, rfl⟩, rfl, by decide,
   (C18_frame_rendered_on_expose { exposedWindow with m_notExposed := true } {}
      ⟨by decide, by decide⟩ (Or.inr ⟨rfl, rfl⟩) rfl (by decide)).imp
     fun _ h => ⟨h.1, h.2.1, h.2.2.1⟩⟩

/-- One event: the handler returns, a running window keeps running, and `init` is
entered only by the expose event that starts the window, where
`resizeSwapChain` follows it at once. -/
theorem event_ok (w : Window) (world : World) (e : Event) (hst : w.Started)
    (hsh : world.ShadersLoad) :
    ∃ r : Window × World, w.event e world = .ok r ∧
      r.1.Started ∧ r.2.ShadersLoad ∧ r.1.m_running = (w.m_running || e.isExposure) ∧
      ∃ calls, r.2.log = world.log ++ calls ∧
        ((w.m_running = false ∧ e.isExposure = true ∧
            ∃ ok post, calls = [.init, .newSwapChain, .newRenderBuffer,
              .newCompatibleRenderPassDescriptor, .ensureSharedResources, .resizeSwapChain,
              .createOrResize ok] ++ post ∧ post.count .init = 0) ∨
         (¬ (w.m_running = false ∧ e.isExposure = true) ∧ calls.count .init = 0)) := by
  cases e with
  | UpdateRequest =>
    obtain ⟨r, hr, h1, h2, h3, -, calls, hlog, hinit, -⟩ := render_ok w world hst
    exact ⟨r, hr, h1, h2 hsh, by simp [h3, Event.isExposure], calls, hlog,
      Or.inr ⟨by simp [Event.isExposure], hinit⟩⟩
  | other =>
    exact ⟨(w, world), rfl, hst, hsh, by simp [Event.isExposure], [], by simp,
      Or.inr ⟨by simp [Event.isExposure], rfl⟩⟩
  | PlatformSurface destroyed =>
    cases destroyed with
    | false =>
      exact ⟨(w, world), rfl, hst, hsh, by simp [Event.isExposure], [], by simp,
        Or.inr ⟨by simp [Event.isExposure], rfl⟩⟩
    | true =>
      simp only [Window.event, if_true]
      unfold Window.releaseSwapChain
      dsimp only
      by_cases hhas : w.m_hasSwapChain = true
      · rw [if_pos hhas]
        obtain ⟨sc, hsc⟩ := Option.ne_none_iff_exists'.mp (hst.1 (hst.2 hhas))
        rw [hsc]
        refine ⟨_, rfl, ⟨fun h => ?_, fun h => ?_⟩, hsh, by simp [Event.isExposure],
          [.releaseSwapChain, .destroy], by simp, Or.inr ⟨by simp [Event.isExposure], by simp⟩⟩
        · simp [hsc]
        · simp at h
      · rw [if_neg hhas]
        exact ⟨_, rfl, hst, hsh, by simp [Event.isExposure], [.releaseSwapChain], by simp,
          Or.inr ⟨by simp [Event.isExposure], by simp⟩⟩
  | Expose isExposed surfacePixelSize =>
    simp only [Window.event]
    obtain ⟨w2, world1, startCalls, hev, hlog, hshape, hst2, hsh2, -, -, hrun, -, -, -⟩ :=
      exposeEvent_steps { w with isExposed := isExposed, surfacePixelSize := surfacePixelSize }
        world hst hsh
    dsimp only at hev hshape hrun
    have hshape' : (w.m_running = false ∧ isExposed = true ∧
          ∃ ok, startCalls = [.init, .newSwapChain, .newRenderBuffer,
            .newCompatibleRenderPassDescriptor, .ensureSharedResources, .resizeSwapChain,
            .createOrResize ok]) ∨
        (¬ (w.m_running = false ∧ isExposed = true) ∧ startCalls = []) := by
      rcases hshape with ⟨h1, h2, -⟩ | ⟨h1, h2, h3⟩
      · exact Or.inr ⟨fun h => h1 ⟨h.2, h.1⟩, h2⟩
      · exact Or.inl ⟨h2, h1, h3⟩
    by_cases hc : (isExposed && !surfacePixelSize.isEmpty) = true
    · rw [if_pos hc] at hev
      obtain ⟨r, hr, h1, h2, h3, -, calls, hlog3, hinit, -⟩ := render_ok w2 world1 hst2
      refine ⟨r, by rw [hev, hr], h1, h2 hsh2, by rw [h3, hrun]; rfl, startCalls ++ calls,
        by rw [hlog3, hlog, List.append_assoc], ?_⟩
      rcases hshape' with ⟨g1, g2, ok, g3⟩ | ⟨g1, g2⟩
      · exact Or.inl ⟨g1, g2, ok, calls, by rw [g3], hinit⟩
      · exact Or.inr ⟨g1, by rw [g2]; simpa using hinit⟩
    · rw [if_neg hc] at hev
      refine ⟨(w2, world1), hev, hst2, hsh2, by rw [hrun]; rfl, startCalls, hlog, ?_⟩
      rcases hshape' with ⟨g1, g2, ok, g3⟩ | ⟨g1, g2⟩
      · exact Or.inl ⟨g1, g2, ok, [], by rw [g3]; simp, rfl⟩
      · exact Or.inr ⟨g1, by rw [g2]; rfl⟩

/-- A sequence of events is delivered part by part. -/
theorem events_append (before after : List Event) :
    ∀ (w : Window) (world : World),
      w.events world (before ++ after)
        = match w.events world before with
          | .error fault => .error fault
          | .ok r => r.1.events r.2 after := by
  induction before with
  | nil => intro w world; rfl
  | cons e rest ih =>
    intro w world
    simp only [List.cons_append, Window.events]
    cases w.event e world with
    | error fault => rfl
    | ok next => exact ih next.1 next.2

/-- A sequence of events: every handler returns, and `init` is entered once if the
window was not running and one of the events is an expose event for an exposed
window, and is not entered otherwise. -/
theorem events_ok (events : List Event) :
    ∀ (w : Window) (world : World), w.Started → world.ShadersLoad →
      ∃ r : Window × World, w.events world events = .ok r ∧
        r.1.Started ∧ r.2.ShadersLoad ∧
        r.1.m_running = (w.m_running || events.any Event.isExposure) ∧
        ∃ calls, r.2.log = world.log ++ calls ∧
          calls.count .init
            = if w.m_running = false ∧ events.any Event.isExposure = true then 1 else 0 := by
  induction events with
  | nil =>
    intro w world hst hsh
    exact ⟨(w, world), rfl, hst, hsh, by simp, [], by simp, by simp⟩
  | cons e rest ih =>
    intro w world hst hsh
    obtain ⟨r1, hr1, hst1, hsh1, hrun1, calls1, hlog1, hshape⟩ := event_ok w world e hst hsh
    obtain ⟨r, hr, hst2, hsh2, hrun2, calls2, hlog2, hcount2⟩ := ih r1.1 r1.2 hst1 hsh1
    refine ⟨r, by simp only [Window.events, hr1, hr], hst2, hsh2, ?_, calls1 ++ calls2,
      by rw [hlog2, hlog1, List.append_assoc], ?_⟩
    · rw [hrun2, hrun1, List.any_cons, Bool.or_assoc]
    · rw [List.count_append, hcount2, hrun1, List.any_cons]
      rcases hshape with ⟨g1, g2, ok, post, g3, g4⟩ | ⟨g1, g2⟩
      · rw [g3, List.count_append, g4, g1, g2]
        simp
      · rw [g2]
        cases h1 : w.m_running <;> cases h2 : e.isExposure <;>
          cases h3 : rest.any Event.isExposure <;> simp_all

/-- C19: for a window that is not running yet (and when the shader packs load), every
sequence of events is handled to its end.  `init` is entered exactly once if the
sequence holds an expose event for an exposed window, and never otherwise, and
`m_running` is set at the end in just that case.  The events before the first
such expose event leave `m_running` false and do not enter `init`; that expose
event makes the calls of `init` (creation of the swapchain, of the
depth-stencil buffer and of the render pass descriptor, then
`ensureSharedResources`), with `resizeSwapChain` and its `createOrResize` right
after them, and sets `m_running`; the events after it do not enter `init`.  No
event of a running window clears `m_running`. -/
theorem C19_init_runs_once_at_first_exposure (w : Window) (world : World) (events : List Event)
    (hst : w.Started) (hsh : world.ShadersLoad) (hfresh : w.m_running = false) :
    ∃ r : Window × World, w.events world events = .ok r ∧
      (callsSince world r.2).count .init = (if events.any Event.isExposure = true then 1 else 0) ∧
      r.1.m_running = events.any Event.isExposure ∧
      (∀ (before : List Event) (size : QSize) (after : List Event),
        events = before ++ .Expose true size :: after → before.any Event.isExposure = false →
        ∃ (r1 r2 : Window × World) (ok : Bool) (post : List Call),
          w.events world before = .ok r1 ∧ r1.1.m_running = false ∧
          (callsSince world r1.2).count .init = 0 ∧
          r1.1.event (.Expose true size) r1.2 = .ok r2 ∧ r2.1.m_running = true ∧
          callsSince r1.2 r2.2
            = [.init, .newSwapChain, .newRenderBuffer, .newCompatibleRenderPassDescriptor,
               .ensureSharedResources, .resizeSwapChain, .createOrResize ok] ++ post ∧
          post.count .init = 0 ∧
          r2.1.events r2.2 after = .ok r ∧ (callsSince r2.2 r.2).count .init = 0) ∧
      (∀ (w1 : Window) (world1 : World) (e : Event), w1.Started → world1.ShadersLoad →
        w1.m_running = true → ∃ r1, w1.event e world1 = .ok r1 ∧ r1.1.m_running = true) := by
  obtain ⟨r, hr, -, -, hrun, calls, hlog, hcount⟩ := events_ok events w world hst hsh
  refine ⟨r, hr, ?_, by rw [hrun, hfresh]; simp, ?_, ?_⟩
  · rw [callsSince_of_log world r.2 calls hlog, hcount]
    simp [hfresh]
  · intro before size after hsplit hbefore
    obtain ⟨r1, hr1, hst1, hsh1, hrun1, calls1, hlog1, hcount1⟩ :=
      events_ok before w world hst hsh
    have hrun1' : r1.1.m_running = false := by rw [hrun1, hfresh, hbefore]; rfl
    obtain ⟨r2, hr2, hst2, hsh2, hrun2, calls2, hlog2, hshape⟩ :=
      event_ok r1.1 r1.2 (.Expose true size) hst1 hsh1
    obtain ⟨r3, hr3, -, -, hrun3, calls3, hlog3, hcount3⟩ := events_ok after r2.1 r2.2 hst2 hsh2
    have hrun2' : r2.1.m_running = true := by rw [hrun2]; simp [Event.isExposure]
    have hr' : r3 = r := by
      have h := events_append before (.Expose true size :: after) w world
      rw [← hsplit, hr, hr1] at h
      simp only [Window.events, hr2, hr3] at h
      exact (Except.ok.inj h).symm
    subst hr'
    rcases hshape with ⟨-, -, ok, post, g3, g4⟩ | ⟨g1, -⟩
    · refine ⟨r1, r2, ok, post, hr1, hrun1', ?_, hr2, hrun2', ?_, g4, hr3, ?_⟩
      · rw [callsSince_of_log world r1.2 calls1 hlog1, hcount1, hbefore]
        simp
      · rw [callsSince_of_log r1.2 r2.2 calls2 hlog2, g3]
      · rw [callsSince_of_log r2.2 r3.2 calls3 hlog3, hcount3, hrun2']
        simp
    · exact absurd ⟨hrun1', rfl⟩ g1
  · intro w1 world1 e hst1 hsh1 hrun1
    obtain ⟨r1, hr1, -, -, hrun, -⟩ := event_ok w1 world1 e hst1 hsh1
    exact ⟨r1, hr1, by rw [hrun, hrun1]; rfl⟩

/-- Witness for C19: the first window of the demo receives an expose event in which
it is not exposed, one in which it is exposed at 800x600, and an update
request. -/
theorem C19_init_runs_once_at_first_exposure_witness :
    firstWindow.Started ∧ ({} : World).ShadersLoad ∧ firstWindow.m_running = false ∧
    ∃ r : Window × World,
      firstWindow.events {}
        [.Expose false { width := 800, height := 600 },
         .Expose true { width := 800, height := 600 }, .UpdateRequest] = .ok r ∧
      (callsSince {} r.2).count .init = 1 ∧ r.1.m_running = true :=
  ⟨⟨by decide, by decide⟩, Or.inr ⟨rfl, rfl⟩, rfl,
   (C19_init_runs_once_at_first_exposure firstWindow {}
      [.Expose false { width := 800, height := 600 },
       .Expose true { width := 800, height := 600 }, .UpdateRequest]
      ⟨by decide, by decide⟩ (Or.inr ⟨rfl, rfl⟩) rfl).imp
     fun _ h => ⟨h.1, h.2.1, h.2.2.1⟩⟩

/-! ## The first frames of the demo, replayed on the model -/

/-- The first expose event of the first window, exposed at 800x600: the window
starts (`init`, then `resizeSwapChain`) and renders one frame, with the merge of
the initial updates. -/
theorem firstExpose_replay :
    (firstWindow.events {} [.Expose true { width := 800, height := 600 }]).map
        (fun r => (r.2.log, r.1.m_running, r.1.m_hasSwapChain, r.1.m_notExposed))
      = .ok ([.init, .newSwapChain, .newRenderBuffer, .newCompatibleRenderPassDescriptor,
          .ensureSharedResources, .resizeSwapChain, .createOrResize true, .render,
          .beginFrame .FrameOpSuccess, .nextResourceUpdateBatch, .merge,
          .updateDynamicBuffer 0 64, .updateDynamicBuffer 64 4, .beginPass,
          .setGraphicsPipeline, .setViewport { width := 800, height := 600 },
          .setShaderResources, .setVertexInput, .draw 3, .endPass, .endFrame, .requestUpdate],
        true, true, false) := by
  rfl

/-- An expose event with an empty surface, an update request, and an expose event
at 800x600: the window starts but renders no frame until the surface has a
size; the update request returns at the guard of `render`; the last event
resizes the swapchain of the newly exposed window and renders a frame. -/
theorem emptySurface_replay :
    (firstWindow.events {}
        [.Expose true { width := 0, height := 0 }, .UpdateRequest,
         .Expose true { width := 800, height := 600 }]).map
        (fun r => (r.2.log, r.1.m_notExposed, r.1.m_newlyExposed))
      = .ok ([.init, .newSwapChain, .newRenderBuffer, .newCompatibleRenderPassDescriptor,
          .ensureSharedResources, .resizeSwapChain, .createOrResize true, .render, .render,
          .resizeSwapChain, .createOrResize true,
          .beginFrame .FrameOpSuccess, .nextResourceUpdateBatch, .merge,
          .updateDynamicBuffer 0 64, .updateDynamicBuffer 64 4, .beginPass,
          .setGraphicsPipeline, .setViewport { width := 800, height := 600 },
          .setShaderResources, .setVertexInput, .draw 3, .endPass, .endFrame, .requestUpdate],
        false, false) := by
  rfl

/-! ## Claims about the shared resources -/

/-- What `ensureSharedResources` does to the global `d` when it returns: a pointer
that is not null is left as it is, and all four pointers are non-null
afterwards; the pipeline gets the render pass descriptor passed if it is
created, and keeps its own otherwise. -/
theorem ensureSharedResources_d (rp : Option Nat) (world world1 : World)
    (h : ensureSharedResources rp world = .ok world1) :
    (world.d.vbuf ≠ none → world1.d.vbuf = world.d.vbuf) ∧
    (world.d.ubuf ≠ none → world1.d.ubuf = world.d.ubuf) ∧
    (world.d.srb ≠ none → world1.d.srb = world.d.srb) ∧
    (world.d.ps ≠ none → world1.d.ps = world.d.ps ∧
      world1.d.psRenderPassDescriptor = world.d.psRenderPassDescriptor) ∧
    (world.d.ps = none → world1.d.psRenderPassDescriptor = rp) ∧
    world1.d.vbuf ≠ none ∧ world1.d.ubuf ≠ none ∧ world1.d.srb ≠ none ∧ world1.d.ps ≠ none := by
  unfold ensureSharedResources at h
  simp only [World.record] at h
  split_ifs at h
  all_goals first
    | exact Except.noConfusion h
    | (cases Except.ok.inj h
       simp_all)

/-- When all four shared resources exist, `ensureSharedResources` creates nothing. -/
theorem ensureSharedResources_again (rp : Option Nat) (world : World)
    (h1 : world.d.vbuf ≠ none) (h2 : world.d.ubuf ≠ none) (h3 : world.d.srb ≠ none)
    (h4 : world.d.ps ≠ none) :
    ensureSharedResources rp world = .ok (world.record .ensureSharedResources) := by
  unfold ensureSharedResources
  simp [World.record, h1, h2, h3, h4]

/-- C22: when the shader packs load (or the pipeline exists), `ensureSharedResources`
returns; each of the vertex buffer, the uniform buffer, the shader resource
bindings and the graphics pipeline that was not null is left as it is, and all
four are non-null afterwards; a pipeline created by the call has the render
pass descriptor passed to it.  Once all four exist, every call, with any
render pass descriptor, returns with `d` as it was and without naming a new
resource, and so does the `init` of any window: the pipeline keeps the render
pass descriptor it was created with.  `destroySharedResources` resets the four
pointers to null (and leaves `d.initialUpdates` as it was). -/
theorem C22_shared_resources_are_created_once (rp : Option Nat) (world : World)
    (hsh : world.ShadersLoad) :
    (∃ world1, ensureSharedResources rp world = .ok world1 ∧
      (world.d.vbuf ≠ none → world1.d.vbuf = world.d.vbuf) ∧
      (world.d.ubuf ≠ none → world1.d.ubuf = world.d.ubuf) ∧
      (world.d.srb ≠ none → world1.d.srb = world.d.srb) ∧
      (world.d.ps ≠ none → world1.d.ps = world.d.ps ∧
        world1.d.psRenderPassDescriptor = world.d.psRenderPassDescriptor) ∧
      (world.d.ps = none → world1.d.psRenderPassDescriptor = rp) ∧
      world1.d.vbuf ≠ none ∧ world1.d.ubuf ≠ none ∧ world1.d.srb ≠ none ∧
      world1.d.ps ≠ none) ∧
    (∀ (world2 : World) (rp2 : Option Nat),
      world2.d.vbuf ≠ none → world2.d.ubuf ≠ none → world2.d.srb ≠ none → world2.d.ps ≠ none →
      (∃ world3, ensureSharedResources rp2 world2 = .ok world3 ∧ world3.d = world2.d ∧
        world3.nextResource = world2.nextResource ∧
        callsSince world2 world3 = [.ensureSharedResources]) ∧
      ∀ w : Window, ∃ r : Window × World, w.init world2 = .ok r ∧ r.2.d = world2.d) ∧
    ((destroySharedResources world).d.vbuf = none ∧ (destroySharedResources world).d.ubuf = none ∧
      (destroySharedResources world).d.srb = none ∧ (destroySharedResources world).d.ps = none ∧
      (destroySharedResources world).d.initialUpdates = world.d.initialUpdates) := by
  refine ⟨?_, ?_, ⟨rfl, rfl, rfl, rfl, rfl⟩⟩
  · obtain ⟨world1, h1, -⟩ := ensureSharedResources_ok rp world hsh
    exact ⟨world1, h1, ensureSharedResources_d rp world world1 h1⟩
  · intro world2 rp2 h1 h2 h3 h4
    refine ⟨⟨_, ensureSharedResources_again rp2 world2 h1 h2 h3 h4, rfl, rfl,
      callsSince_of_log _ _ _ rfl⟩, fun w => ?_⟩
    unfold Window.init
    dsimp only
    rw [ensureSharedResources_again _ _ (by simpa [World.record] using h1)
      (by simpa [World.record] using h2) (by simpa [World.record] using h3)
      (by simpa [World.record] using h4)]
    exact ⟨_, rfl, rfl⟩

/-- Witness for C22: the first call, in a world without shared resources, for the
render pass descriptor 2. -/
theorem C22_shared_resources_are_created_once_witness :
    ({} : World).ShadersLoad ∧
    ∃ world1, ensureSharedResources (some 2) {} = .ok world1 ∧
      world1.d.vbuf ≠ none ∧ world1.d.ubuf ≠ none ∧ world1.d.srb ≠ none ∧ world1.d.ps ≠ none ∧
      world1.d.psRenderPassDescriptor = some 2 :=
  ⟨Or.inr ⟨rfl, rfl⟩,
   (C22_shared_resources_are_created_once (some 2) {} (Or.inr ⟨rfl, rfl⟩)).1.imp
     fun _ h => ⟨h.1, h.2.2.2.2.2.2.1, h.2.2.2.2.2.2.2.1, h.2.2.2.2.2.2.2.2.1,
       h.2.2.2.2.2.2.2.2.2, h.2.2.2.2.2.1 rfl⟩⟩

/-! ## Claims about the teardown of the swapchain -/

/-- The member `event` is its `switch` statement followed by the call of
`QWindow::event`. -/
theorem event_eq_switch_then_base (w : Window) (e : Event) (world : World) :
    w.event e world
      = match w.eventSwitch e world with
        | .error fault => .error fault
        | .ok r => r.1.baseEvent e r.2 := by
  cases e with
  | UpdateRequest =>
    simp only [Window.event, Window.eventSwitch]
    cases w.render world <;> rfl
  | PlatformSurface destroyed =>
    simp only [Window.event, Window.eventSwitch]
    cases destroyed
    · rfl
    · simp only [if_true]
      cases w.releaseSwapChain world <;> rfl
  | Expose isExposed surfacePixelSize => rfl
  | other => rfl

/-- The member `releaseSwapChain` on a window that has its swapchain object when
`m_hasSwapChain` is set: it clears `m_hasSwapChain`, and calls `destroy` once if
it was set and not at all otherwise. -/
theorem releaseSwapChain_ok (w : Window) (world : World)
    (hsc : w.m_hasSwapChain = true → w.m_sc ≠ none) :
    ∃ r : Window × World, w.releaseSwapChain world = .ok r ∧
      r.1 = { w with m_hasSwapChain := false } ∧
      r.2.log = world.log
        ++ (if w.m_hasSwapChain = true then [.releaseSwapChain, .destroy]
            else [.releaseSwapChain]) ∧
      r.2 = { world with log := r.2.log } := by
  unfold Window.releaseSwapChain
  dsimp only
  by_cases hhas : w.m_hasSwapChain = true
  · obtain ⟨sc, hsc'⟩ := Option.ne_none_iff_exists'.mp (hsc hhas)
    rw [if_pos hhas, hsc', if_pos hhas]
    exact ⟨_, rfl, rfl, by simp [World.record], rfl⟩
  · rw [if_neg hhas, if_neg hhas]
    refine ⟨_, rfl, ?_, by simp [World.record], rfl⟩
    have h : w.m_hasSwapChain = false := by simpa using hhas
    cases w
    simp_all

/-- C21, amended: for a window that has its swapchain object when `m_hasSwapChain` is
set, a platform surface event for a surface about to be destroyed is handled
to its end; `m_hasSwapChain` is false afterwards, nothing else of the window has
changed, and `destroy` was called exactly once if `m_hasSwapChain` was set
before and not at all otherwise.  `releaseSwapChain` is idempotent: a second
call leaves the window as the first left it and calls no `destroy`.  In
the `switch` of `event` an update request only runs `render`, and every event
other than these two does nothing; after the `switch`, an expose event is
handled by `exposeEvent`, and a platform surface event of another kind and any
other event leave the window and the world as they are. -/
theorem C21_swapchain_is_torn_down_with_the_surface (w : Window) (world : World)
    (hsc : w.m_hasSwapChain = true → w.m_sc ≠ none) :
    (∃ r : Window × World, w.event (.PlatformSurface true) world = .ok r ∧
      r.1.m_hasSwapChain = false ∧ r.1 = { w with m_hasSwapChain := false } ∧
      (callsSince world r.2).count .destroy = (if w.m_hasSwapChain = true then 1 else 0) ∧
      ∃ r2 : Window × World, r.1.releaseSwapChain r.2 = .ok r2 ∧ r2.1 = r.1 ∧
        (callsSince r.2 r2.2).count .destroy = 0) ∧
    w.eventSwitch .UpdateRequest world = w.render world ∧
    w.event .UpdateRequest world = w.render world ∧
    (∀ e : Event, e ≠ .UpdateRequest → e ≠ .PlatformSurface true →
      w.eventSwitch e world = .ok (w, world)) ∧
    (∀ (isExposed : Bool) (surfacePixelSize : QSize),
      w.event (.Expose isExposed surfacePixelSize) world
        = ({ w with isExposed := isExposed, surfacePixelSize := surfacePixelSize } :
            Window).exposeEvent world) ∧
    w.event (.PlatformSurface false) world = .ok (w, world) ∧
    w.event .other world = .ok (w, world) := by
  refine ⟨?_, rfl, rfl, ?_, fun _ _ => rfl, rfl, rfl⟩
  · obtain ⟨r, hr, hw, hlog, -⟩ := releaseSwapChain_ok w world hsc
    obtain ⟨r2, hr2, hw2, hlog2, -⟩ := releaseSwapChain_ok r.1 r.2
      (fun h => by rw [hw] at h; exact absurd h (by simp))
    refine ⟨r, by simpa [Window.event] using hr, by rw [hw], hw, ?_, r2, hr2, ?_, ?_⟩
    · rw [callsSince_of_log world r.2 _ hlog]
      split_ifs <;> simp
    · rw [hw2, hw]
    · have hno : ¬ (r.1.m_hasSwapChain = true) := by rw [hw]; simp
      rw [callsSince_of_log r.2 r2.2 _ hlog2, if_neg hno]
      simp
  · intro e h1 h2
    cases e with
    | UpdateRequest => exact absurd rfl h1
    | PlatformSurface destroyed =>
      cases destroyed
      · rfl
      · exact absurd rfl h2
    | Expose isExposed surfacePixelSize => rfl
    | other => rfl

/-- Witness for C21: the exposed first window, which has a swapchain. -/
theorem C21_swapchain_is_torn_down_with_the_surface_witness :
    (exposedWindow.m_hasSwapChain = true → exposedWindow.m_sc ≠ none) ∧
    ∃ r : Window × World, exposedWindow.event (.PlatformSurface true) {} = .ok r ∧
      r.1.m_hasSwapChain = false ∧ (callsSince {} r.2).count .destroy = 1 :=
  ⟨by decide,
   (C21_swapchain_is_torn_down_with_the_surface exposedWindow {} (by decide)).1.imp
     fun _ h => ⟨h.1, h.2.1, h.2.2.2.1⟩⟩

/-- Counterexample to C21 as stated: the first window of the demo, which has no
swapchain, receives its first expose event, for an exposed window of 800x600
pixels.  The event is neither an update request nor a platform surface event,
and `m_hasSwapChain` is set after it. -/
theorem C21_expose_event_sets_hasSwapChain :
    ∃ r : Window × World,
      firstWindow.event (.Expose true { width := 800, height := 600 }) {} = .ok r ∧
      firstWindow.m_hasSwapChain = false ∧ r.1.m_hasSwapChain = true ∧
      Event.Expose true { width := 800, height := 600 } ≠ .UpdateRequest ∧
      (∀ destroyed, Event.Expose true { width := 800, height := 600 }
        ≠ .PlatformSurface destroyed) :=
  ⟨_, rfl, rfl, rfl, by decide, fun _ => by simp⟩

/-! ## Claims about the swapchain pointer -/

/-- When the shader packs do not load and there is no pipeline,
`ensureSharedResources` ends the program. -/
theorem ensureSharedResources_fatal (rp : Option Nat) (world : World)
    (hsh : ¬ world.ShadersLoad) :
    ∃ message, ensureSharedResources rp world = .error (.qFatal message) := by
  unfold World.ShadersLoad at hsh
  have hps : world.d.ps = none := by
    by_contra h
    exact hsh (Or.inl h)
  have hv : ¬ (world.vertexShaderValid = true ∧ world.fragmentShaderValid = true) :=
    fun h => hsh (Or.inr h)
  unfold ensureSharedResources
  simp only [World.record]
  split_ifs <;> first
    | exact ⟨_, rfl⟩
    | simp_all

/-- When the shader packs do not load and there is no pipeline, `init` ends the
program. -/
theorem init_fatal (w : Window) (world : World) (hsh : ¬ world.ShadersLoad) :
    ∃ message, w.init world = .error (.qFatal message) := by
  unfold Window.init
  dsimp only
  obtain ⟨message, h⟩ := ensureSharedResources_fatal
    (some (((world.record .init).record .newSwapChain).nextResource + 1))
    { ({ ((world.record .init).record .newSwapChain).record .newRenderBuffer with
          nextResource := ((world.record .init).record .newSwapChain).nextResource + 1 } : World).record
        .newCompatibleRenderPassDescriptor with
        nextResource := ((world.record .init).record .newSwapChain).nextResource + 1 + 1 }
    (by simpa [World.ShadersLoad, World.record] using hsh)
  simp only [World.record] at h ⊢
  rw [h]
  exact ⟨message, rfl⟩

/-- The statements of `exposeEvent` after the first one: when the first statement
has returned a window that runs if it is exposed, the rest returns. -/
theorem exposeEvent_after_start (w : Window) (world : World) (w1 : Window) (world1 : World)
    (hstart : w.exposeStart world = .ok (w1, world1)) (hst1 : w1.Started)
    (hrun1 : w1.isExposed = true → w1.m_running = true) :
    ∃ r : Window × World, w.exposeEvent world = .ok r ∧ r.1.Started := by
  have hsc1 : w1.m_hasSwapChain = true → w1.m_sc ≠ none := fun h => hst1.1 (hst1.2 h)
  have hstop := exposeStop_ok w1 hsc1
  obtain ⟨ws, hws⟩ : ∃ ws : Window, ws =
      (if ((!w1.isExposed || (w1.m_hasSwapChain && w1.surfacePixelSize.isEmpty)) && w1.m_running)
          = true
        then { w1 with m_notExposed := true } else w1) := ⟨_, rfl⟩
  rw [← hws] at hstop
  have hws_sc : ws.m_sc = w1.m_sc := by rw [hws]; split_ifs <;> rfl
  have hws_run : ws.m_running = w1.m_running := by rw [hws]; split_ifs <;> rfl
  have hws_has : ws.m_hasSwapChain = w1.m_hasSwapChain := by rw [hws]; split_ifs <;> rfl
  have hws_exp : ws.isExposed = w1.isExposed := by rw [hws]; split_ifs <;> rfl
  have hcont := exposeContinue_ok ws (by rw [hws_sc, hws_run]; exact hst1.1)
  obtain ⟨wc, hwc⟩ : ∃ wc : Window, wc =
      (if (ws.isExposed && ws.m_running && ws.m_notExposed && !ws.surfacePixelSize.isEmpty) = true
        then { ws with m_notExposed := false, m_newlyExposed := true } else ws) := ⟨_, rfl⟩
  rw [← hwc] at hcont
  have hwc_sc : wc.m_sc = w1.m_sc := by rw [hwc, ← hws_sc]; split_ifs <;> rfl
  have hwc_run : wc.m_running = w1.m_running := by rw [hwc, ← hws_run]; split_ifs <;> rfl
  have hwc_has : wc.m_hasSwapChain = w1.m_hasSwapChain := by
    rw [hwc, ← hws_has]; split_ifs <;> rfl
  have hwc_exp : wc.isExposed = w1.isExposed := by rw [hwc, ← hws_exp]; split_ifs <;> rfl
  have hstc : wc.Started :=
    ⟨by rw [hwc_run, hwc_sc]; exact hst1.1, by rw [hwc_run, hwc_has]; exact hst1.2⟩
  have hrender := exposeRender_eq wc world1
    (by rw [hwc_exp, hwc_sc]; exact fun h => hst1.1 (hrun1 h))
  have hev : w.exposeEvent world
      = if (wc.isExposed && !wc.surfacePixelSize.isEmpty) = true then wc.render world1
        else .ok (wc, world1) := by
    unfold Window.exposeEvent
    rw [hstart]
    dsimp only
    rw [hstop]
    dsimp only
    rw [hcont]
    dsimp only
    rw [hrender]
  rw [hev]
  split_ifs
  · obtain ⟨r, hr, hstr, -⟩ := render_ok wc world1 hstc
    exact ⟨r, hr, hstr⟩
  · exact ⟨(wc, world1), rfl, hstc⟩

/-- The member `exposeEvent` on a window in a consistent state returns, or ends the
program in `init` because a shader pack does not load; it does not use a null
swapchain pointer. -/
theorem exposeEvent_returns_or_fatal (w : Window) (world : World) (hst : w.Started) :
    (∃ r : Window × World, w.exposeEvent world = .ok r ∧ r.1.Started) ∨
    (¬ world.ShadersLoad ∧ ∃ message, w.exposeEvent world = .error (.qFatal message)) := by
  by_cases hc : w.isExposed = true ∧ w.m_running = false
  · by_cases hsh : world.ShadersLoad
    · obtain ⟨⟨w1, world1⟩, hstart, -, hst1, -, hrun, -, -, hexp, -⟩ :=
        exposeStart_ok w world hst hsh
      dsimp only at hst1 hrun hexp
      refine Or.inl (exposeEvent_after_start w world w1 world1 hstart hst1 fun _ => ?_)
      rw [hrun, hc.1]
      simp
    · obtain ⟨message, hinit⟩ := init_fatal { w with m_running := true } world hsh
      refine Or.inr ⟨hsh, message, ?_⟩
      unfold Window.exposeEvent Window.exposeStart
      rw [if_pos (by simp [hc.1, hc.2]), hinit]
  · refine Or.inl (exposeEvent_after_start w world w world ?_ hst fun h => ?_)
    · unfold Window.exposeStart
      rw [if_neg (by simpa using hc)]
    · cases hrun : w.m_running
      · exact absurd ⟨h, hrun⟩ hc
      · rfl

/-- One event on a window in a consistent state: the handler returns and leaves the
window in a consistent state, or ends the program in `init` because a shader
pack does not load. -/
theorem event_returns_or_fatal (w : Window) (world : World) (e : Event) (hst : w.Started) :
    (∃ r : Window × World, w.event e world = .ok r ∧ r.1.Started) ∨
    (¬ world.ShadersLoad ∧ ∃ message, w.event e world = .error (.qFatal message)) := by
  cases e with
  | Expose isExposed surfacePixelSize =>
    exact exposeEvent_returns_or_fatal
      { w with isExposed := isExposed, surfacePixelSize := surfacePixelSize } world hst
  | UpdateRequest =>
    obtain ⟨r, hr, hstr, -⟩ := render_ok w world hst
    exact Or.inl ⟨r, hr, hstr⟩
  | PlatformSurface surfaceAboutToBeDestroyed =>
    cases surfaceAboutToBeDestroyed
    · exact Or.inl ⟨(w, world), rfl, hst⟩
    · obtain ⟨r, hr, hw, -⟩ := releaseSwapChain_ok w world fun h => hst.1 (hst.2 h)
      refine Or.inl ⟨r, hr, ?_⟩
      rw [hw]
      exact ⟨hst.1, fun h => absurd h (by simp)⟩
  | other => exact Or.inl ⟨(w, world), rfl, hst⟩

/-- A sequence of events on a window in a consistent state: every handler returns
and the window is left in a consistent state, or the program ends in `init`
because a shader pack does not load. -/
theorem events_return_or_fatal (events : List Event) :
    ∀ (w : Window) (world : World), w.Started →
      (∃ r : Window × World, w.events world events = .ok r ∧ r.1.Started) ∨
      (∃ message, w.events world events = .error (.qFatal message)) := by
  induction events with
  | nil =>
    intro w world hst
    exact Or.inl ⟨(w, world), rfl, hst⟩
  | cons e rest ih =>
    intro w world hst
    rcases event_returns_or_fatal w world e hst with ⟨r1, hr1, hst1⟩ | ⟨-, message, hfatal⟩
    · rcases ih r1.1 r1.2 hst1 with ⟨r, hr, hstr⟩ | ⟨message, hfatal⟩
      · exact Or.inl ⟨r, by simp only [Window.events, hr1, hr], hstr⟩
      · exact Or.inr ⟨message, by simp only [Window.events, hr1, hfatal]⟩
    · exact Or.inr ⟨message, by simp only [Window.events, hfatal]⟩

/-- C23 (amended): in every state that a window reaches through its events from a
consistent state (the constructed window is one), `m_hasSwapChain` being true
implies that `m_sc` is not null, and no member uses a null swapchain pointer:
every sequence of events is handled to its end, or the program ends in the
`qFatal` of `init` when a shader pack does not load.  In such a state
`exposeEvent`, `render` and `releaseSwapChain` return and keep the state
consistent, `init` makes `m_sc` non-null, and `resizeSwapChain` returns when
`m_sc` is not null and keeps it so.  The member `releaseResources`, which only
the destructor calls, sets `m_sc` to null and leaves `m_hasSwapChain` as it is. -/
theorem C23_hasSwapChain_implies_swapchain_object (w : Window) (world : World)
    (events : List Event) (hst : w.Started) :
    ((∃ r : Window × World, w.events world events = .ok r ∧ r.1.Started ∧
        (r.1.m_hasSwapChain = true → r.1.m_sc ≠ none)) ∨
     (¬ world.ShadersLoad ∧ ∃ message, w.events world events = .error (.qFatal message))) ∧
    w.events world events ≠ .error .nullSwapChain ∧
    (∀ (v : Window) (world1 : World), v.Started →
      ((∃ r : Window × World, v.exposeEvent world1 = .ok r ∧ r.1.Started) ∨
       (¬ world1.ShadersLoad ∧ ∃ message, v.exposeEvent world1 = .error (.qFatal message))) ∧
      (∃ r : Window × World, v.render world1 = .ok r ∧ r.1.Started) ∧
      (∃ r : Window × World, v.releaseSwapChain world1 = .ok r ∧ r.1.Started ∧
        r.1.m_hasSwapChain = false) ∧
      (world1.ShadersLoad →
        ∃ r : Window × World, v.init world1 = .ok r ∧ r.1.m_sc ≠ none ∧ r.1.Started) ∧
      (v.m_sc ≠ none →
        ∃ r : Window × World, v.resizeSwapChain world1 = .ok r ∧ r.1.m_sc ≠ none)) ∧
    w.releaseResources.m_sc = none ∧ w.releaseResources.m_hasSwapChain = w.m_hasSwapChain := by
  have hev : (∃ r : Window × World, w.events world events = .ok r ∧ r.1.Started ∧
        (r.1.m_hasSwapChain = true → r.1.m_sc ≠ none)) ∨
      (¬ world.ShadersLoad ∧ ∃ message, w.events world events = .error (.qFatal message)) := by
    by_cases hsh : world.ShadersLoad
    · obtain ⟨r, hr, hstr, -⟩ := events_ok events w world hst hsh
      exact Or.inl ⟨r, hr, hstr, fun h => hstr.1 (hstr.2 h)⟩
    · rcases events_return_or_fatal events w world hst with ⟨r, hr, hstr⟩ | hfatal
      · exact Or.inl ⟨r, hr, hstr, fun h => hstr.1 (hstr.2 h)⟩
      · exact Or.inr ⟨hsh, hfatal⟩
  refine ⟨hev, ?_, ?_, rfl, rfl⟩
  · rcases hev with ⟨r, hr, -⟩ | ⟨-, message, hfatal⟩
    · rw [hr]
      exact fun h => Except.noConfusion h
    · rw [hfatal]
      exact fun h => Fault.noConfusion (Except.error.inj h)
  · intro v world1 hv
    refine ⟨exposeEvent_returns_or_fatal v world1 hv, ?_, ?_, ?_, ?_⟩
    · obtain ⟨r, hr, hstr, -⟩ := render_ok v world1 hv
      exact ⟨r, hr, hstr⟩
    · obtain ⟨r, hr, hw, -⟩ := releaseSwapChain_ok v world1 fun h => hv.1 (hv.2 h)
      refine ⟨r, hr, ?_, by rw [hw]⟩
      rw [hw]
      exact ⟨hv.1, fun h => absurd h (by simp)⟩
    · intro hsh
      obtain ⟨r, hr, -, -, -, -, hsc, hrun, -, -, hhas, -⟩ := init_ok v world1 hsh
      exact ⟨r, hr, hsc, fun _ => hsc, fun h => by rw [hrun]; exact hv.2 (by rw [← hhas]; exact h)⟩
    · intro hsc
      obtain ⟨sc, hsc'⟩ := Option.ne_none_iff_exists'.mp hsc
      obtain ⟨w1, world2, hres, -, hsc1, -⟩ := resizeSwapChain_some v world1 sc hsc'
      exact ⟨(w1, world2), hres, hsc1⟩

/-- Witness for C23: the first window of the demo as constructed, with an expose
event at 800x600, an update request and the event that announces the
destruction of the surface. -/
theorem C23_hasSwapChain_implies_swapchain_object_witness :
    firstWindow.Started ∧
    firstWindow.events {}
        [.Expose true { width := 800, height := 600 }, .UpdateRequest, .PlatformSurface true]
      ≠ .error .nullSwapChain :=
  ⟨⟨by decide, by decide⟩,
   (C23_hasSwapChain_implies_swapchain_object firstWindow {}
      [.Expose true { width := 800, height := 600 }, .UpdateRequest, .PlatformSurface true]
      ⟨by decide, by decide⟩).2.1⟩

/-- C23, counterexample to the claim as stated: the first window of the demo is
exposed at 800x600 (`exposeEvent` starts it and renders a frame), then
`releaseResources` runs.  Now `m_hasSwapChain` is true and `m_sc` is null, and
the next `render` uses the null pointer. -/
theorem C23_releaseResources_keeps_hasSwapChain :
    ∃ r : Window × World,
      ({ firstWindow with
          isExposed := true
          surfacePixelSize := { width := 800, height := 600 } } : Window).exposeEvent {} = .ok r ∧
      r.1.releaseResources.m_hasSwapChain = true ∧ r.1.releaseResources.m_sc = none ∧
      r.1.releaseResources.render r.2 = .error .nullSwapChain :=
  ⟨_, rfl, rfl, rfl, rfl⟩

/-! ## Claims about the opacity animation -/

/-- The opacity and its direction after the recording of one frame, from the
opacity `stepped` that the step of 1/200 gives. -/
theorem renderFrame_opacity (w : Window) (sc : QRhiSwapChain) (world : World)
    (hdir : w.m_opacityDir = 1 ∨ w.m_opacityDir = -1) (stepped : Rat)
    (hstepped : stepped = w.m_opacity + (w.m_opacityDir : Rat) * (1 / 200)) :
    0 ≤ (w.renderFrame sc world).1.m_opacity ∧ (w.renderFrame sc world).1.m_opacity ≤ 1 ∧
    ((w.renderFrame sc world).1.m_opacityDir = 1 ∨
      (w.renderFrame sc world).1.m_opacityDir = -1) ∧
    ((w.renderFrame sc world).1.m_opacityDir = -w.m_opacityDir ↔ stepped < 0 ∨ 1 < stepped) ∧
    (stepped < 0 → (w.renderFrame sc world).1.m_opacity = 0) ∧
    (1 < stepped → (w.renderFrame sc world).1.m_opacity = 1) ∧
    (0 ≤ stepped → stepped ≤ 1 →
      (w.renderFrame sc world).1.m_opacity = stepped ∧
      (w.renderFrame sc world).1.m_opacityDir = w.m_opacityDir) := by
  have hneg : toInt (w.m_opacityDir * -1) = -w.m_opacityDir := by
    rw [toInt_eq_self (by omega) (by omega)]
    omega
  have hop : (w.renderFrame sc world).1.m_opacity
      = if stepped < 0 ∨ 1 < stepped then Window.qBound 0 stepped 1 else stepped := by
    rw [hstepped]
    simp [Window.renderFrame]
  have hd : (w.renderFrame sc world).1.m_opacityDir
      = if stepped < 0 ∨ 1 < stepped then -w.m_opacityDir else w.m_opacityDir := by
    rw [hstepped, ← hneg]
    simp [Window.renderFrame]
  rw [hop, hd]
  unfold Window.qBound
  by_cases h0 : stepped < 0
  · have h1 : ¬ 1 < stepped := by linarith
    simp only [h0, h1, true_or, if_true, or_false]
    refine ⟨le_refl _, by norm_num, by omega, by simp, by tauto, by tauto,
      fun h => absurd h0 (not_lt.mpr h)⟩
  · by_cases h1 : 1 < stepped
    · simp only [h0, h1, or_true, if_true, if_false, false_or]
      refine ⟨by norm_num, le_refl _, by omega, by simp, by tauto, by tauto,
        fun _ h => absurd h1 (not_lt.mpr h)⟩
    · simp only [h0, h1, or_self, if_false]
      refine ⟨not_lt.mp h0, not_lt.mp h1, by omega, ?_, by tauto, by tauto, by tauto⟩
      constructor
      · intro h
        omega
      · intro h
        exact absurd h (by simp)

/-- The opacity after one `render` is in range when it was in range before. -/
theorem Window.OpacityAfter.inRange {w v : Window} {calls : List Call}
    (h : w.OpacityAfter v calls) (hin : w.OpacityInRange) : v.OpacityInRange := by
  rcases h with ⟨-, h1, h2⟩ | ⟨-, h⟩
  · unfold Window.OpacityInRange
    rw [h1, h2]
    exact hin
  · obtain ⟨h1, h2⟩ := h {} {}
    obtain ⟨g1, g2, g3, -⟩ := renderFrame_opacity w {} {} hin.1 _ rfl
    unfold Window.OpacityInRange
    rw [h1, h2]
    exact ⟨g3, g1, g2⟩

/-- Calls without `endFrame` before the calls of a `render` on a window with the
same opacity and direction. -/
theorem Window.OpacityAfter.prepend {w w1 v : Window} {calls calls1 : List Call}
    (h : w1.OpacityAfter v calls) (h1 : w1.m_opacity = w.m_opacity)
    (h2 : w1.m_opacityDir = w.m_opacityDir) (hcount : calls1.count .endFrame = 0) :
    w.OpacityAfter v (calls1 ++ calls) := by
  rcases h with ⟨g0, g1, g2⟩ | ⟨g0, g⟩
  · exact Or.inl ⟨by rw [List.count_append, hcount, g0], by rw [g1, h1], by rw [g2, h2]⟩
  · refine Or.inr ⟨by rw [List.count_append, hcount, g0], fun sc world => ?_⟩
    obtain ⟨g1, g2⟩ := g sc world
    rw [g1, g2]
    simp [Window.renderFrame, h1, h2]

/-- The member `resizeSwapChain`, when it returns, has recorded no frame and has
left the opacity and its direction as they were. -/
theorem resizeSwapChain_frame (w : Window) (world : World) (r : Window × World)
    (h : w.resizeSwapChain world = .ok r) :
    r.1.m_opacity = w.m_opacity ∧ r.1.m_opacityDir = w.m_opacityDir ∧
    ∃ calls, r.2.log = world.log ++ calls ∧ calls.count .endFrame = 0 := by
  unfold Window.resizeSwapChain at h
  cases hsc : w.m_sc with
  | none =>
    rw [hsc] at h
    exact Except.noConfusion h
  | some sc =>
    rw [hsc] at h
    cases Except.ok.inj h
    exact ⟨rfl, rfl, _, by simp [World.record]; rfl, by simp⟩

/-- The part of `render` from the test of the result of `beginFrame` on, when it
returns: what it did to the opacity. -/
theorem renderResult_frame (w : Window) (result : FrameOpResult) (world : World)
    (r : Window × World) (h : w.renderResult result world = .ok r) :
    ∃ calls, r.2.log = world.log ++ calls ∧ w.OpacityAfter r.1 calls := by
  unfold Window.renderResult at h
  split_ifs at h with hres
  · cases Except.ok.inj h
    exact ⟨[.requestUpdate], rfl, Or.inl ⟨by simp, rfl, rfl⟩⟩
  · cases hsc : w.m_sc with
    | none =>
      rw [hsc] at h
      exact Except.noConfusion h
    | some sc =>
      rw [hsc] at h
      cases Except.ok.inj h
      refine ⟨Window.frameCalls world.d.initialUpdates.isSome sc.currentPixelSize, rfl,
        Or.inr ⟨?_, fun sc1 world1 => ⟨rfl, rfl⟩⟩⟩
      cases world.d.initialUpdates.isSome <;> simp [Window.frameCalls]

/-- The part of `render` from the first `beginFrame` on, when it returns: what it
did to the opacity. -/
theorem renderBegin_frame (w : Window) (world : World) (r : Window × World)
    (h : w.renderBegin world = .ok r) :
    ∃ calls, r.2.log = world.log ++ calls ∧ w.OpacityAfter r.1 calls := by
  unfold Window.renderBegin at h
  dsimp only at h
  split_ifs at h with hood
  · cases hresize : w.resizeSwapChain (Window.beginFrame world).2 with
    | error fault =>
      rw [hresize] at h
      exact Except.noConfusion h
    | ok resized =>
      rw [hresize] at h
      dsimp only at h
      obtain ⟨h1, h2, calls1, hlog1, hcount1⟩ := resizeSwapChain_frame w _ resized hresize
      have hlog0 : (Window.beginFrame world).2.log
          = world.log ++ [.beginFrame (Window.beginFrame world).1] := rfl
      split_ifs at h with hhas
      · cases Except.ok.inj h
        refine ⟨[.beginFrame (Window.beginFrame world).1] ++ calls1,
          by rw [hlog1, hlog0, List.append_assoc], Or.inl ⟨?_, h1, h2⟩⟩
        rw [List.count_append, hcount1]
        simp
      · obtain ⟨calls2, hlog2, hafter⟩ := renderResult_frame _ _ _ r h
        have hlog3 : (Window.beginFrame resized.2).2.log
            = resized.2.log ++ [.beginFrame (Window.beginFrame resized.2).1] := rfl
        refine ⟨([.beginFrame (Window.beginFrame world).1] ++ calls1
            ++ [.beginFrame (Window.beginFrame resized.2).1]) ++ calls2, ?_,
          hafter.prepend h1 h2 ?_⟩
        · rw [hlog2, hlog3, hlog1, hlog0]
          simp
        · rw [List.count_append, List.count_append, hcount1]
          simp
  · obtain ⟨calls2, hlog2, hafter⟩ := renderResult_frame _ _ _ r h
    have hlog0 : (Window.beginFrame world).2.log
        = world.log ++ [.beginFrame (Window.beginFrame world).1] := rfl
    refine ⟨[.beginFrame (Window.beginFrame world).1] ++ calls2, ?_,
      hafter.prepend rfl rfl (by simp)⟩
    rw [hlog2, hlog0, List.append_assoc]

/-- The member `render`, when it returns: what it did to the opacity. -/
theorem render_frame (w : Window) (world : World) (r : Window × World)
    (h : w.render world = .ok r) :
    ∃ calls, r.2.log = world.log ++ calls ∧ w.OpacityAfter r.1 calls := by
  unfold Window.render at h
  dsimp only at h
  split_ifs at h with hguard
  · cases Except.ok.inj h
    exact ⟨[.render], rfl, Or.inl ⟨by simp, rfl, rfl⟩⟩
  · cases hsc : w.m_sc with
    | none =>
      rw [hsc] at h
      exact Except.noConfusion h
    | some sc =>
      rw [hsc] at h
      dsimp only at h
      split_ifs at h with hsize
      · cases hresize : w.resizeSwapChain (world.record .render) with
        | error fault =>
          rw [hresize] at h
          exact Except.noConfusion h
        | ok resized =>
          rw [hresize] at h
          dsimp only at h
          obtain ⟨h1, h2, calls1, hlog1, hcount1⟩ := resizeSwapChain_frame w _ resized hresize
          split_ifs at h with hhas
          · cases Except.ok.inj h
            refine ⟨[.render] ++ calls1, by rw [hlog1]; simp, Or.inl ⟨?_, h1, h2⟩⟩
            rw [List.count_append, hcount1]
            simp
          · obtain ⟨calls2, hlog2, hafter⟩ := renderBegin_frame _ _ r h
            refine ⟨([.render] ++ calls1) ++ calls2, by rw [hlog2, hlog1]; simp,
              hafter.prepend h1 h2 ?_⟩
            rw [List.count_append, hcount1]
            simp
      · obtain ⟨calls2, hlog2, hafter⟩ := renderBegin_frame _ _ r h
        exact ⟨[.render] ++ calls2, by rw [hlog2]; simp, hafter.prepend rfl rfl (by simp)⟩

/-- A window with the opacity and the direction of a window whose opacity is in
range. -/
theorem Window.OpacityInRange.of_eq {w v : Window} (hin : w.OpacityInRange)
    (h : v.m_opacity = w.m_opacity ∧ v.m_opacityDir = w.m_opacityDir) : v.OpacityInRange := by
  unfold Window.OpacityInRange
  rw [h.1, h.2]
  exact hin

/-- The member `init`, when it returns, has left the opacity and its direction as
they were. -/
theorem init_opacity (w : Window) (world : World) (r : Window × World)
    (h : w.init world = .ok r) :
    r.1.m_opacity = w.m_opacity ∧ r.1.m_opacityDir = w.m_opacityDir := by
  unfold Window.init at h
  dsimp only at h
  split at h
  · exact Except.noConfusion h
  · cases Except.ok.inj h
    exact ⟨rfl, rfl⟩

/-- The member `releaseSwapChain`, when it returns, has left the opacity and its
direction as they were. -/
theorem releaseSwapChain_opacity (w : Window) (world : World) (r : Window × World)
    (h : w.releaseSwapChain world = .ok r) :
    r.1.m_opacity = w.m_opacity ∧ r.1.m_opacityDir = w.m_opacityDir := by
  unfold Window.releaseSwapChain at h
  dsimp only at h
  split_ifs at h
  · cases hsc : w.m_sc with
    | none =>
      rw [hsc] at h
      exact Except.noConfusion h
    | some sc =>
      rw [hsc] at h
      cases Except.ok.inj h
      exact ⟨rfl, rfl⟩
  · cases Except.ok.inj h
    exact ⟨rfl, rfl⟩

/-- The first statement of `exposeEvent`, when it returns, has left the opacity and
its direction as they were. -/
theorem exposeStart_opacity (w : Window) (world : World) (r : Window × World)
    (h : w.exposeStart world = .ok r) :
    r.1.m_opacity = w.m_opacity ∧ r.1.m_opacityDir = w.m_opacityDir := by
  unfold Window.exposeStart at h
  split_ifs at h
  · cases hinit : ({ w with m_running := true } : Window).init world with
    | error fault =>
      rw [hinit] at h
      exact Except.noConfusion h
    | ok started =>
      rw [hinit] at h
      dsimp only at h
      obtain ⟨h1, h2⟩ := init_opacity _ _ _ hinit
      obtain ⟨g1, g2, -⟩ := resizeSwapChain_frame _ _ _ h
      exact ⟨g1.trans h1, g2.trans h2⟩
  · cases Except.ok.inj h
    exact ⟨rfl, rfl⟩

/-- The second statement of `exposeEvent`, when it returns, has left the opacity
and its direction as they were. -/
theorem exposeStop_opacity (w v : Window) (h : w.exposeStop = .ok v) :
    v.m_opacity = w.m_opacity ∧ v.m_opacityDir = w.m_opacityDir := by
  unfold Window.exposeStop at h
  cases hempty : w.surfaceIsEmpty <;> rw [hempty] at h <;> split_ifs at h <;> first
    | exact Except.noConfusion h
    | (cases Except.ok.inj h
       first
         | exact ⟨rfl, rfl⟩
         | (split_ifs <;> exact ⟨rfl, rfl⟩))

/-- The third statement of `exposeEvent`, when it returns, has left the opacity and
its direction as they were. -/
theorem exposeContinue_opacity (w v : Window) (h : w.exposeContinue = .ok v) :
    v.m_opacity = w.m_opacity ∧ v.m_opacityDir = w.m_opacityDir := by
  unfold Window.exposeContinue at h
  cases hempty : w.surfaceIsEmpty <;> rw [hempty] at h <;> split_ifs at h <;> first
    | exact Except.noConfusion h
    | (cases Except.ok.inj h
       first
         | exact ⟨rfl, rfl⟩
         | (split_ifs <;> exact ⟨rfl, rfl⟩))

/-- The member `exposeEvent`, when it returns, has kept the opacity in range. -/
theorem exposeEvent_inRange (w : Window) (world : World) (r : Window × World)
    (h : w.exposeEvent world = .ok r) (hin : w.OpacityInRange) : r.1.OpacityInRange := by
  unfold Window.exposeEvent at h
  cases hstart : w.exposeStart world with
  | error fault =>
    rw [hstart] at h
    exact Except.noConfusion h
  | ok started =>
    rw [hstart] at h
    dsimp only at h
    cases hstop : started.1.exposeStop with
    | error fault =>
      rw [hstop] at h
      exact Except.noConfusion h
    | ok stopped =>
      rw [hstop] at h
      dsimp only at h
      cases hcont : stopped.exposeContinue with
      | error fault =>
        rw [hcont] at h
        exact Except.noConfusion h
      | ok continued =>
        rw [hcont] at h
        dsimp only at h
        have hin3 : continued.OpacityInRange :=
          ((hin.of_eq (exposeStart_opacity _ _ _ hstart)).of_eq
            (exposeStop_opacity _ _ hstop)).of_eq (exposeContinue_opacity _ _ hcont)
        unfold Window.exposeRender at h
        split_ifs at h
        · cases hempty : continued.surfaceIsEmpty with
          | error fault =>
            rw [hempty] at h
            exact Except.noConfusion h
          | ok empty =>
            rw [hempty] at h
            dsimp only at h
            split_ifs at h
            · obtain ⟨calls, -, hafter⟩ := render_frame _ _ _ h
              exact hafter.inRange hin3
            · cases Except.ok.inj h
              exact hin3
        · cases Except.ok.inj h
          exact hin3

/-- One event, when its handler returns, has kept the opacity in range. -/
theorem event_inRange (w : Window) (world : World) (e : Event) (r : Window × World)
    (h : w.event e world = .ok r) (hin : w.OpacityInRange) : r.1.OpacityInRange := by
  cases e with
  | Expose isExposed surfacePixelSize =>
    exact exposeEvent_inRange
      { w with isExposed := isExposed, surfacePixelSize := surfacePixelSize } world r h hin
  | UpdateRequest =>
    obtain ⟨calls, -, hafter⟩ := render_frame w world r h
    exact hafter.inRange hin
  | PlatformSurface surfaceAboutToBeDestroyed =>
    cases surfaceAboutToBeDestroyed
    · cases Except.ok.inj h
      exact hin
    · exact hin.of_eq (releaseSwapChain_opacity w world r h)
  | other =>
    cases Except.ok.inj h
    exact hin

/-- A sequence of events, when every handler returns, has kept the opacity in
range. -/
theorem events_inRange (events : List Event) :
    ∀ (w : Window) (world : World) (r : Window × World),
      w.events world events = .ok r → w.OpacityInRange → r.1.OpacityInRange := by
  induction events with
  | nil =>
    intro w world r h hin
    cases Except.ok.inj h
    exact hin
  | cons e rest ih =>
    intro w world r h hin
    simp only [Window.events] at h
    cases hev : w.event e world with
    | error fault =>
      rw [hev] at h
      exact Except.noConfusion h
    | ok next =>
      rw [hev] at h
      exact ih next.1 next.2 r h (event_inRange w world e next hev hin)

/-- C24: the opacity animation stays in range, over exact rational arithmetic.  A
`render` on a window in a consistent state whose `m_opacityDir` is 1 or -1
returns and leaves `m_opacityDir` at 1 or -1.  When it records no frame, the
opacity and its direction are as before.  When it records a frame, then with
`stepped` the opacity after the step of 1/200 in the direction: the new opacity
lies between 0 and 1; the direction is negated exactly when `stepped` is below
0 or above 1, and then the opacity is 0 or 1, the bound that was crossed;
otherwise the opacity is `stepped` and the direction is kept.  From a window
whose opacity is in range (the constructed window has opacity 1 and direction
-1), every sequence of events leaves the opacity in range. -/
theorem C24_opacity_stays_in_range (w : Window) (world : World) (hst : w.Started)
    (hdir : w.m_opacityDir = 1 ∨ w.m_opacityDir = -1) :
    (∃ r : Window × World, w.render world = .ok r ∧
      (r.1.m_opacityDir = 1 ∨ r.1.m_opacityDir = -1) ∧
      (((callsSince world r.2).count .endFrame = 0 ∧
          r.1.m_opacity = w.m_opacity ∧ r.1.m_opacityDir = w.m_opacityDir) ∨
       ((callsSince world r.2).count .endFrame = 1 ∧
          ∃ stepped : Rat, stepped = w.m_opacity + (w.m_opacityDir : Rat) * (1 / 200) ∧
            0 ≤ r.1.m_opacity ∧ r.1.m_opacity ≤ 1 ∧
            (r.1.m_opacityDir = -w.m_opacityDir ↔ stepped < 0 ∨ 1 < stepped) ∧
            (stepped < 0 → r.1.m_opacity = 0) ∧
            (1 < stepped → r.1.m_opacity = 1) ∧
            (0 ≤ stepped → stepped ≤ 1 →
              r.1.m_opacity = stepped ∧ r.1.m_opacityDir = w.m_opacityDir)))) ∧
    (0 ≤ w.m_opacity → w.m_opacity ≤ 1 →
      ∀ (events : List Event) (world1 : World), world1.ShadersLoad →
        ∃ r : Window × World, w.events world1 events = .ok r ∧ r.1.OpacityInRange) := by
  constructor
  · obtain ⟨r, hr, -⟩ := render_ok w world hst
    obtain ⟨calls, hlog, hafter⟩ := render_frame w world r hr
    have hcalls := callsSince_of_log world r.2 calls hlog
    rcases hafter with ⟨hcount, h1, h2⟩ | ⟨hcount, hframe⟩
    · exact ⟨r, hr, by rw [h2]; exact hdir, Or.inl ⟨by rw [hcalls]; exact hcount, h1, h2⟩⟩
    · obtain ⟨h1, h2⟩ := hframe {} world
      obtain ⟨g1, g2, g3, g4, g5, g6, g7⟩ := renderFrame_opacity w {} world hdir _ rfl
      rw [← h1, ← h2] at g7
      rw [← h1] at g1 g2 g5 g6
      rw [← h2] at g3 g4
      exact ⟨r, hr, g3, Or.inr ⟨by rw [hcalls]; exact hcount, _, rfl, g1, g2, g4, g5, g6, g7⟩⟩
  · intro h0 h1 events world1 hsh
    obtain ⟨r, hr, -⟩ := events_ok events w world1 hst hsh
    exact ⟨r, hr, events_inRange events w world1 r hr ⟨hdir, h0, h1⟩⟩

/-- Witness for C24: the first window of the demo, exposed with a swapchain; its
`render` records a frame, the opacity goes from 1 to 199/200 and the direction
stays -1. -/
theorem C24_opacity_stays_in_range_witness :
    exposedWindow.Started ∧ (exposedWindow.m_opacityDir = 1 ∨ exposedWindow.m_opacityDir = -1) ∧
    ∃ r : Window × World, exposedWindow.render {} = .ok r ∧
      (r.1.m_opacityDir = 1 ∨ r.1.m_opacityDir = -1) :=
  ⟨⟨by decide, by decide⟩, Or.inr rfl,
   (C24_opacity_stays_in_range exposedWindow {} ⟨by decide, by decide⟩ (Or.inr rfl)).1.imp
     fun _ h => ⟨h.1, h.2.1⟩⟩

/-- The opacity animation replayed at its two ends: at opacity 0 with direction -1
the step goes below 0, the opacity is clamped to 0 and the direction becomes 1;
at opacity 1 with direction 1 the step goes above 1, the opacity is clamped to
1 and the direction becomes -1; at opacity 1 with direction -1 the opacity
becomes 199/200 and the direction stays. -/
theorem opacityBounce_replay :
    (({ exposedWindow with m_opacity := 0 } : Window).render {}).map
        (fun r => (r.1.m_opacity, r.1.m_opacityDir)) = .ok (0, 1) ∧
    (({ exposedWindow with m_opacityDir := 1 } : Window).render {}).map
        (fun r => (r.1.m_opacity, r.1.m_opacityDir)) = .ok (1, -1) ∧
    (exposedWindow.render {}).map
        (fun r => (r.1.m_opacity, r.1.m_opacityDir)) = .ok (199 / 200, -1) := by
  have hneg : toInt 1 = 1 := toInt_eq_self (by norm_num) (by norm_num)
  have hpos : toInt (-1) = -1 := toInt_eq_self (by norm_num) (by norm_num)
  refine ⟨?_, ?_, ?_⟩ <;>
    simp [Window.render, Window.renderBegin, Window.renderResult, Window.renderFrame,
      Window.beginFrame, Window.qBound, exposedWindow, World.record, Except.map, hneg, hpos]
  · norm_num
  · refine ⟨?_, by norm_num⟩
    rw [if_neg (by norm_num)]
    norm_num

end MultiWindow
